import Mathlib

/-!
# Frame geometry and terminal scheduler of the satellite return link

A shallow embedding of `helper/satellite-frame-conf.cc` and of the allocation
path, the transmission execution, the control-message dispatch, the random
access path and the contention slot registry of `model/satellite-ut-mac.cc`.

Conventions of the embedding

* `uint8_t`, `uint16_t`, `uint32_t` arguments and members are `Fin 2^w`; local
  variables of these types are natural numbers that are reduced `% 2^w` after
  every arithmetic operation, as the machine does.
* `double` quantities (Hz, seconds, baud) are exact rationals, and sums and
  products of doubles are exact. The one quotient that is converted to an
  integer, the carrier count of the `SatFrameConf` constructor, is rounded to
  binary64 before it is truncated (`doubleDiv`, `doubleToUint32`).
* `NS_ASSERT` is active (debug build): a false condition aborts the call with
  `Fault.assertFailed`.  `NS_FATAL_ERROR` aborts with `Fault.fatalError`.
* The one-line accessors of the header (`GetBandwidth_hz`, `GetCarrierCount`,
  `GetBtuConf`, ...) return the member they are named after.
* Reading a `std::vector` past its end is undefined behaviour; the embedding
  stops there with `Fault.outOfBounds i`, `i` being the offending index.
  Converting a double that is not finite, or whose truncation is not in
  `0 .. 2^32 - 1`, to `uint32_t` is undefined behaviour; the embedding stops
  there with `Fault.undefinedConversion`.
* The `while` loops, and the `for` loop whose 8-bit counter can wrap, are run
  with fuel (a bound on the number of loop tests); `none` means that the fuel
  ran out before the loop ended.
-/

namespace ns3

/-! ## Machine integers -/

abbrev uint8_t := Fin 256
abbrev uint16_t := Fin 65536
abbrev uint32_t := Fin 4294967296

/-- Conversion of a natural number to `uint32_t` (reduction modulo `2^32`). -/
def toUint32 (n : Nat) : uint32_t := ⟨n % 4294967296, Nat.mod_lt _ (by decide)⟩

/-- Conversion of a natural number to `uint16_t` (reduction modulo `2^16`). -/
def toUint16 (n : Nat) : uint16_t := ⟨n % 65536, Nat.mod_lt _ (by decide)⟩

/-- Conversion of a natural number to `uint8_t` (reduction modulo `2^8`). -/
def toUint8 (n : Nat) : uint8_t := ⟨n % 256, Nat.mod_lt _ (by decide)⟩

/-! ## Abnormal termination -/

/-- The places of `SatUtMac` that call `NS_FATAL_ERROR`. -/
inductive FatalSite where
  /-- Message "received TBTP ..., which should have been sent already in the past". -/
  | tbtpInThePast
  /-- Message "Error in TBTP: slot allocate from different frames for same UT!!!". -/
  | slotsFromDifferentFrames
  /-- Message "The PPDU was too big for the time slot!". -/
  | ppduTooBig
  /-- Message "SatUtMac::UpdateUsedRandomAccessSlots - Insert failed". -/
  | raInsertFailed
  /-- Message "TBTP not found, check that TBTP storage time is set long enough for
  superframe sequence!!!". -/
  | tbtpNotFound
  /-- Message "SatUtMac received a non-supported control packet!". -/
  | nonSupportedControlPacket
  deriving DecidableEq, Repr

/-- The ways a call can abort. -/
inductive Fault where
  /-- An `NS_ASSERT` whose condition is false. -/
  | assertFailed
  /-- An `NS_FATAL_ERROR`. -/
  | fatalError (site : FatalSite)
  /-- An `operator[]` read of a vector at an index that is not below its size. -/
  | outOfBounds (index : Nat)
  /-- An abort inside a collaborator whose source is not part of the sources. -/
  | externalAbort
  /-- A conversion `double -> uint32_t` of a value that is not finite or whose
  truncation is not representable. -/
  | undefinedConversion
  deriving DecidableEq, Repr

deriving instance DecidableEq for Except

/-! ## `SatBtuConf`, `SatTimeSlotConf`, `SatFrameConf` -/

structure SatBtuConf where
  m_bandwidth_hz : ℚ
  m_length_s : ℚ
  m_symbolRate_baud : ℚ
  deriving DecidableEq

/-- Source `SatBtuConf::SatBtuConf (bandwidth_hz, length_s, symbolRate_baud)`. -/
def SatBtuConf.ctor (bandwidth_hz length_s symbolRate_baud : ℚ) : SatBtuConf :=
  { m_bandwidth_hz := bandwidth_hz
    m_length_s := length_s
    m_symbolRate_baud := symbolRate_baud }

def SatBtuConf.GetBandwidth_hz (b : SatBtuConf) : ℚ := b.m_bandwidth_hz

def SatBtuConf.GetSymbolRateInBauds (b : SatBtuConf) : ℚ := b.m_symbolRate_baud

structure SatTimeSlotConf where
  m_startTime_s : ℚ
  m_duration_s : ℚ
  m_waveFormId : uint8_t
  m_frameCarrierId : uint32_t
  deriving DecidableEq

def SatTimeSlotConf.GetStartTimeInSeconds (s : SatTimeSlotConf) : ℚ := s.m_startTime_s

def SatTimeSlotConf.GetWaveFormId (s : SatTimeSlotConf) : uint8_t := s.m_waveFormId

def SatTimeSlotConf.GetCarrierId (s : SatTimeSlotConf) : uint32_t := s.m_frameCarrierId

/-- The frame configuration. `m_carrierCount` is declared in the header
`satellite-frame-conf.h`; every variable of `satellite-frame-conf.cc` that
receives it or is compared with it is a `uint32_t`, which is the width used
here. -/
structure SatFrameConf where
  m_bandwidth_hz : ℚ
  m_duration_s : ℚ
  m_btu : SatBtuConf
  m_carrierCount : uint32_t
  m_timeSlots : List SatTimeSlotConf
  deriving DecidableEq

/-- Rounding to the nearest integer, ties to the even one. -/
def roundHalfEven (s : ℚ) : ℤ :=
  if s - Int.floor s < 1 / 2 then Int.floor s
  else if 1 / 2 < s - Int.floor s then Int.floor s + 1
  else if Int.floor s % 2 = 0 then Int.floor s
  else Int.floor s + 1

/-- The binary64 value nearest to `q` (IEEE 754 round to nearest, ties to even):
53 significant bits, the spacing `2^(e - 52)` for `2^e <= |q| < 2^(e + 1)` and
`2^(-1074)` below `2^(-1022)`; `none` when the rounded value is not below
`2^1024` (the result is an infinity). -/
def roundToDouble (q : ℚ) : Option ℚ :=
  if q = 0 then some 0
  else
    let e : ℤ := max (Int.log 2 |q|) (-1022)
    let ulp : ℚ := (2 : ℚ) ^ (e - 52)
    let r : ℚ := (roundHalfEven (q / ulp) : ℚ) * ulp
    if |r| < (2 : ℚ) ^ (1024 : ℕ) then some r else none

/-- The quotient `a / b` of two doubles: the exact quotient rounded to binary64;
`none` when the result is not a finite number (a zero divisor gives an infinity
or a NaN). -/
def doubleDiv (a b : ℚ) : Option ℚ := if b = 0 then none else roundToDouble (a / b)

/-- Conversion `double -> uint32_t`: truncation toward zero. C++ leaves the
conversion undefined when the value is not finite or when the truncated value
is not in `0 .. 2^32 - 1`; the embedding stops there with
`Fault.undefinedConversion`. -/
def doubleToUint32 (d : Option ℚ) : Except Fault uint32_t :=
  match d with
  | none => .error .undefinedConversion
  | some r =>
    let t : ℤ := if 0 ≤ r then Int.floor r else Int.ceil r
    if 0 ≤ t ∧ t < 4294967296 then .ok (toUint32 t.toNat) else .error .undefinedConversion

/-- Source `SatFrameConf::SatFrameConf (bandwidth_hz, duration_s, btu, timeSlots)`;
`timeSlots = none` is the `NULL` pointer. The statement
`m_carrierCount = bandwidth_hz / btu->GetBandwidth_hz ()` divides two doubles and
converts the quotient to `uint32_t`. -/
def SatFrameConf.ctor (bandwidth_hz duration_s : ℚ) (btu : SatBtuConf)
    (timeSlots : Option (List SatTimeSlotConf)) : Except Fault SatFrameConf :=
  match doubleToUint32 (doubleDiv bandwidth_hz btu.GetBandwidth_hz) with
  | .error e => .error e
  | .ok carrierCount =>
    .ok { m_bandwidth_hz := bandwidth_hz
          m_duration_s := duration_s
          m_btu := btu
          m_carrierCount := carrierCount
          m_timeSlots := match timeSlots with
            | some slots => slots
            | none => [] }

def SatFrameConf.GetBandwidth_hz (f : SatFrameConf) : ℚ := f.m_bandwidth_hz

def SatFrameConf.GetBtuConf (f : SatFrameConf) : SatBtuConf := f.m_btu

def SatFrameConf.GetCarrierCount (f : SatFrameConf) : Nat := f.m_carrierCount.val

/-- Modelled from the spec: `SatFrameConf::GetCarrierBandwidth_hz` is defined in
the header, which is not part of the sources; a frame is a band of identical
carriers, each as wide as the elementary unit (the width that
`GetCarrierFrequency_hz` uses). -/
def SatFrameConf.GetCarrierBandwidth_hz (f : SatFrameConf) : ℚ := f.m_btu.GetBandwidth_hz

/-- Source `SatFrameConf::GetCarrierFrequency_hz (uint32_t carrierId)`. -/
def SatFrameConf.GetCarrierFrequency_hz (f : SatFrameConf) (carrierId : uint32_t) :
    Except Fault ℚ :=
  if carrierId.val < f.m_carrierCount.val then
    let carrierBandwidth_hz := f.m_btu.GetBandwidth_hz
    .ok ((carrierBandwidth_hz * (carrierId.val : ℚ)) + (carrierBandwidth_hz / 2))
  else
    .error .assertFailed

/-- Source `SatFrameConf::GetTimeSlotConf (uint16_t index)`. -/
def SatFrameConf.GetTimeSlotConf (f : SatFrameConf) (index : uint16_t) :
    Except Fault SatTimeSlotConf :=
  if h : index.val < f.m_timeSlots.length then
    .ok (f.m_timeSlots.get ⟨index.val, h⟩)
  else
    .error .assertFailed

/-- Source `SatFrameConf::AddTimeSlotConf (conf)`: `push_back` on the slot vector. -/
def SatFrameConf.AddTimeSlotConf (f : SatFrameConf) (conf : SatTimeSlotConf) : SatFrameConf :=
  { f with m_timeSlots := f.m_timeSlots ++ [conf] }

/-! ## `SatSuperframeConf` -/

structure SatSuperframeConf where
  m_bandwidth_hz : ℚ
  m_duration_s : ℚ
  m_frames : List SatFrameConf
  deriving DecidableEq

/-- Source `SatSuperframeConf::SatSuperframeConf (bandwidth_hz, duration_s, frames)`;
`frames = none` is the `NULL` pointer. -/
def SatSuperframeConf.ctor (bandwidth_hz duration_s : ℚ)
    (frames : Option (List SatFrameConf)) : SatSuperframeConf :=
  { m_bandwidth_hz := bandwidth_hz
    m_duration_s := duration_s
    m_frames := match frames with
      | some fs => fs
      | none => [] }

/-- Source `SatSuperframeConf::AddFrameConf (conf)`. -/
def SatSuperframeConf.AddFrameConf (sf : SatSuperframeConf) (conf : SatFrameConf) :
    SatSuperframeConf :=
  { sf with m_frames := sf.m_frames ++ [conf] }

/-- Source `SatSuperframeConf::GetFrameConf (uint8_t index)`: an unchecked `m_frames[index]`. -/
def SatSuperframeConf.GetFrameConf (sf : SatSuperframeConf) (index : uint8_t) :
    Except Fault SatFrameConf :=
  match sf.m_frames[index.val]? with
  | some f => .ok f
  | none => .error (.outOfBounds index.val)

/-- The loop of `SatSuperframeConf::GetCarrierCount`
(`for (uint8_t i = 0; i < m_frames.size(); i++)`), from the state
`(i, carrierCount)`. -/
def SatSuperframeConf.GetCarrierCount.loop (frames : List SatFrameConf) :
    Nat → Nat → Nat → Option Nat
  | 0, _, _ => none
  | fuel + 1, i, carrierCount =>
    if h : i < frames.length then
      SatSuperframeConf.GetCarrierCount.loop frames fuel ((i + 1) % 256)
        ((carrierCount + (frames.get ⟨i, h⟩).GetCarrierCount) % 4294967296)
    else
      some carrierCount

/-- Source `SatSuperframeConf::GetCarrierCount ()`, run with `fuel` loop tests. -/
def SatSuperframeConf.GetCarrierCount (sf : SatSuperframeConf) (fuel : Nat) : Option Nat :=
  SatSuperframeConf.GetCarrierCount.loop sf.m_frames fuel 0 0

/-- Source `SatSuperframeConf::GetCarrierId (uint8_t frameId, uint16_t frameCarrierId)`.
The counter `i` runs over `0 .. frameId - 1` and cannot wrap (`i < frameId <= 255`). -/
def SatSuperframeConf.GetCarrierId (sf : SatSuperframeConf) (frameId : uint8_t)
    (frameCarrierId : uint16_t) : Except Fault Nat :=
  (List.range frameId.val).foldlM
    (fun carrierId i =>
      if h : i < sf.m_frames.length then
        .ok ((carrierId + (sf.m_frames.get ⟨i, h⟩).GetCarrierCount) % 4294967296)
      else
        .error .assertFailed)
    frameCarrierId.val

/-- The sum `c0 + ... + c(k-1)` of the carrier counts of the first `k` frames. -/
def carriersBefore (frames : List SatFrameConf) (k : Nat) : Nat :=
  ((frames.take k).map SatFrameConf.GetCarrierCount).sum

/-- The sum of the bandwidths of the first `k` frames. -/
def bandwidthBefore (frames : List SatFrameConf) (k : Nat) : ℚ :=
  ((frames.take k).map SatFrameConf.GetBandwidth_hz).sum

/-- The read `m_frames[i]` of the frame vector. -/
def frameAt (frames : List SatFrameConf) (i : Nat) : Except Fault SatFrameConf :=
  match frames[i]? with
  | some f => .ok f
  | none => .error (.outOfBounds i)

/-- The `while (carrierId > lastIdInFrame)` loop of
`SatSuperframeConf::GetCarrierFrequency_hz`, from the state
`(frameStartFrequency, currentFrame, lastIdInFrame, carrierIdInFrame)`; it
yields `(frameStartFrequency, currentFrame, carrierIdInFrame)` at the exit. -/
def SatSuperframeConf.GetCarrierFrequency_hz.scan (frames : List SatFrameConf) (carrierId : Nat) :
    Nat → ℚ → Nat → Nat → Nat → Option (Except Fault (ℚ × Nat × Nat))
  | 0, _, _, _, _ => none
  | fuel + 1, frameStartFrequency, currentFrame, lastIdInFrame, carrierIdInFrame =>
    if carrierId > lastIdInFrame then
      match frameAt frames currentFrame with
      | .error e => some (.error e)
      | .ok f =>
        let carrierIdInFrame := (carrierIdInFrame + 4294967296 - f.GetCarrierCount) % 4294967296
        let frameStartFrequency := frameStartFrequency + f.GetBandwidth_hz
        let currentFrame := (currentFrame + 1) % 4294967296
        match frameAt frames currentFrame with
        | .error e => some (.error e)
        | .ok g =>
          let lastIdInFrame := (lastIdInFrame + g.GetCarrierCount) % 4294967296
          SatSuperframeConf.GetCarrierFrequency_hz.scan frames carrierId fuel
            frameStartFrequency currentFrame lastIdInFrame carrierIdInFrame
    else
      some (.ok (frameStartFrequency, currentFrame, carrierIdInFrame))

/-- Source `SatSuperframeConf::GetCarrierFrequency_hz (uint32_t carrierId)`, the scan
run with `fuel` loop tests. -/
def SatSuperframeConf.GetCarrierFrequency_hz (sf : SatSuperframeConf) (fuel : Nat)
    (carrierId : uint32_t) : Option (Except Fault ℚ) :=
  match frameAt sf.m_frames 0 with
  | .error e => some (.error e)
  | .ok f0 =>
    let lastIdInFrame := (f0.GetCarrierCount + 4294967296 - 1) % 4294967296
    match SatSuperframeConf.GetCarrierFrequency_hz.scan sf.m_frames carrierId.val fuel
        0 0 lastIdInFrame carrierId.val with
    | none => none
    | some (.error e) => some (.error e)
    | some (.ok (frameStartFrequency, currentFrame, carrierIdInFrame)) =>
      match frameAt sf.m_frames currentFrame with
      | .error e => some (.error e)
      | .ok f =>
        match f.GetCarrierFrequency_hz (toUint32 carrierIdInFrame) with
        | .error e => some (.error e)
        | .ok carrierFrequencyInFrame => some (.ok (frameStartFrequency + carrierFrequencyInFrame))

/-- The `while (carrierId > lastIdInFrame)` loop of
`SatSuperframeConf::GetCarrierBandwidth_hz`, from the state
`(currentFrame, lastIdInFrame, carrierIdInFrame)`; it yields `currentFrame`
at the exit. -/
def SatSuperframeConf.GetCarrierBandwidth_hz.scan (frames : List SatFrameConf) (carrierId : Nat) :
    Nat → Nat → Nat → Nat → Option (Except Fault Nat)
  | 0, _, _, _ => none
  | fuel + 1, currentFrame, lastIdInFrame, carrierIdInFrame =>
    if carrierId > lastIdInFrame then
      match frameAt frames currentFrame with
      | .error e => some (.error e)
      | .ok f =>
        let carrierIdInFrame := (carrierIdInFrame + 4294967296 - f.GetCarrierCount) % 4294967296
        let currentFrame := (currentFrame + 1) % 4294967296
        match frameAt frames currentFrame with
        | .error e => some (.error e)
        | .ok g =>
          let lastIdInFrame := (lastIdInFrame + g.GetCarrierCount) % 4294967296
          SatSuperframeConf.GetCarrierBandwidth_hz.scan frames carrierId fuel
            currentFrame lastIdInFrame carrierIdInFrame
    else
      some (.ok currentFrame)

/-- Source `SatSuperframeConf::GetCarrierBandwidth_hz (uint32_t carrierId)`, the scan
run with `fuel` loop tests. -/
def SatSuperframeConf.GetCarrierBandwidth_hz (sf : SatSuperframeConf) (fuel : Nat)
    (carrierId : uint32_t) : Option (Except Fault ℚ) :=
  match frameAt sf.m_frames 0 with
  | .error e => some (.error e)
  | .ok f0 =>
    let lastIdInFrame := (f0.GetCarrierCount + 4294967296 - 1) % 4294967296
    match SatSuperframeConf.GetCarrierBandwidth_hz.scan sf.m_frames carrierId.val fuel
        0 lastIdInFrame carrierId.val with
    | none => none
    | some (.error e) => some (.error e)
    | some (.ok currentFrame) =>
      match frameAt sf.m_frames currentFrame with
      | .error e => some (.error e)
      | .ok f => some (.ok f.GetCarrierBandwidth_hz)

/-! ## The allocation path of `SatUtMac` -/

/-- Simulation time (`ns3::Time`): an integral number of ticks. -/
abbrev Time := Int

abbrev Mac48Address := Nat

/-- Modelled from the spec: the allocation message (`SatTbtpMessage`, whose
source file is not part of the sources) carries a superframe sequence id, a
superframe instance counter and a mapping terminal -> ordered list of
(frame id, slot index). -/
structure SatTbtpMessage where
  m_superframeSeqId : uint8_t
  m_superframeCounter : uint32_t
  m_daTimeSlots : List (Mac48Address × List (uint8_t × uint16_t))
  deriving DecidableEq

def SatTbtpMessage.GetSuperframeSeqId (tbtp : SatTbtpMessage) : uint8_t := tbtp.m_superframeSeqId

def SatTbtpMessage.GetSuperframeCounter (tbtp : SatTbtpMessage) : uint32_t :=
  tbtp.m_superframeCounter

/-- Modelled from the spec: the ordered list of (frame id, slot index) that the
message assigns to the terminal `utId`; empty when the terminal is not named. -/
def SatTbtpMessage.GetDaTimeslots (tbtp : SatTbtpMessage) (utId : Mac48Address) :
    List (uint8_t × uint16_t) :=
  match tbtp.m_daTimeSlots.lookup utId with
  | some slots => slots
  | none => []

/-- The allocation cache (`SatTbtpContainer`): the recorded messages with their keys. -/
structure SatTbtpContainer where
  m_tbtps : List (Time × SatTbtpMessage)
  deriving DecidableEq

/-- Modelled from the spec: `SatTbtpContainer::Add` (its source file is not part
of the sources) records the message, keyed by `txTime`, in the allocation cache. -/
def SatTbtpContainer.Add (c : SatTbtpContainer) (startTime : Time) (tbtp : SatTbtpMessage) :
    SatTbtpContainer :=
  { m_tbtps := c.m_tbtps ++ [(startTime, tbtp)] }

/-- A waveform as the scheduler uses it: `GetBurstDurationInSeconds (symbolRate)`
and `GetPayloadInBytes ()`. -/
structure SatWaveform where
  GetBurstDurationInSeconds : ℚ → ℚ
  GetPayloadInBytes : uint32_t

/-- The superframe sequence as the scheduler uses it: its superframe
configurations, its waveform table (`GetWaveformConf ()->GetWaveform (id)`, `none`
when the lookup aborts) and the start time of a superframe instance
(`GetSuperFrameTxTimeWithCount`). The class is not part of the sources; the two
functions are parameters. -/
structure SatSuperframeSeq where
  m_superframe : List SatSuperframeConf
  GetWaveform : uint8_t → Option SatWaveform
  GetSuperFrameTxTimeWithCount : uint8_t → uint32_t → Time → Time

/-- The read `m_superframe[seqId]` behind `SatSuperframeSeq::GetSuperframeConf`. -/
def SatSuperframeSeq.GetSuperframeConf (seq : SatSuperframeSeq) (seqId : uint8_t) :
    Except Fault SatSuperframeConf :=
  match seq.m_superframe[seqId.val]? with
  | some sf => .ok sf
  | none => .error (.outOfBounds seqId.val)

/-- Modelled from the spec: `SatSuperframeSeq::GetCarrierId (0, frameId, frameCarrierId)`
derives the carrier id via `globalCarrierId` of the superframe configuration;
only sequence id 0 is used by the scheduler. -/
def SatSuperframeSeq.GetCarrierId (seq : SatSuperframeSeq) (superframeId frameId : uint8_t)
    (frameCarrierId : uint16_t) : Except Fault Nat :=
  match seq.GetSuperframeConf superframeId with
  | .error e => .error e
  | .ok sf => sf.GetCarrierId frameId frameCarrierId

/-- The events that `SatUtMac` places on the simulator queue. -/
inductive Event where
  /-- Call `SatUtMac::SuperFrameStart (superframeSeqId)`. -/
  | SuperFrameStart (superframeSeqId : uint8_t)
  /-- Call `SatUtMac::Transmit (durationInSecs, payloadBytes, carrierId)`. -/
  | Transmit (durationInSecs : ℚ) (payloadBytes : uint32_t) (carrierId : uint32_t)
  /-- Call `SatUtMac::FindNextAvailableRandomAccessSlot (allocationChannel)`. -/
  | FindNextAvailableRandomAccessSlot (allocationChannel : uint32_t)
  deriving DecidableEq

/-- The simulator as the scheduler sees it: the current time and the events
scheduled so far, each with its delay, in scheduling order. -/
structure Simulator where
  now : Time
  events : List (Time × Event)
  deriving DecidableEq

def Simulator.Now (sim : Simulator) : Time := sim.now

/-- Source `Simulator::Schedule (delay, event)`. -/
def Simulator.Schedule (sim : Simulator) (delay : Time) (ev : Event) : Simulator :=
  { sim with events := sim.events ++ [(delay, ev)] }

/-- The part of `SatUtMac` that the allocation path, `Transmit` and the
contention slot registry read and write.
`m_timingAdvanceCb` is the timing-advance callback: its `n`-th call (counted
from 0) returns `m_timingAdvanceCb n`; `timingAdvanceCalls` counts the calls made
so far. `Seconds` is the conversion `ns3::Seconds (double)`. -/
structure SatUtMac where
  m_superframeSeq : SatSuperframeSeq
  m_tbtpContainer : SatTbtpContainer
  m_macAddress : Mac48Address
  m_timingAdvanceCb : Nat → Time
  timingAdvanceCalls : Nat
  Seconds : ℚ → Time
  /-- Attribute `FramePduHeaderSize`, 1 byte unless configured. -/
  m_framePduHeaderSizeInBytes : uint32_t := 1
  /-- Attribute `GuardTime`, `MicroSeconds (1)` unless configured. -/
  m_guardTime : Time := 1000
  /-- The contention slot registry: a `std::map` from (frame id, allocation
  channel id) to the `std::set` of used slot ids, as the list of its entries. -/
  m_usedRandomAccessSlots : List ((uint32_t × uint32_t) × Finset uint32_t) := []

/-- The state in which a call of `SatUtMac` leaves the terminal and the
simulator, with the fault that aborted it, if any. -/
structure Run where
  mac : SatUtMac
  sim : Simulator
  fault : Option Fault

/-- Source `SatUtMac::ScheduleTxOpportunity (transmitDelay, durationInSecs, payloadBytes, carrierId)`. -/
def SatUtMac.ScheduleTxOpportunity (sim : Simulator) (transmitDelay : Time) (durationInSecs : ℚ)
    (payloadBytes : uint32_t) (carrierId : uint32_t) : Simulator :=
  sim.Schedule transmitDelay (.Transmit durationInSecs payloadBytes carrierId)

/-- The body of the slot loop of `SatUtMac::ScheduleTimeSlots` for one entry
`(it->first, it->second)`, after the frame id check: it resolves the slot and
schedules its transmission; an abort leaves the schedule as it was. -/
def SatUtMac.ScheduleTimeSlots.slot (mac : SatUtMac) (startDelay : Time) (frameId : uint8_t)
    (slotIndex : uint16_t) (sim : Simulator) : Except Fault Simulator :=
  match mac.m_superframeSeq.GetSuperframeConf 0 with
  | .error e => .error e
  | .ok superframeConf =>
    match superframeConf.GetFrameConf frameId with
    | .error e => .error e
    | .ok frameConf =>
      match frameConf.GetTimeSlotConf slotIndex with
      | .error e => .error e
      | .ok timeSlotConf =>
        let slotDelay := startDelay + mac.Seconds timeSlotConf.GetStartTimeInSeconds
        match mac.m_superframeSeq.GetWaveform timeSlotConf.GetWaveFormId with
        | none => .error .externalAbort
        | some wf =>
          let duration := wf.GetBurstDurationInSeconds frameConf.GetBtuConf.GetSymbolRateInBauds
          match mac.m_superframeSeq.GetCarrierId 0 frameId
              (toUint16 timeSlotConf.GetCarrierId.val) with
          | .error e => .error e
          | .ok carrierId =>
            .ok (SatUtMac.ScheduleTxOpportunity sim slotDelay duration wf.GetPayloadInBytes
              (toUint32 carrierId))

/-- The slot loop of `SatUtMac::ScheduleTimeSlots`
(`for (it = slots.begin (); it != slots.end (); it++)`); `atBegin` tells whether
`it == slots.begin ()`, `frameId` is the local variable of that name. -/
def SatUtMac.ScheduleTimeSlots.loop (mac : SatUtMac) (startDelay : Time) :
    Bool → uint8_t → List (uint8_t × uint16_t) → Simulator → Simulator × Option Fault
  | _, _, [], sim => (sim, none)
  | atBegin, frameId, it :: rest, sim =>
    if atBegin = false ∧ frameId ≠ it.1 then
      (sim, some (.fatalError .slotsFromDifferentFrames))
    else
      let frameId := if atBegin then it.1 else frameId
      match SatUtMac.ScheduleTimeSlots.slot mac startDelay frameId it.2 sim with
      | .error e => (sim, some e)
      | .ok sim => SatUtMac.ScheduleTimeSlots.loop mac startDelay false frameId rest sim

/-- Source `SatUtMac::ScheduleTimeSlots (tbtp)`. -/
def SatUtMac.ScheduleTimeSlots (mac : SatUtMac) (sim : Simulator) (tbtp : SatTbtpMessage) : Run :=
  let timingAdvance := mac.m_timingAdvanceCb mac.timingAdvanceCalls
  let mac := { mac with timingAdvanceCalls := mac.timingAdvanceCalls + 1 }
  let txTime := mac.m_superframeSeq.GetSuperFrameTxTimeWithCount tbtp.GetSuperframeSeqId
    tbtp.GetSuperframeCounter timingAdvance
  let startDelay := txTime - sim.Now
  let mac := { mac with m_tbtpContainer := mac.m_tbtpContainer.Add txTime tbtp }
  if txTime < sim.Now then
    { mac := mac, sim := sim, fault := some (.fatalError .tbtpInThePast) }
  else
    let sim := sim.Schedule startDelay (.SuperFrameStart tbtp.GetSuperframeSeqId)
    let slots := tbtp.GetDaTimeslots mac.m_macAddress
    match SatUtMac.ScheduleTimeSlots.loop mac startDelay true 0 slots sim with
    | (sim, fault) => { mac := mac, sim := sim, fault := fault }

/-- The start time that `SatUtMac::ScheduleTimeSlots` computes for `tbtp`. -/
def SatUtMac.txTime (mac : SatUtMac) (tbtp : SatTbtpMessage) : Time :=
  mac.m_superframeSeq.GetSuperFrameTxTimeWithCount tbtp.GetSuperframeSeqId
    tbtp.GetSuperframeCounter (mac.m_timingAdvanceCb mac.timingAdvanceCalls)

/-! ## Transmission execution (`SatUtMac::Transmit`) -/

/-- A protocol data unit as `Transmit` uses it: an identity and its size
(`Packet::GetSize ()`). -/
structure Packet where
  uid : Nat
  size : uint32_t
  deriving DecidableEq

def Packet.GetSize (p : Packet) : uint32_t := p.size

/-- A burst handed to the physical layer. -/
structure Burst where
  packets : List Packet
  carrierId : uint32_t
  duration : Time
  deriving DecidableEq

/-- The callback `m_txOpportunityCallback (payloadLeft, macAddress, bytesLeftInBuffer)`
of the link-layer queue, whose state has type `σ`: it returns a packet or the
null pointer. The out-parameter `bytesLeftInBuffer` is never read by `Transmit`
and is left out. -/
abbrev TxOpportunityCallback (σ : Type) := σ → uint32_t → Mac48Address → Option Packet × σ

/-- How a run of `Transmit` with a given fuel stands at its end. -/
inductive TxStatus where
  /-- The call returned. -/
  | completed
  /-- The call was aborted. -/
  | aborted (fault : Fault)
  /-- The fuel ran out while the loop was still running. -/
  | outOfFuel
  deriving DecidableEq

/-- A run of `Transmit`: the state of the queue, the requests made so far (the
byte bound passed and what the queue returned), the remaining payload, the
packets collected, the bursts handed to the physical layer and the status. -/
structure TransmitRun (σ : Type) where
  queue : σ
  requests : List (uint32_t × Option Packet)
  payloadLeft : Nat
  packets : List Packet
  sent : List Burst
  status : TxStatus

/-- The loop `while (payloadLeft > 0)` of `SatUtMac::Transmit`, run with `fuel`
loop tests from the state `(payloadLeft, packets)`; `requests` is the record of
the calls of the callback. -/
def SatUtMac.Transmit.loop {σ : Type} (cb : TxOpportunityCallback σ) (addr : Mac48Address) :
    Nat → σ → Nat → List Packet → List (uint32_t × Option Packet) → TransmitRun σ
  | 0, q, payloadLeft, packets, requests =>
    { queue := q, requests := requests, payloadLeft := payloadLeft, packets := packets,
      sent := [], status := .outOfFuel }
  | fuel + 1, q, payloadLeft, packets, requests =>
    if payloadLeft > 0 then
      match cb q (toUint32 payloadLeft) addr with
      | (some p, q) =>
        let packets := packets ++ [p]
        let requests := requests ++ [(toUint32 payloadLeft, some p)]
        if payloadLeft ≥ p.GetSize.val then
          SatUtMac.Transmit.loop cb addr fuel q (payloadLeft - p.GetSize.val) packets requests
        else
          { queue := q, requests := requests, payloadLeft := payloadLeft, packets := packets,
            sent := [], status := .aborted (.fatalError .ppduTooBig) }
      | (none, q) =>
        { queue := q, requests := requests ++ [(toUint32 payloadLeft, none)],
          payloadLeft := payloadLeft, packets := packets, sent := [], status := .completed }
    else
      { queue := q, requests := requests, payloadLeft := payloadLeft, packets := packets,
        sent := [], status := .completed }

/-- Modelled from the spec: `SatMac::SendPacket (packets, carrierId, duration)` (the
base class is not part of the sources) hands one burst to the physical transmit
sink, fire-and-forget. -/
def SatMac.SendPacket (sent : List Burst) (packets : List Packet) (carrierId : uint32_t)
    (duration : Time) : List Burst :=
  sent ++ [{ packets := packets, carrierId := carrierId, duration := duration }]

/-- Source `SatUtMac::Transmit (durationInSecs, payloadBytes, carrierId)`, its loop run
with `fuel` loop tests against the queue `cb` in state `q`.
`Time::FromDouble (durationInSecs, Time::S)` is the conversion `Seconds`. The
subtraction `payloadBytes - m_framePduHeaderSizeInBytes` is made after the
assertion and cannot wrap. -/
def SatUtMac.Transmit {σ : Type} (mac : SatUtMac) (cb : TxOpportunityCallback σ) (q : σ)
    (fuel : Nat) (durationInSecs : ℚ) (payloadBytes carrierId : uint32_t) : TransmitRun σ :=
  if payloadBytes.val > mac.m_framePduHeaderSizeInBytes.val then
    let payloadLeft := payloadBytes.val - mac.m_framePduHeaderSizeInBytes.val
    let run := SatUtMac.Transmit.loop cb mac.m_macAddress fuel q payloadLeft [] []
    match run.status with
    | .completed =>
      if run.packets ≠ [] then
        let duration := mac.Seconds durationInSecs - mac.m_guardTime
        { run with sent := SatMac.SendPacket run.sent run.packets carrierId duration }
      else
        run
    | _ => run
  else
    { queue := q, requests := [], payloadLeft := 0, packets := [], sent := [],
      status := .aborted .assertFailed }

/-- The total size of a list of packets. -/
def totalSize (packets : List Packet) : Nat := (packets.map fun p => p.size.val).sum

/-- The packets returned by the queue in a record of requests, in order. -/
def collected (requests : List (uint32_t × Option Packet)) : List Packet :=
  requests.filterMap fun r => r.2

/-- A request whose answer is a packet larger than the byte bound passed. -/
def Oversized (r : uint32_t × Option Packet) : Prop :=
  ∃ p, r.2 = some p ∧ r.1.val < p.size.val

/-- Every request of the record carries as its byte bound exactly `B` minus the
total size of the packets returned by the requests before it. -/
def BoundsExact (B : Nat) (requests : List (uint32_t × Option Packet)) : Prop :=
  ∀ (i : Nat) (h : i < requests.length),
    (requests.get ⟨i, h⟩).1.val = B - totalSize (collected (requests.take i))

/-- Modelled from the spec: a link-layer queue that honours its contract
`nextUnit (maxBytes, terminalAddress)`: it holds a list of units and returns its
head unit when that fits in `maxBytes`, and nothing otherwise. -/
def contractQueue : TxOpportunityCallback (List Packet) := fun q maxBytes _ =>
  match q with
  | [] => (none, [])
  | p :: rest => if p.size.val ≤ maxBytes.val then (some p, rest) else (none, p :: rest)

/-- The units that a greedy collection takes from the head of `q` within `bound`
bytes. -/
def fittingPrefix : Nat → List Packet → List Packet
  | _, [] => []
  | bound, p :: rest =>
    if p.size.val ≤ bound then p :: fittingPrefix (bound - p.size.val) rest else []

/-! ## The contention slot registry -/

/-- Source `SatUtMac::RemovePastRandomAccessSlots (currentFrameId)`: the loop erases
every entry whose frame id is below `currentFrameId`. -/
def SatUtMac.RemovePastRandomAccessSlots (mac : SatUtMac) (currentFrameId : uint32_t) :
    SatUtMac :=
  { mac with m_usedRandomAccessSlots :=
      mac.m_usedRandomAccessSlots.filter fun entry => ¬ (entry.1.1 < currentFrameId) }

/-- The entry of the registry with the given key replaced by `slots`
(`iter->second` after the insertion). -/
def setSlots (key : uint32_t × uint32_t) (slots : Finset uint32_t) :
    List ((uint32_t × uint32_t) × Finset uint32_t) → List ((uint32_t × uint32_t) × Finset uint32_t)
  | [] => []
  | entry :: rest =>
    if entry.1 = key then (key, slots) :: rest else entry :: setSlots key slots rest

/-- Source `SatUtMac::UpdateUsedRandomAccessSlots (allocationChannelId, slotId)`. -/
def SatUtMac.UpdateUsedRandomAccessSlots (mac : SatUtMac) (allocationChannelId slotId : uint32_t) :
    SatUtMac × Option Fault :=
  let currentFrameId : uint32_t := 5
  let mac := mac.RemovePastRandomAccessSlots currentFrameId
  let key := (currentFrameId, allocationChannelId)
  match mac.m_usedRandomAccessSlots.lookup key with
  | none =>
    ({ mac with m_usedRandomAccessSlots := mac.m_usedRandomAccessSlots ++ [(key, {slotId})] },
      none)
  | some slots =>
    if slotId ∈ slots then
      (mac, some (.fatalError .raInsertFailed))
    else
      ({ mac with m_usedRandomAccessSlots :=
          setSlots key (insert slotId slots) mac.m_usedRandomAccessSlots }, none)

/-- The kinds of transmission opportunity that `SatUtMac::DoRandomAccess` tells
apart (`txOpportunityType`); `other` stands for every enumerator that the
function does not name. -/
inductive RandomAccessTxOpportunityTypes_t where
  | RA_SLOTTED_ALOHA_TX_OPPORTUNITY
  | RA_CRDSA_TX_OPPORTUNITY
  | other (value : Nat)
  deriving DecidableEq

/-- The result of the random access algorithm
(`SatRandomAccess::RandomAccessTxOpportunities_s`), with the members that
`SatUtMac` reads: the kind, the offset of a slotted ALOHA opportunity in
milliseconds, and the allocation channel and slot set of a CRDSA opportunity. -/
structure RandomAccessTxOpportunities_s where
  txOpportunityType : RandomAccessTxOpportunityTypes_t
  slottedAlohaTxOpportunity : uint32_t
  crdsaTxOpportunities : uint32_t × Finset uint32_t

/-- The loop of the multi-slot update over the offered slot ids, in the
iteration order of the `std::set`: `iter->second.insert (*setIter)`, with the
fatal error at the first id that the set already holds. The ids inserted before
that one stay in the set. -/
def insertSlots : List uint32_t → Finset uint32_t → Finset uint32_t × Option Fault
  | [], slots => (slots, none)
  | slotId :: rest, slots =>
    if slotId ∈ slots then (slots, some (.fatalError .raInsertFailed))
    else insertSlots rest (insert slotId slots)

/-- Source `SatUtMac::UpdateUsedRandomAccessSlots (txOpportunities)`, the overload
that takes the opportunities of a CRDSA decision. A `std::set<uint32_t>` is
iterated in ascending order. -/
def SatUtMac.UpdateUsedRandomAccessSlots_txOpportunities (mac : SatUtMac)
    (txOpportunities : RandomAccessTxOpportunities_s) : SatUtMac × Option Fault :=
  let currentFrameId : uint32_t := 5
  let mac := mac.RemovePastRandomAccessSlots currentFrameId
  let key := (currentFrameId, txOpportunities.crdsaTxOpportunities.1)
  match mac.m_usedRandomAccessSlots.lookup key with
  | none =>
    ({ mac with m_usedRandomAccessSlots :=
        mac.m_usedRandomAccessSlots ++ [(key, txOpportunities.crdsaTxOpportunities.2)] }, none)
  | some slots =>
    match insertSlots (txOpportunities.crdsaTxOpportunities.2.sort (· ≤ ·)) slots with
    | (slots, fault) =>
      ({ mac with m_usedRandomAccessSlots := setSlots key slots mac.m_usedRandomAccessSlots },
        fault)

/-- Source `SatUtMac::FindNextAvailableRandomAccessSlot (allocationChannel)`.
`GetCurrentSuperFrameStartTime (0)` calls the timing-advance callback once; the
time it returns is not used. -/
def SatUtMac.FindNextAvailableRandomAccessSlot (mac : SatUtMac) (allocationChannel : uint32_t) :
    SatUtMac × Option Fault :=
  let mac := { mac with timingAdvanceCalls := mac.timingAdvanceCalls + 1 }
  let usedSlot : uint32_t := 10
  mac.UpdateUsedRandomAccessSlots allocationChannel usedSlot

/-- Source `SatUtMac::ScheduleCrdsaTransmission (txOpportunities)`. -/
def SatUtMac.ScheduleCrdsaTransmission (mac : SatUtMac)
    (txOpportunities : RandomAccessTxOpportunities_s) : SatUtMac × Option Fault :=
  mac.UpdateUsedRandomAccessSlots_txOpportunities txOpportunities

/-- The trigger kinds passed to the random access algorithm; `SatUtMac` names
`RA_SLOTTED_ALOHA_TRIGGER` only. -/
inductive RandomAccessTriggerType_t where
  | RA_SLOTTED_ALOHA_TRIGGER
  | other (value : Nat)
  deriving DecidableEq

/-- The collaborators of the random access path, none of which is part of the
sources; each is a parameter.
`GetInteger` is one draw `m_uniformRandomVariable->GetInteger (min, max)`,
`GetRaServiceCount` the configured number of contention channels
(`m_llsConf->GetRaServiceCount ()`), `DoRandomAccess` the decision
`m_randomAccess->DoRandomAccess (allocationChannel, trigger)`, and `FromInteger_MS`
the conversion `Time::FromInteger (value, Time::MS)`. -/
structure RandomAccessContext where
  GetInteger : uint32_t → uint32_t → uint32_t
  GetRaServiceCount : uint32_t
  DoRandomAccess : uint32_t → RandomAccessTriggerType_t → RandomAccessTxOpportunities_s
  FromInteger_MS : uint32_t → Time

/-- The contract of `UniformRandomVariable::GetInteger (min, max)`: the value
drawn lies in the closed interval `[min, max]`. -/
def RandomAccessContext.DrawsInClosedInterval (ctx : RandomAccessContext) : Prop :=
  ∀ min max : uint32_t, min ≤ max → min ≤ ctx.GetInteger min max ∧ ctx.GetInteger min max ≤ max

/-- Source `SatUtMac::GetNextRandomAccessAllocationChannel ()`. -/
def SatUtMac.GetNextRandomAccessAllocationChannel (ctx : RandomAccessContext) : uint32_t :=
  ctx.GetInteger 0 ctx.GetRaServiceCount

/-- Source `SatUtMac::DoRandomAccess (randomAccessTriggerType)`. -/
def SatUtMac.DoRandomAccess (mac : SatUtMac) (sim : Simulator) (ctx : RandomAccessContext)
    (randomAccessTriggerType : RandomAccessTriggerType_t) : Run :=
  let allocationChannel := SatUtMac.GetNextRandomAccessAllocationChannel ctx
  let txOpportunities := ctx.DoRandomAccess allocationChannel randomAccessTriggerType
  if txOpportunities.txOpportunityType = .RA_SLOTTED_ALOHA_TX_OPPORTUNITY then
    let txOpportunity := ctx.FromInteger_MS txOpportunities.slottedAlohaTxOpportunity
    { mac := mac
      sim := sim.Schedule txOpportunity (.FindNextAvailableRandomAccessSlot allocationChannel)
      fault := none }
  else if txOpportunities.txOpportunityType = .RA_CRDSA_TX_OPPORTUNITY then
    match mac.ScheduleCrdsaTransmission txOpportunities with
    | (mac, fault) => { mac := mac, sim := sim, fault := fault }
  else
    { mac := mac, sim := sim, fault := none }

/-! ## Control messages (`SatUtMac::ReceiveSignalingPacket`) -/

/-- The message types of `SatControlMsgTag` that `SatUtMac` names; `other` stands
for every enumerator that it does not name. -/
inductive SatControlMsgType_t where
  | SAT_NON_CTRL_MSG
  | SAT_TBTP_CTRL_MSG
  | SAT_CR_CTRL_MSG
  | SAT_RA_CTRL_MSG
  | other (value : Nat)
  deriving DecidableEq

/-- The tag of a control packet: `GetMsgType ()` and `GetMsgId ()`. -/
structure SatControlMsgTag where
  m_msgType : SatControlMsgType_t
  m_msgId : uint32_t
  deriving DecidableEq

def SatControlMsgTag.GetMsgType (tag : SatControlMsgTag) : SatControlMsgType_t := tag.m_msgType

def SatControlMsgTag.GetMsgId (tag : SatControlMsgTag) : uint32_t := tag.m_msgId

/-- A run of `SatUtMac::ReceiveSignalingPacket`: the state it leaves, and the
argument of its call of `ScheduleTimeSlots`, if it made one. -/
structure SignalingRun where
  run : Run
  scheduled : Option SatTbtpMessage

/-- Source `SatUtMac::ReceiveSignalingPacket (packet, ctrlTag)`.
`m_readCtrlCallback` is the lookup in the control-message store followed by the
`DynamicCast<SatTbtpMessage>`: `none` is the null pointer. The packet itself is
not read. -/
def SatUtMac.ReceiveSignalingPacket (mac : SatUtMac) (sim : Simulator)
    (m_readCtrlCallback : uint32_t → Option SatTbtpMessage) (ctrlTag : SatControlMsgTag) :
    SignalingRun :=
  match ctrlTag.GetMsgType with
  | .SAT_TBTP_CTRL_MSG =>
    let tbtpId := ctrlTag.GetMsgId
    match m_readCtrlCallback tbtpId with
    | none =>
      { run := { mac := mac, sim := sim, fault := some (.fatalError .tbtpNotFound) }
        scheduled := none }
    | some tbtp => { run := mac.ScheduleTimeSlots sim tbtp, scheduled := some tbtp }
  | .SAT_RA_CTRL_MSG =>
    { run := { mac := mac, sim := sim, fault := some (.fatalError .nonSupportedControlPacket) }
      scheduled := none }
  | .SAT_CR_CTRL_MSG =>
    { run := { mac := mac, sim := sim, fault := some (.fatalError .nonSupportedControlPacket) }
      scheduled := none }
  | _ =>
    { run := { mac := mac, sim := sim, fault := some (.fatalError .nonSupportedControlPacket) }
      scheduled := none }

/-- The event `ev` is the transmission that `SatUtMac::ScheduleTimeSlots`, with
start delay `startDelay`, schedules for the slot `slotIndex` of frame `frameId`:
the slot, its waveform and its carrier id resolve in superframe 0, the delay is
the start delay plus the start offset of the slot, and the event carries the
burst duration of the waveform at the symbol rate of the frame, the payload of
the waveform in bytes and the global carrier id. -/
def SatUtMac.IsSlotEvent (mac : SatUtMac) (startDelay : Time) (frameId : uint8_t)
    (slotIndex : uint16_t) (ev : Time × Event) : Prop :=
  ∃ (superframeConf : SatSuperframeConf) (frameConf : SatFrameConf)
    (timeSlotConf : SatTimeSlotConf) (wf : SatWaveform) (carrierId : Nat),
    mac.m_superframeSeq.m_superframe[0]? = some superframeConf
      ∧ superframeConf.m_frames[frameId.val]? = some frameConf
      ∧ frameConf.m_timeSlots[slotIndex.val]? = some timeSlotConf
      ∧ mac.m_superframeSeq.GetWaveform timeSlotConf.GetWaveFormId = some wf
      ∧ superframeConf.GetCarrierId frameId (toUint16 timeSlotConf.GetCarrierId.val)
          = .ok carrierId
      ∧ ev = (startDelay + mac.Seconds timeSlotConf.GetStartTimeInSeconds,
          Event.Transmit (wf.GetBurstDurationInSeconds frameConf.GetBtuConf.GetSymbolRateInBauds)
            wf.GetPayloadInBytes (toUint32 carrierId))

/-- The sum of the carrier counts of all frames of the superframe. -/
def SatSuperframeConf.totalCarriers (sf : SatSuperframeConf) : Nat :=
  (sf.m_frames.map SatFrameConf.GetCarrierCount).sum

/-- The pair (frame index `k`, local carrier id `L`) is valid: `k` is below the
number of frames and `L` below the carrier count of frame `k`. -/
def SatSuperframeConf.ValidPair (sf : SatSuperframeConf) (k : uint8_t) (L : uint16_t) : Prop :=
  ∃ h : k.val < sf.m_frames.length, L.val < (sf.m_frames.get ⟨k.val, h⟩).GetCarrierCount

/-- The first frame of the superframe exists and has at least one carrier. -/
def SatSuperframeConf.FirstFrameHasCarrier (sf : SatSuperframeConf) : Prop :=
  ∃ f0 rest, sf.m_frames = f0 :: rest ∧ 1 ≤ f0.GetCarrierCount

/-- The lexicographic order on pairs (frame index, local carrier id). -/
def lexLt (k1 : uint8_t) (L1 : uint16_t) (k2 : uint8_t) (L2 : uint16_t) : Prop :=
  k1.val < k2.val ∨ (k1.val = k2.val ∧ L1.val < L2.val)

/-- The statement that `GetCarrierId` renumbers the valid pairs of `sf`
contiguously in frame order: it is defined on valid pairs with values below the
total carrier count, strictly increasing for the lexicographic order, injective,
every loop-test budget above the number of frames makes `GetCarrierCount` return
the total, and, when no frame has more than `2^16` carriers (local ids are passed
as `uint16_t`), every id below the total is the image of a valid pair. -/
def SatSuperframeConf.ContiguousRenumbering (sf : SatSuperframeConf) : Prop :=
  (∀ k L, sf.ValidPair k L →
      ∃ id, sf.GetCarrierId k L = .ok id ∧ id < sf.totalCarriers)
  ∧ (∀ k1 L1 k2 L2, sf.ValidPair k1 L1 → sf.ValidPair k2 L2 → lexLt k1 L1 k2 L2 →
      ∃ a b, sf.GetCarrierId k1 L1 = .ok a ∧ sf.GetCarrierId k2 L2 = .ok b ∧ a < b)
  ∧ (∀ k1 L1 k2 L2, sf.ValidPair k1 L1 → sf.ValidPair k2 L2 →
      sf.GetCarrierId k1 L1 = sf.GetCarrierId k2 L2 → k1 = k2 ∧ L1 = L2)
  ∧ (∀ fuel, sf.m_frames.length < fuel → sf.GetCarrierCount fuel = some sf.totalCarriers)
  ∧ ((∀ f ∈ sf.m_frames, f.GetCarrierCount ≤ 65536) →
      ∀ id, id < sf.totalCarriers → ∃ k L, sf.ValidPair k L ∧ sf.GetCarrierId k L = .ok id)

/-- The frame obtained from the constructor followed by the calls
`AddTimeSlotConf (conf)` for the `conf` of `added`, in order. -/
def SatFrameConf.build (bandwidth_hz duration_s : ℚ) (btu : SatBtuConf)
    (timeSlots : Option (List SatTimeSlotConf)) (added : List SatTimeSlotConf) :
    Except Fault SatFrameConf :=
  match SatFrameConf.ctor bandwidth_hz duration_s btu timeSlots with
  | .error e => .error e
  | .ok f => .ok (added.foldl SatFrameConf.AddTimeSlotConf f)

/-- The slot list of such a frame as the claim describes it: the constructor
slots followed by the added ones, in call order. -/
def slotList (timeSlots : Option (List SatTimeSlotConf)) (added : List SatTimeSlotConf) :
    List SatTimeSlotConf :=
  (match timeSlots with
    | some slots => slots
    | none => []) ++ added

/-! ## Concrete configurations used in the evaluations below -/

/-- An elementary unit of bandwidth `b` Hz. -/
def exampleBtu (b : ℚ) : SatBtuConf := ⟨b, 1, 1⟩

/-- A frame of `n` carriers of `b` Hz each, without time slots. -/
def exampleFrame (n : Nat) (b : ℚ) : SatFrameConf :=
  { m_bandwidth_hz := (n : ℚ) * b
    m_duration_s := 1
    m_btu := exampleBtu b
    m_carrierCount := toUint32 n
    m_timeSlots := [] }

/-- A superframe whose carrier ids do not fit in 32 bits: `2^32 - 1` carriers in
frame 0 and 2 carriers in frame 1. -/
def wideSuperframe : SatSuperframeConf :=
  { m_bandwidth_hz := 4294967297
    m_duration_s := 1
    m_frames := [exampleFrame 4294967295 1, exampleFrame 2 1] }

/-- A superframe of 256 frames of one carrier each. -/
def longSuperframe : SatSuperframeConf :=
  { m_bandwidth_hz := 256
    m_duration_s := 1
    m_frames := List.replicate 256 (exampleFrame 1 1) }

/-- A superframe of two frames of two carriers of 1 Hz each. -/
def twoFrameSuperframe : SatSuperframeConf :=
  { m_bandwidth_hz := 4
    m_duration_s := 1
    m_frames := [exampleFrame 2 1, exampleFrame 2 1] }

/-- A superframe whose first frame has no carrier: frame 0 has 0 carriers of
1 Hz, frame 1 has one carrier of 2 Hz. -/
def emptyFirstSuperframe : SatSuperframeConf :=
  { m_bandwidth_hz := 2
    m_duration_s := 1
    m_frames := [exampleFrame 0 1, exampleFrame 1 2] }

/-- A time slot starting at `t` seconds on local carrier 0. -/
def exampleSlot (t : ℚ) : SatTimeSlotConf :=
  { m_startTime_s := t, m_duration_s := 1, m_waveFormId := 0, m_frameCarrierId := 0 }

/-- A superframe sequence whose superframe instances all start at time 0. -/
def exampleSeq : SatSuperframeSeq :=
  { m_superframe := [twoFrameSuperframe]
    GetWaveform := fun _ => none
    GetSuperFrameTxTimeWithCount := fun _ _ timingAdvance => 0 + timingAdvance }

/-- A terminal with an empty allocation cache and timing advance 0. -/
def exampleMac : SatUtMac :=
  { m_superframeSeq := exampleSeq
    m_tbtpContainer := { m_tbtps := [] }
    m_macAddress := 1
    m_timingAdvanceCb := fun _ => 0
    timingAdvanceCalls := 0
    Seconds := fun s => Int.floor (s * 1000000000) }

/-- An allocation message for superframe instance 0 that names no terminal. -/
def exampleTbtp : SatTbtpMessage :=
  { m_superframeSeqId := 0, m_superframeCounter := 0, m_daTimeSlots := [] }

/-- A simulator at time 1 with an empty schedule. -/
def lateSim : Simulator := { now := 1, events := [] }

/-- A packet of `size` bytes. -/
def examplePacket (uid size : Nat) : Packet := { uid := uid, size := toUint32 size }

/-- A terminal like `exampleMac` with a frame PDU header of 5 bytes. -/
def headerMac : SatUtMac := { exampleMac with m_framePduHeaderSizeInBytes := 5 }

/-- A queue that breaks its contract: it returns its head unit whatever the
byte bound. -/
def greedyQueue : TxOpportunityCallback (List Packet) := fun q _ _ =>
  match q with
  | [] => (none, [])
  | p :: rest => (some p, rest)

/-- A frame of two carriers with one time slot, whose configured duration is
1 second. -/
def slottedFrame : SatFrameConf := { exampleFrame 2 1 with m_timeSlots := [exampleSlot 0] }

/-- A superframe sequence of one superframe made of `slottedFrame`, in which
every waveform has a burst duration of 3 seconds and a payload of 100 bytes. -/
def slottedSeq : SatSuperframeSeq :=
  { m_superframe := [{ m_bandwidth_hz := 2, m_duration_s := 1, m_frames := [slottedFrame] }]
    GetWaveform := fun _ => some { GetBurstDurationInSeconds := fun _ => 3,
                                   GetPayloadInBytes := 100 }
    GetSuperFrameTxTimeWithCount := fun _ _ timingAdvance => 0 + timingAdvance }

/-- A terminal on `slottedSeq`. -/
def slottedMac : SatUtMac := { exampleMac with m_superframeSeq := slottedSeq }

/-- An allocation message that assigns the entries `slots` to terminal 1. -/
def tbtpFor (slots : List (uint8_t × uint16_t)) : SatTbtpMessage :=
  { m_superframeSeqId := 0, m_superframeCounter := 0, m_daTimeSlots := [(1, slots)] }

/-- A simulator at time 0 with an empty schedule. -/
def startSim : Simulator := { now := 0, events := [] }

/-- A registry that holds slot 7 for channel 1 of frame 5 and slot 3 for
channel 0 of frame 4. -/
def usedMac : SatUtMac :=
  { exampleMac with m_usedRandomAccessSlots := [((4, 0), {3}), ((5, 1), {7})] }

/-- A CRDSA opportunity for channel `c` that names the slots of `slots`. -/
def crdsaOpportunity (c : uint32_t) (slots : Finset uint32_t) : RandomAccessTxOpportunities_s :=
  { txOpportunityType := .RA_CRDSA_TX_OPPORTUNITY
    slottedAlohaTxOpportunity := 0
    crdsaTxOpportunities := (c, slots) }

/-- A random access context with `n` contention channels whose generator draws
the upper end of the interval and whose algorithm returns `opportunity`. -/
def exampleContext (n : uint32_t) (opportunity : RandomAccessTxOpportunities_s) :
    RandomAccessContext :=
  { GetInteger := fun _ max => max
    GetRaServiceCount := n
    DoRandomAccess := fun _ _ => opportunity
    FromInteger_MS := fun ms => (ms.val : Int) * 1000000 }

/-- The frame that `SatFrameConf (2, duration_s, exampleBtu 1, ...)` and the calls
of `AddTimeSlotConf` leave when the slots passed are `slots`: 2 carriers of
1 Hz. -/
def builtFrame (duration_s : ℚ) (slots : List SatTimeSlotConf) : SatFrameConf :=
  { m_bandwidth_hz := 2
    m_duration_s := duration_s
    m_btu := exampleBtu 1
    m_carrierCount := 2
    m_timeSlots := slots }

/-- A time slot on local carrier 5. -/
def strayCarrierSlot : SatTimeSlotConf :=
  { m_startTime_s := 0, m_duration_s := 1, m_waveFormId := 0, m_frameCarrierId := 5 }

/-- A control-message store that holds `exampleTbtp` under id 3 and nothing
else. -/
def exampleStore : uint32_t → Option SatTbtpMessage := fun id =>
  if id = 3 then some exampleTbtp else none

/-- A queue with an endless supply of units of 1 byte: it returns one whenever
the byte bound is positive. -/
def byteQueue : TxOpportunityCallback Unit := fun q maxBytes _ =>
  if maxBytes.val = 0 then (none, q) else (some { uid := 0, size := 1 }, q)

theorem carriersBefore_zero (frames : List SatFrameConf) : carriersBefore frames 0 = 0 := by
  simp [carriersBefore]

theorem carriersBefore_succ (frames : List SatFrameConf) (k : Nat) (h : k < frames.length) :
    carriersBefore frames (k + 1)
      = carriersBefore frames k + (frames.get ⟨k, h⟩).GetCarrierCount := by
  unfold carriersBefore
  rw [List.take_succ, List.getElem?_eq_getElem h]
  simp only [Option.toList, List.map_append, List.map_cons, List.map_nil, List.sum_append,
    List.sum_cons, List.sum_nil, Nat.add_zero, List.get_eq_getElem]

theorem carriersBefore_of_length_le (frames : List SatFrameConf) (k : Nat)
    (h : frames.length ≤ k) : carriersBefore frames k = carriersBefore frames frames.length := by
  simp [carriersBefore, List.take_of_length_le h]

theorem carriersBefore_le_succ (frames : List SatFrameConf) (k : Nat) :
    carriersBefore frames k ≤ carriersBefore frames (k + 1) := by
  by_cases h : k < frames.length
  · rw [carriersBefore_succ frames k h]; exact Nat.le_add_right _ _
  · have h1 : frames.length ≤ k := Nat.le_of_not_lt h
    rw [carriersBefore_of_length_le frames k h1,
      carriersBefore_of_length_le frames (k + 1) (Nat.le_succ_of_le h1)]

theorem carriersBefore_mono (frames : List SatFrameConf) {a b : Nat} (h : a ≤ b) :
    carriersBefore frames a ≤ carriersBefore frames b := by
  induction b with
  | zero => simp [Nat.le_zero.mp h]
  | succ n ih =>
    rcases Nat.lt_or_ge a (n + 1) with h1 | h1
    · exact Nat.le_trans (ih (Nat.lt_succ_iff.mp h1)) (carriersBefore_le_succ frames n)
    · have : a = n + 1 := Nat.le_antisymm h h1
      simp [this]

/-! ## `SatSuperframeConf::GetCarrierId` -/

/-- The loop of `GetCarrierId` over the first `k` frames adds their carrier
counts to the start value, modulo `2^32`. -/
theorem GetCarrierId_fold (frames : List SatFrameConf) (k : Nat) (hk : k ≤ frames.length)
    (c0 : Nat) (hc0 : c0 < 4294967296) :
    (List.range k).foldlM
      (fun carrierId i =>
        if h : i < frames.length then
          (Except.ok ((carrierId + (frames.get ⟨i, h⟩).GetCarrierCount) % 4294967296) :
            Except Fault Nat)
        else
          .error .assertFailed)
      c0 = .ok ((c0 + carriersBefore frames k) % 4294967296) := by
  induction k with
  | zero => simp [carriersBefore_zero, Nat.mod_eq_of_lt hc0, pure, Except.pure]
  | succ n ih =>
    have hn : n < frames.length := hk
    rw [List.range_succ, List.foldlM_append, ih (Nat.le_of_lt hn)]
    simp only [bind, Except.bind, List.foldlM, hn, dite_true, pure, Except.pure]
    rw [carriersBefore_succ frames n hn]
    congr 1
    omega

/-- Modular form of `GetCarrierId`: for a frame index below the number of
frames the call returns the partial sum plus the local id, reduced modulo `2^32`. -/
theorem GetCarrierId_mod (sf : SatSuperframeConf) (k : uint8_t) (L : uint16_t)
    (hk : k.val < sf.m_frames.length) :
    sf.GetCarrierId k L = .ok ((L.val + carriersBefore sf.m_frames k.val) % 4294967296) := by
  have hL : L.val < 4294967296 := Nat.lt_trans L.isLt (by decide)
  exact GetCarrierId_fold sf.m_frames k.val (Nat.le_of_lt hk) L.val hL

/-- C1 (as stated, refuted): in `wideSuperframe` the pair (k, L) = (1, 1) is
valid and `c0 + L` is `2^32`, but `GetCarrierId (1, 1)` returns 0: the 32-bit
accumulator wraps. -/
theorem GetCarrierId_wraps :
    (1 : uint8_t).val < wideSuperframe.m_frames.length
      ∧ (1 : uint16_t).val < (wideSuperframe.m_frames.get ⟨1, by decide⟩).GetCarrierCount
      ∧ carriersBefore wideSuperframe.m_frames 1 + 1 = 4294967296
      ∧ wideSuperframe.GetCarrierId 1 1 = .ok 0
      ∧ wideSuperframe.GetCarrierId 1 1
          ≠ .ok (carriersBefore wideSuperframe.m_frames 1 + (1 : uint16_t).val) := by
  decide

/-- C1 (amended): for every superframe with per-frame carrier counts
c0..c(n-1), every frame index k < n and every local carrier id L such that
c0 + ... + c(k-1) + L fits in 32 bits, `GetCarrierId (k, L)` returns
c0 + ... + c(k-1) + L. -/
theorem GetCarrierId_eq_sum (sf : SatSuperframeConf) (k : uint8_t) (L : uint16_t)
    (hk : k.val < sf.m_frames.length)
    (hfit : carriersBefore sf.m_frames k.val + L.val < 4294967296) :
    sf.GetCarrierId k L = .ok (carriersBefore sf.m_frames k.val + L.val) := by
  rw [GetCarrierId_mod sf k L hk, Nat.add_comm, Nat.mod_eq_of_lt hfit]

/-- Witness of `GetCarrierId_eq_sum`: carrier 1 of frame 1 of `twoFrameSuperframe`. -/
theorem GetCarrierId_eq_sum_witness :
    (1 : uint8_t).val < twoFrameSuperframe.m_frames.length
      ∧ carriersBefore twoFrameSuperframe.m_frames (1 : uint8_t).val + (1 : uint16_t).val
          < 4294967296
      ∧ twoFrameSuperframe.GetCarrierId 1 1
          = .ok (carriersBefore twoFrameSuperframe.m_frames (1 : uint8_t).val
              + (1 : uint16_t).val) :=
  ⟨by decide, by decide, GetCarrierId_eq_sum twoFrameSuperframe 1 1 (by decide) (by decide)⟩

/-! ## `SatSuperframeConf::GetCarrierCount` -/

theorem carriersBefore_length (sf : SatSuperframeConf) :
    carriersBefore sf.m_frames sf.m_frames.length = sf.totalCarriers := by
  simp [carriersBefore, SatSuperframeConf.totalCarriers]

/-- With at most 255 frames the counter `i` does not wrap and the loop adds the
carrier counts of the frames `i ..` to `carrierCount`, modulo `2^32`. -/
theorem GetCarrierCount_loop (frames : List SatFrameConf) (hlen : frames.length ≤ 255) :
    ∀ (fuel i c : Nat), i ≤ frames.length → c < 4294967296 → frames.length - i < fuel →
      SatSuperframeConf.GetCarrierCount.loop frames fuel i c
        = some ((c + (carriersBefore frames frames.length - carriersBefore frames i))
            % 4294967296) := by
  intro fuel
  induction fuel with
  | zero => intro i c _ _ h; omega
  | succ n ih =>
    intro i c hi hc hfuel
    unfold SatSuperframeConf.GetCarrierCount.loop
    by_cases h : i < frames.length
    · have hwrap : (i + 1) % 256 = i + 1 := Nat.mod_eq_of_lt (by omega)
      have hs := carriersBefore_succ frames i h
      have hm : carriersBefore frames (i + 1) ≤ carriersBefore frames frames.length :=
        carriersBefore_mono frames h
      rw [dif_pos h, hwrap, ih (i + 1) _ h (Nat.mod_lt _ (by decide)) (by omega)]
      congr 1
      omega
    · have hieq : i = frames.length := Nat.le_antisymm hi (Nat.le_of_not_lt h)
      rw [dif_neg h, hieq, Nat.sub_self, Nat.add_zero, Nat.mod_eq_of_lt hc]

/-- With 256 frames or more the 8-bit counter `i` never reaches
`m_frames.size ()`: the loop test holds forever. -/
theorem GetCarrierCount_loop_diverges (frames : List SatFrameConf)
    (hlen : 256 ≤ frames.length) :
    ∀ (fuel i c : Nat), i < 256 →
      SatSuperframeConf.GetCarrierCount.loop frames fuel i c = none := by
  intro fuel
  induction fuel with
  | zero => intro i c _; rfl
  | succ n ih =>
    intro i c hi
    unfold SatSuperframeConf.GetCarrierCount.loop
    have h : i < frames.length := Nat.lt_of_lt_of_le hi hlen
    rw [dif_pos h]
    exact ih _ _ (Nat.mod_lt _ (by decide))

/-- C4 (as stated, refuted): on `longSuperframe`, which has 256 frames,
`GetCarrierCount` returns nothing, whatever the number of loop tests allowed. -/
theorem GetCarrierCount_longSuperframe_diverges :
    longSuperframe.m_frames.length = 256
      ∧ ¬ ∃ fuel n, longSuperframe.GetCarrierCount fuel = some n := by
  have hlength : longSuperframe.m_frames.length = 256 := List.length_replicate _ _
  refine ⟨hlength, ?_⟩
  rintro ⟨fuel, n, h⟩
  have hlen : 256 ≤ longSuperframe.m_frames.length := Nat.le_of_eq hlength.symm
  have hnone := GetCarrierCount_loop_diverges longSuperframe.m_frames hlen fuel 0 0 (by decide)
  unfold SatSuperframeConf.GetCarrierCount at h
  rw [hnone] at h
  exact Option.noConfusion h

/-- C4 (amended): for every superframe with at most 255 frames (none included),
`GetCarrierCount` terminates, within one loop test more than there are frames,
and returns the sum of the carrier counts of all its frames reduced modulo
`2^32`; that is the sum itself when the sum is below `2^32`. -/
theorem GetCarrierCount_eq_total (sf : SatSuperframeConf) (hlen : sf.m_frames.length ≤ 255)
    (fuel : Nat) (hfuel : sf.m_frames.length < fuel) :
    sf.GetCarrierCount fuel = some (sf.totalCarriers % 4294967296)
      ∧ (sf.totalCarriers < 4294967296 → sf.GetCarrierCount fuel = some sf.totalCarriers) := by
  have h := GetCarrierCount_loop sf.m_frames hlen fuel 0 0 (Nat.zero_le _) (by decide)
    (by omega)
  rw [carriersBefore_zero, carriersBefore_length, Nat.zero_add, Nat.sub_zero] at h
  refine ⟨h, fun hlt => ?_⟩
  rw [SatSuperframeConf.GetCarrierCount, h, Nat.mod_eq_of_lt hlt]

/-- Witness of `GetCarrierCount_eq_total`: `twoFrameSuperframe` with 3 loop tests. -/
theorem GetCarrierCount_eq_total_witness :
    twoFrameSuperframe.m_frames.length ≤ 255
      ∧ twoFrameSuperframe.m_frames.length < 3
      ∧ twoFrameSuperframe.GetCarrierCount 3 = some (twoFrameSuperframe.totalCarriers % 4294967296)
      ∧ (twoFrameSuperframe.totalCarriers < 4294967296 →
          twoFrameSuperframe.GetCarrierCount 3 = some twoFrameSuperframe.totalCarriers) :=
  ⟨by decide, by decide,
    GetCarrierCount_eq_total twoFrameSuperframe (by decide) 3 (by decide)⟩

/-! ## Global carrier ids as a renumbering -/

theorem carriersBefore_le_total (sf : SatSuperframeConf) (k : Nat) :
    carriersBefore sf.m_frames k ≤ sf.totalCarriers := by
  rw [← carriersBefore_length]
  rcases Nat.le_total k sf.m_frames.length with h | h
  · exact carriersBefore_mono sf.m_frames h
  · rw [carriersBefore_of_length_le sf.m_frames k h]

/-- The id of a valid pair, when the total carrier count fits in 32 bits. -/
theorem GetCarrierId_of_valid (sf : SatSuperframeConf) (htotal : sf.totalCarriers < 4294967296)
    (k : uint8_t) (L : uint16_t) (hv : sf.ValidPair k L) :
    sf.GetCarrierId k L = .ok (carriersBefore sf.m_frames k.val + L.val)
      ∧ carriersBefore sf.m_frames k.val + L.val < carriersBefore sf.m_frames (k.val + 1)
      ∧ carriersBefore sf.m_frames (k.val + 1) ≤ sf.totalCarriers := by
  obtain ⟨hk, hL⟩ := hv
  have hs := carriersBefore_succ sf.m_frames k.val hk
  have ht := carriersBefore_le_total sf (k.val + 1)
  refine ⟨?_, by omega, ht⟩
  rw [GetCarrierId_mod sf k L hk, Nat.add_comm, Nat.mod_eq_of_lt (by omega)]

/-- Every id below the partial sum of the first `m` frames lies in one of them. -/
theorem exists_frame_of_lt (frames : List SatFrameConf) (id : Nat) :
    ∀ m, m ≤ frames.length → id < carriersBefore frames m →
      ∃ k, k < m ∧ carriersBefore frames k ≤ id ∧ id < carriersBefore frames (k + 1) := by
  intro m
  induction m with
  | zero => intro _ h; rw [carriersBefore_zero] at h; omega
  | succ n ih =>
    intro hn h
    by_cases hlt : id < carriersBefore frames n
    · obtain ⟨k, hk, h1, h2⟩ := ih (Nat.le_of_succ_le hn) hlt
      exact ⟨k, Nat.lt_succ_of_lt hk, h1, h2⟩
    · exact ⟨n, Nat.lt_succ_self n, Nat.le_of_not_lt hlt, h⟩

/-- The loop of `GetCarrierCount` returns the total carrier count when there
are at most 255 frames and the total fits in 32 bits. -/
theorem GetCarrierCount_of_fit (sf : SatSuperframeConf) (hlen : sf.m_frames.length ≤ 255)
    (htotal : sf.totalCarriers < 4294967296) (fuel : Nat) (hfuel : sf.m_frames.length < fuel) :
    sf.GetCarrierCount fuel = some sf.totalCarriers := by
  have h := GetCarrierCount_loop sf.m_frames hlen fuel 0 0 (Nat.zero_le _) (by decide)
    (by omega)
  rw [carriersBefore_zero, carriersBefore_length, Nat.zero_add, Nat.sub_zero,
    Nat.mod_eq_of_lt htotal] at h
  exact h

/-- Strict monotonicity of the ids of valid pairs. -/
theorem GetCarrierId_strictMono (sf : SatSuperframeConf)
    (htotal : sf.totalCarriers < 4294967296) (k1 : uint8_t) (L1 : uint16_t) (k2 : uint8_t)
    (L2 : uint16_t) (hv1 : sf.ValidPair k1 L1) (hv2 : sf.ValidPair k2 L2)
    (hlt : lexLt k1 L1 k2 L2) :
    ∃ a b, sf.GetCarrierId k1 L1 = .ok a ∧ sf.GetCarrierId k2 L2 = .ok b ∧ a < b := by
  obtain ⟨e1, u1, _⟩ := GetCarrierId_of_valid sf htotal k1 L1 hv1
  obtain ⟨e2, _, _⟩ := GetCarrierId_of_valid sf htotal k2 L2 hv2
  refine ⟨_, _, e1, e2, ?_⟩
  rcases hlt with h | ⟨h, hL⟩
  · have hm : carriersBefore sf.m_frames (k1.val + 1) ≤ carriersBefore sf.m_frames k2.val :=
      carriersBefore_mono sf.m_frames h
    omega
  · rw [h]; omega

/-- C5 (as stated, refuted): in `wideSuperframe` the valid pairs (0, 0) and
(1, 1) get the same global carrier id 0, so the map is not injective. -/
theorem GetCarrierId_not_injective :
    wideSuperframe.ValidPair 0 0 ∧ wideSuperframe.ValidPair 1 1
      ∧ wideSuperframe.GetCarrierId 0 0 = .ok 0
      ∧ wideSuperframe.GetCarrierId 1 1 = .ok 0
      ∧ ¬ (∀ k1 L1 k2 L2, wideSuperframe.ValidPair k1 L1 → wideSuperframe.ValidPair k2 L2 →
            wideSuperframe.GetCarrierId k1 L1 = wideSuperframe.GetCarrierId k2 L2 →
            k1 = k2 ∧ L1 = L2) := by
  have hv0 : wideSuperframe.ValidPair 0 0 := ⟨by decide, by decide⟩
  have hv1 : wideSuperframe.ValidPair 1 1 := ⟨by decide, by decide⟩
  have e0 : wideSuperframe.GetCarrierId 0 0 = .ok 0 := by decide
  have e1 : wideSuperframe.GetCarrierId 1 1 = .ok 0 := by decide
  refine ⟨hv0, hv1, e0, e1, fun h => ?_⟩
  have := (h 0 0 1 1 hv0 hv1 (e0.trans e1.symm)).1
  exact absurd this (by decide)

/-- C5 (amended): for every superframe with at most 255 frames whose total
carrier count is below `2^32`, the map (k, L) -> `GetCarrierId (k, L)` on valid
pairs is strictly increasing for the lexicographic order, injective, takes its
values in {0, ..., `GetCarrierCount ()` - 1}, and takes every such value when no
frame has more than `2^16` carriers. -/
theorem GetCarrierId_contiguous (sf : SatSuperframeConf) (hlen : sf.m_frames.length ≤ 255)
    (htotal : sf.totalCarriers < 4294967296) : sf.ContiguousRenumbering := by
  refine ⟨?_, ?_, ?_, ?_, ?_⟩
  · intro k L hv
    obtain ⟨e, h1, h2⟩ := GetCarrierId_of_valid sf htotal k L hv
    exact ⟨_, e, by omega⟩
  · exact GetCarrierId_strictMono sf htotal
  · intro k1 L1 k2 L2 hv1 hv2 heq
    have key : ¬ lexLt k1 L1 k2 L2 ∧ ¬ lexLt k2 L2 k1 L1 := by
      constructor
      · intro hlt
        obtain ⟨a, b, ea, eb, hab⟩ := GetCarrierId_strictMono sf htotal k1 L1 k2 L2 hv1 hv2 hlt
        rw [ea, eb] at heq
        have : a = b := by injection heq
        omega
      · intro hlt
        obtain ⟨a, b, ea, eb, hab⟩ := GetCarrierId_strictMono sf htotal k2 L2 k1 L1 hv2 hv1 hlt
        rw [ea, eb] at heq
        have : b = a := by injection heq
        omega
    unfold lexLt at key
    have hk : k1.val = k2.val := by omega
    have hL : L1.val = L2.val := by omega
    exact ⟨Fin.ext hk, Fin.ext hL⟩
  · exact GetCarrierCount_of_fit sf hlen htotal
  · intro hsmall id hid
    rw [← carriersBefore_length] at hid
    obtain ⟨k, hk, h1, h2⟩ := exists_frame_of_lt sf.m_frames id _ (Nat.le_refl _) hid
    have hc := carriersBefore_succ sf.m_frames k hk
    have hle : (sf.m_frames.get ⟨k, hk⟩).GetCarrierCount ≤ 65536 :=
      hsmall _ (List.get_mem _ _ _)
    have hk8 : k < 256 := by omega
    have hL16 : id - carriersBefore sf.m_frames k < 65536 := by omega
    have hv : sf.ValidPair ⟨k, hk8⟩ ⟨id - carriersBefore sf.m_frames k, hL16⟩ :=
      ⟨hk, by
        show id - carriersBefore sf.m_frames k < (sf.m_frames.get ⟨k, hk⟩).GetCarrierCount
        omega⟩
    refine ⟨⟨k, hk8⟩, ⟨id - carriersBefore sf.m_frames k, hL16⟩, hv, ?_⟩
    rw [(GetCarrierId_of_valid sf htotal _ _ hv).1]
    congr 1
    show carriersBefore sf.m_frames k + (id - carriersBefore sf.m_frames k) = id
    omega

/-- Witness of `GetCarrierId_contiguous`: `twoFrameSuperframe`. -/
theorem GetCarrierId_contiguous_witness :
    twoFrameSuperframe.m_frames.length ≤ 255 ∧ twoFrameSuperframe.totalCarriers < 4294967296
      ∧ twoFrameSuperframe.ContiguousRenumbering :=
  ⟨by decide, by decide, GetCarrierId_contiguous twoFrameSuperframe (by decide) (by decide)⟩

/-! ## `SatFrameConf` accessors -/

/-- C6: for every frame with elementary-unit bandwidth B and carrier count N,
`SatFrameConf::GetCarrierFrequency_hz (carrierId)` returns
B * carrierId + B / 2 when carrierId < N, and fails (the assertion aborts) when
carrierId >= N. -/
theorem SatFrameConf_GetCarrierFrequency_hz_spec (f : SatFrameConf) (carrierId : uint32_t) :
    (carrierId.val < f.GetCarrierCount →
        f.GetCarrierFrequency_hz carrierId
          = .ok (f.GetBtuConf.GetBandwidth_hz * (carrierId.val : ℚ)
              + f.GetBtuConf.GetBandwidth_hz / 2))
      ∧ (f.GetCarrierCount ≤ carrierId.val →
        f.GetCarrierFrequency_hz carrierId = .error .assertFailed) := by
  constructor
  · intro h
    have h1 : carrierId.val < f.m_carrierCount.val := h
    simp [SatFrameConf.GetCarrierFrequency_hz, h1, SatFrameConf.GetBtuConf]
  · intro h
    have h1 : ¬ carrierId.val < f.m_carrierCount.val := Nat.not_lt.mpr h
    simp [SatFrameConf.GetCarrierFrequency_hz, h1]

/-- Witness of `SatFrameConf_GetCarrierFrequency_hz_spec`: carrier ids 1 and 2
of a frame of two carriers. -/
theorem SatFrameConf_GetCarrierFrequency_hz_spec_witness :
    ((1 : uint32_t).val < (exampleFrame 2 1).GetCarrierCount
        ∧ (exampleFrame 2 1).GetCarrierFrequency_hz 1
          = .ok ((exampleFrame 2 1).GetBtuConf.GetBandwidth_hz * ((1 : uint32_t).val : ℚ)
              + (exampleFrame 2 1).GetBtuConf.GetBandwidth_hz / 2))
      ∧ ((exampleFrame 2 1).GetCarrierCount ≤ (2 : uint32_t).val
        ∧ (exampleFrame 2 1).GetCarrierFrequency_hz 2 = .error .assertFailed) :=
  ⟨⟨by decide, (SatFrameConf_GetCarrierFrequency_hz_spec (exampleFrame 2 1) 1).1 (by decide)⟩,
    ⟨by decide, (SatFrameConf_GetCarrierFrequency_hz_spec (exampleFrame 2 1) 2).2 (by decide)⟩⟩

theorem AddTimeSlotConf_foldl (added : List SatTimeSlotConf) :
    ∀ f : SatFrameConf,
      (added.foldl SatFrameConf.AddTimeSlotConf f).m_timeSlots = f.m_timeSlots ++ added := by
  induction added with
  | nil => intro f; simp
  | cons conf rest ih =>
    intro f
    rw [List.foldl_cons, ih (f.AddTimeSlotConf conf)]
    simp [SatFrameConf.AddTimeSlotConf]

theorem roundHalfEven_intCast (z : ℤ) : roundHalfEven (z : ℚ) = z := by
  unfold roundHalfEven
  simp

/-- An integer of magnitude below `2^53` is a binary64 value. -/
theorem roundToDouble_intCast (z : ℤ) (hz : z.natAbs < 2 ^ 53) :
    roundToDouble (z : ℚ) = some (z : ℚ) := by
  unfold roundToDouble
  by_cases h0 : (z : ℚ) = 0
  · rw [if_pos h0, h0]
  · rw [if_neg h0]
    have hz0 : z ≠ 0 := fun h => h0 (by rw [h]; simp)
    have habs : |(z : ℚ)| = ((z.natAbs : ℕ) : ℚ) := by
      rw [← Int.cast_abs]
      exact (Nat.cast_natAbs z).symm
    have hpos : 0 < z.natAbs := Int.natAbs_pos.mpr hz0
    have hlog : Int.log 2 |(z : ℚ)| = (Nat.log 2 z.natAbs : ℤ) := by
      rw [habs, Int.log_natCast]
    have hk : Nat.log 2 z.natAbs < 53 := Nat.log_lt_of_lt_pow (Nat.pos_iff_ne_zero.mp hpos) hz
    obtain ⟨j, hj⟩ : ∃ j : ℕ, (Nat.log 2 z.natAbs : ℤ) + j = 52 :=
      ⟨52 - Nat.log 2 z.natAbs, by omega⟩
    have he : max (Int.log 2 |(z : ℚ)|) (-1022) - 52 = -(j : ℤ) := by
      rw [hlog, max_eq_left (by omega)]
      omega
    dsimp only
    rw [he, zpow_neg, zpow_natCast]
    have hs : (z : ℚ) / ((2 : ℚ) ^ j)⁻¹ = ((z * 2 ^ j : ℤ) : ℚ) := by
      rw [div_inv_eq_mul]
      push_cast
      ring
    rw [hs, roundHalfEven_intCast]
    have hr : ((z * 2 ^ j : ℤ) : ℚ) * ((2 : ℚ) ^ j)⁻¹ = (z : ℚ) := by
      push_cast
      field_simp
    rw [hr, if_pos]
    rw [habs]
    have : ((z.natAbs : ℕ) : ℚ) < ((2 ^ 53 : ℕ) : ℚ) := by exact_mod_cast hz
    refine lt_trans this ?_
    norm_num

/-- The quotient by a divisor other than zero is the rounded exact quotient. -/
theorem doubleDiv_rounds (a b : ℚ) (hb : b ≠ 0) : doubleDiv a b = roundToDouble (a / b) := by
  unfold doubleDiv
  rw [if_neg hb]

theorem doubleDiv_natCast (n : ℕ) (hn : n < 2 ^ 53) :
    doubleDiv (n : ℚ) 1 = some (n : ℚ) := by
  rw [doubleDiv_rounds _ _ one_ne_zero, div_one]
  have := roundToDouble_intCast (n : ℤ) (by simpa using hn)
  simpa using this

/-- The quotient of zero by a divisor other than zero is zero. -/
theorem doubleDiv_zero (b : ℚ) (hb : b ≠ 0) : doubleDiv 0 b = some 0 := by
  rw [doubleDiv_rounds _ _ hb, zero_div]
  unfold roundToDouble
  rw [if_pos rfl]

/-- A natural number below `2^32` converts to itself. -/
theorem doubleToUint32_natCast (n : ℕ) (hn : n < 4294967296) :
    doubleToUint32 (some (n : ℚ)) = .ok (toUint32 n) := by
  unfold doubleToUint32
  have h0 : (0 : ℚ) ≤ (n : ℚ) := Nat.cast_nonneg n
  simp only [if_pos h0, Int.floor_natCast]
  rw [if_pos ⟨by omega, by omega⟩]
  simp

/-- The conversion of a value that is not above -1 is undefined. -/
theorem doubleToUint32_of_le_neg_one (r : ℚ) (h : r ≤ -1) :
    doubleToUint32 (some r) = .error .undefinedConversion := by
  unfold doubleToUint32
  have h0 : ¬ (0 : ℚ) ≤ r := by linarith
  have hc : Int.ceil r ≤ -1 := by
    rw [Int.ceil_le]
    exact_mod_cast h
  simp only [if_neg h0]
  rw [if_neg (by omega)]

/-- The rounding of the quotient decides the carrier count: 0.25 divided by the
double nearest to 0.01 (`5764607523034235 / 2^59`) is 25 in binary64, although
the exact quotient is below 25. -/
theorem doubleDiv_quarter_hundredth :
    doubleDiv (1 / 4) (5764607523034235 / 576460752303423488) = some 25
      ∧ doubleToUint32 (doubleDiv (1 / 4) (5764607523034235 / 576460752303423488)) = .ok 25
      ∧ Int.floor ((1 / 4 : ℚ) / (5764607523034235 / 576460752303423488)) = 24 := by
  have hq : (1 / 4 : ℚ) / (5764607523034235 / 576460752303423488)
      = 144115188075855872 / 5764607523034235 := by norm_num
  have hfl : Int.floor (144115188075855872 / 5764607523034235 : ℚ) = 24 := by
    rw [Int.floor_eq_iff]
    constructor <;> norm_num
  have hdiv : doubleDiv (1 / 4) (5764607523034235 / 576460752303423488) = some 25 := by
    rw [doubleDiv_rounds _ _ (by norm_num), hq]
    unfold roundToDouble
    rw [if_neg (by norm_num)]
    have habs : |(144115188075855872 / 5764607523034235 : ℚ)|
        = 144115188075855872 / 5764607523034235 := abs_of_pos (by norm_num)
    have hlog : Int.log 2 (144115188075855872 / 5764607523034235 : ℚ) = 4 := by
      rw [Int.log_of_one_le_right _ (by norm_num)]
      have hf : ⌊(144115188075855872 / 5764607523034235 : ℚ)⌋₊ = 24 := by
        rw [Nat.floor_eq_iff (by norm_num)]
        constructor <;> norm_num
      rw [hf]
      have : Nat.log 2 24 = 4 := Nat.log_eq_of_pow_le_of_lt_pow (by norm_num) (by norm_num)
      rw [this]
      rfl
    dsimp only
    rw [habs, hlog]
    have he : max (4 : ℤ) (-1022) - 52 = -(48 : ℕ) := by norm_num
    rw [he, zpow_neg, zpow_natCast]
    have hs : (144115188075855872 / 5764607523034235 : ℚ) / ((2 : ℚ) ^ 48)⁻¹
        = 40564819207303340847894502572032 / 5764607523034235 := by norm_num
    have hfs : Int.floor (40564819207303340847894502572032 / 5764607523034235 : ℚ)
        = 7036874417766399 := by
      rw [Int.floor_eq_iff]
      constructor <;> norm_num
    have hround : roundHalfEven (40564819207303340847894502572032 / 5764607523034235)
        = 7036874417766400 := by
      unfold roundHalfEven
      rw [hfs]
      rw [if_neg (by norm_num), if_pos (by norm_num)]
      norm_num
    rw [hs, hround]
    have hr : ((7036874417766400 : ℤ) : ℚ) * ((2 : ℚ) ^ 48)⁻¹ = 25 := by norm_num
    rw [hr, if_pos (by norm_num)]
  refine ⟨hdiv, ?_, by rw [hq, hfl]⟩
  rw [hdiv]
  exact doubleToUint32_natCast 25 (by norm_num)

/-- The carrier count of 2 Hz over units of 1 Hz is 2. -/
theorem conversion_two : doubleToUint32 (doubleDiv 2 (exampleBtu 1).GetBandwidth_hz) = .ok 2 := by
  have h := doubleDiv_natCast 2 (by norm_num)
  have h1 : (exampleBtu 1).GetBandwidth_hz = 1 := rfl
  rw [h1]
  norm_num at h
  rw [h]
  exact doubleToUint32_natCast 2 (by norm_num)

/-- The constructor when the conversion of the quotient is defined. -/
theorem ctor_of_conversion (bandwidth_hz duration_s : ℚ) (btu : SatBtuConf)
    (timeSlots : Option (List SatTimeSlotConf)) (c : uint32_t)
    (h : doubleToUint32 (doubleDiv bandwidth_hz btu.GetBandwidth_hz) = .ok c) :
    SatFrameConf.ctor bandwidth_hz duration_s btu timeSlots
      = .ok { m_bandwidth_hz := bandwidth_hz, m_duration_s := duration_s, m_btu := btu,
              m_carrierCount := c, m_timeSlots := slotList timeSlots [] } := by
  unfold SatFrameConf.ctor
  rw [h]
  cases timeSlots <;> simp [slotList]

/-- The constructor when the conversion of the quotient is undefined. -/
theorem ctor_of_undefined (bandwidth_hz duration_s : ℚ) (btu : SatBtuConf)
    (timeSlots : Option (List SatTimeSlotConf)) (e : Fault)
    (h : doubleToUint32 (doubleDiv bandwidth_hz btu.GetBandwidth_hz) = .error e) :
    SatFrameConf.ctor bandwidth_hz duration_s btu timeSlots = .error e := by
  unfold SatFrameConf.ctor
  rw [h]

/-- A frame that the constructor returns holds the arguments and the converted
quotient. -/
theorem ctor_ok (bandwidth_hz duration_s : ℚ) (btu : SatBtuConf)
    (timeSlots : Option (List SatTimeSlotConf)) (f : SatFrameConf)
    (h : SatFrameConf.ctor bandwidth_hz duration_s btu timeSlots = .ok f) :
    doubleToUint32 (doubleDiv bandwidth_hz btu.GetBandwidth_hz) = .ok f.m_carrierCount
      ∧ f = { m_bandwidth_hz := bandwidth_hz, m_duration_s := duration_s, m_btu := btu,
              m_carrierCount := f.m_carrierCount, m_timeSlots := slotList timeSlots [] } := by
  rcases hc : doubleToUint32 (doubleDiv bandwidth_hz btu.GetBandwidth_hz) with e | c
  · rw [ctor_of_undefined _ _ _ _ e hc] at h
    cases h
  · rw [ctor_of_conversion _ _ _ _ c hc] at h
    cases h
    exact ⟨rfl, rfl⟩

/-- The frame left by the constructor and the calls of `AddTimeSlotConf`, when the
conversion of the quotient is defined. -/
theorem build_of_conversion (bandwidth_hz duration_s : ℚ) (btu : SatBtuConf)
    (timeSlots : Option (List SatTimeSlotConf)) (added : List SatTimeSlotConf) (c : uint32_t)
    (h : doubleToUint32 (doubleDiv bandwidth_hz btu.GetBandwidth_hz) = .ok c) :
    SatFrameConf.build bandwidth_hz duration_s btu timeSlots added
      = .ok { m_bandwidth_hz := bandwidth_hz, m_duration_s := duration_s, m_btu := btu,
              m_carrierCount := c, m_timeSlots := slotList timeSlots added } := by
  have hfold : ∀ (l : List SatTimeSlotConf) (f : SatFrameConf),
      l.foldl SatFrameConf.AddTimeSlotConf f = { f with m_timeSlots := f.m_timeSlots ++ l } := by
    intro l
    induction l with
    | nil => intro f; simp
    | cons conf rest ih =>
      intro f
      rw [List.foldl_cons, ih]
      simp [SatFrameConf.AddTimeSlotConf]
  unfold SatFrameConf.build
  rw [ctor_of_conversion _ _ _ _ c h]
  dsimp only
  rw [hfold]
  simp [slotList]

/-- A frame left by the constructor and the calls of `AddTimeSlotConf` holds the
constructor arguments, the converted quotient and the slots passed, in call
order. -/
theorem build_ok (bandwidth_hz duration_s : ℚ) (btu : SatBtuConf)
    (timeSlots : Option (List SatTimeSlotConf)) (added : List SatTimeSlotConf)
    (f : SatFrameConf)
    (h : SatFrameConf.build bandwidth_hz duration_s btu timeSlots added = .ok f) :
    doubleToUint32 (doubleDiv bandwidth_hz btu.GetBandwidth_hz) = .ok f.m_carrierCount
      ∧ f = { m_bandwidth_hz := bandwidth_hz, m_duration_s := duration_s, m_btu := btu,
              m_carrierCount := f.m_carrierCount, m_timeSlots := slotList timeSlots added } := by
  rcases hc : doubleToUint32 (doubleDiv bandwidth_hz btu.GetBandwidth_hz) with e | c
  · unfold SatFrameConf.build at h
    rw [ctor_of_undefined _ _ _ _ e hc] at h
    cases h
  · rw [build_of_conversion _ _ _ _ _ c hc] at h
    cases h
    exact ⟨rfl, rfl⟩

theorem build_timeSlots (bandwidth_hz duration_s : ℚ) (btu : SatBtuConf)
    (timeSlots : Option (List SatTimeSlotConf)) (added : List SatTimeSlotConf)
    (f : SatFrameConf)
    (h : SatFrameConf.build bandwidth_hz duration_s btu timeSlots added = .ok f) :
    f.m_timeSlots = slotList timeSlots added := by
  have h2 := (build_ok _ _ _ _ _ f h).2
  rw [h2]

/-- The frame of 2 Hz over units of 1 Hz that the constructor and the calls of
`AddTimeSlotConf` leave. -/
theorem build_builtFrame (duration_s : ℚ) (timeSlots : Option (List SatTimeSlotConf))
    (added : List SatTimeSlotConf) :
    SatFrameConf.build 2 duration_s (exampleBtu 1) timeSlots added
      = .ok (builtFrame duration_s (slotList timeSlots added)) :=
  build_of_conversion 2 duration_s (exampleBtu 1) timeSlots added 2 conversion_two

/-- C8: for every frame that the constructor and the calls of `AddTimeSlotConf`
leave, whose slot list (constructor slots followed by the added ones, in call
order) is s0..s(m-1), `SatFrameConf::GetTimeSlotConf (index)` returns s_index when
index < m and fails (the assertion aborts) when index >= m. -/
theorem GetTimeSlotConf_spec (bandwidth_hz duration_s : ℚ) (btu : SatBtuConf)
    (timeSlots : Option (List SatTimeSlotConf)) (added : List SatTimeSlotConf)
    (index : uint16_t) (f : SatFrameConf)
    (hbuild : SatFrameConf.build bandwidth_hz duration_s btu timeSlots added = .ok f) :
    (∀ h : index.val < (slotList timeSlots added).length,
        f.GetTimeSlotConf index = .ok ((slotList timeSlots added).get ⟨index.val, h⟩))
      ∧ ((slotList timeSlots added).length ≤ index.val →
        f.GetTimeSlotConf index = .error .assertFailed) := by
  have hs := build_timeSlots bandwidth_hz duration_s btu timeSlots added f hbuild
  constructor
  · intro h
    unfold SatFrameConf.GetTimeSlotConf
    have h1 : index.val < f.m_timeSlots.length := by
      rw [hs]; exact h
    rw [dif_pos h1]
    simp only [List.get_eq_getElem, hs]
  · intro h
    unfold SatFrameConf.GetTimeSlotConf
    have h1 : ¬ index.val < f.m_timeSlots.length := by
      rw [hs]; exact Nat.not_lt.mpr h
    rw [dif_neg h1]

/-- Witness of `GetTimeSlotConf_spec`: the frame built with one constructor slot
and one added slot; index 1 is the added slot and index 2 is out of range. -/
theorem GetTimeSlotConf_spec_witness :
    SatFrameConf.build 2 1 (exampleBtu 1) (some [exampleSlot 0]) [exampleSlot 1]
        = .ok (builtFrame 1 (slotList (some [exampleSlot 0]) [exampleSlot 1]))
      ∧ (∃ h : (1 : uint16_t).val < (slotList (some [exampleSlot 0]) [exampleSlot 1]).length,
          (builtFrame 1 (slotList (some [exampleSlot 0]) [exampleSlot 1])).GetTimeSlotConf 1
            = .ok ((slotList (some [exampleSlot 0]) [exampleSlot 1]).get
                ⟨(1 : uint16_t).val, h⟩))
      ∧ ((slotList (some [exampleSlot 0]) [exampleSlot 1]).length ≤ (2 : uint16_t).val
        ∧ (builtFrame 1 (slotList (some [exampleSlot 0]) [exampleSlot 1])).GetTimeSlotConf 2
            = .error .assertFailed) :=
  ⟨build_builtFrame 1 (some [exampleSlot 0]) [exampleSlot 1],
    ⟨by decide,
      (GetTimeSlotConf_spec 2 1 (exampleBtu 1) (some [exampleSlot 0]) [exampleSlot 1] 1
        (builtFrame 1 (slotList (some [exampleSlot 0]) [exampleSlot 1]))
        (build_builtFrame 1 (some [exampleSlot 0]) [exampleSlot 1])).1 (by decide)⟩,
    ⟨by decide,
      (GetTimeSlotConf_spec 2 1 (exampleBtu 1) (some [exampleSlot 0]) [exampleSlot 1] 2
        (builtFrame 1 (slotList (some [exampleSlot 0]) [exampleSlot 1]))
        (build_builtFrame 1 (some [exampleSlot 0]) [exampleSlot 1])).2 (by decide)⟩⟩

/-! ## `SatUtMac::ScheduleTimeSlots`: the stale-allocation check -/

/-- An abort of the loop of `GetCarrierId` is a failed assertion. -/
theorem GetCarrierId_fold_error (frames : List SatFrameConf) (e : Fault) :
    ∀ (k c0 : Nat),
      (List.range k).foldlM
        (fun carrierId i =>
          if h : i < frames.length then
            (Except.ok ((carrierId + (frames.get ⟨i, h⟩).GetCarrierCount) % 4294967296) :
              Except Fault Nat)
          else
            .error .assertFailed)
        c0 = .error e → e = .assertFailed := by
  intro k
  induction k with
  | zero => intro c0 h; simp [pure, Except.pure] at h
  | succ n ih =>
    intro c0 h
    rw [List.range_succ, List.foldlM_append] at h
    cases hr : (List.range n).foldlM
        (fun carrierId i =>
          if h : i < frames.length then
            (Except.ok ((carrierId + (frames.get ⟨i, h⟩).GetCarrierCount) % 4294967296) :
              Except Fault Nat)
          else
            .error .assertFailed)
        c0 with
    | error e1 =>
      rw [hr] at h
      simp only [bind, Except.bind] at h
      injection h with h
      subst h
      exact ih c0 hr
    | ok c =>
      rw [hr] at h
      simp only [bind, Except.bind, List.foldlM, pure, Except.pure] at h
      by_cases hn : n < frames.length
      · simp [hn] at h
      · simp [hn] at h
        exact h.symm

/-- An abort while one slot is handled is never an `NS_FATAL_ERROR`. -/
theorem slot_error_not_fatal (mac : SatUtMac) (startDelay : Time) (frameId : uint8_t)
    (slotIndex : uint16_t) (sim : Simulator) (e : Fault)
    (h : SatUtMac.ScheduleTimeSlots.slot mac startDelay frameId slotIndex sim = .error e) :
    ∀ site, e ≠ .fatalError site := by
  intro site hsite
  subst hsite
  unfold SatUtMac.ScheduleTimeSlots.slot at h
  split at h
  · rename_i e1 h1
    injection h with h
    subst h
    unfold SatSuperframeSeq.GetSuperframeConf at h1
    split at h1 <;> cases h1
  · split at h
    · rename_i e1 h1
      injection h with h
      subst h
      unfold SatSuperframeConf.GetFrameConf at h1
      split at h1 <;> cases h1
    · split at h
      · rename_i e1 h1
        injection h with h
        subst h
        unfold SatFrameConf.GetTimeSlotConf at h1
        split at h1 <;> cases h1
      · split at h
        · cases h
        · split at h
          · rename_i e1 h1
            injection h with h
            subst h
            unfold SatSuperframeSeq.GetCarrierId at h1
            split at h1
            · rename_i e2 h2
              injection h1 with h1
              subst h1
              unfold SatSuperframeSeq.GetSuperframeConf at h2
              split at h2 <;> cases h2
            · have := GetCarrierId_fold_error _ _ _ _ h1
              cases this
          · cases h

/-- A slot that is handled without abort appends its transmission to the schedule. -/
theorem slot_ok_events (mac : SatUtMac) (startDelay : Time) (frameId : uint8_t)
    (slotIndex : uint16_t) (sim sim1 : Simulator)
    (h : SatUtMac.ScheduleTimeSlots.slot mac startDelay frameId slotIndex sim = .ok sim1) :
    sim.events <+: sim1.events := by
  unfold SatUtMac.ScheduleTimeSlots.slot at h
  repeat' split at h
  all_goals cases h
  simp [SatUtMac.ScheduleTxOpportunity, Simulator.Schedule]

/-- The slot loop only appends to the schedule and never raises the
stale-allocation error. -/
theorem ScheduleTimeSlots_loop_events (mac : SatUtMac) (startDelay : Time) :
    ∀ (slots : List (uint8_t × uint16_t)) (atBegin : Bool) (frameId : uint8_t) (sim : Simulator),
      sim.events <+: (SatUtMac.ScheduleTimeSlots.loop mac startDelay atBegin frameId slots sim).1.events
        ∧ (SatUtMac.ScheduleTimeSlots.loop mac startDelay atBegin frameId slots sim).2
            ≠ some (.fatalError .tbtpInThePast) := by
  intro slots
  induction slots with
  | nil =>
    intro atBegin frameId sim
    simp [SatUtMac.ScheduleTimeSlots.loop]
  | cons it rest ih =>
    intro atBegin frameId sim
    unfold SatUtMac.ScheduleTimeSlots.loop
    split
    · simp
    · dsimp only
      generalize (if atBegin = true then it.1 else frameId) = fid
      split
      · rename_i e he
        refine ⟨List.prefix_refl _, ?_⟩
        intro hc
        injection hc with hc
        exact slot_error_not_fatal _ _ _ _ _ _ he _ hc
      · rename_i sim1 hs
        obtain ⟨h1, h2⟩ := ih false fid sim1
        exact ⟨List.IsPrefix.trans (slot_ok_events _ _ _ _ _ _ hs) h1, h2⟩

/-- C9: for every allocation message whose computed txTime is strictly less than
the current time, `SatUtMac::ScheduleTimeSlots` fails with the fatal
stale-allocation error and schedules no event at all (the simulator is left as
it was); for txTime >= now, txTime = now included, the stale-allocation check
does not fail: the superframe-start marker is scheduled at delay txTime - now and
the call does not end in the stale-allocation error. -/
theorem ScheduleTimeSlots_stale_check (mac : SatUtMac) (sim : Simulator)
    (tbtp : SatTbtpMessage) :
    (mac.txTime tbtp < sim.Now →
        (mac.ScheduleTimeSlots sim tbtp).fault = some (.fatalError .tbtpInThePast)
          ∧ (mac.ScheduleTimeSlots sim tbtp).sim = sim)
      ∧ (sim.Now ≤ mac.txTime tbtp →
        (mac.ScheduleTimeSlots sim tbtp).fault ≠ some (.fatalError .tbtpInThePast)
          ∧ ∃ rest, (mac.ScheduleTimeSlots sim tbtp).sim.events
              = sim.events
                ++ (mac.txTime tbtp - sim.Now, Event.SuperFrameStart tbtp.GetSuperframeSeqId)
                  :: rest) := by
  constructor
  · intro h
    have h1 : mac.m_superframeSeq.GetSuperFrameTxTimeWithCount tbtp.GetSuperframeSeqId
        tbtp.GetSuperframeCounter (mac.m_timingAdvanceCb mac.timingAdvanceCalls) < sim.Now := h
    simp only [SatUtMac.ScheduleTimeSlots, h1, if_true, and_self]
  · intro h
    have h1 : ¬ mac.m_superframeSeq.GetSuperFrameTxTimeWithCount tbtp.GetSuperframeSeqId
        tbtp.GetSuperframeCounter (mac.m_timingAdvanceCb mac.timingAdvanceCalls) < sim.Now :=
      Int.not_lt.mpr h
    simp only [SatUtMac.ScheduleTimeSlots, h1, if_false]
    refine ⟨(ScheduleTimeSlots_loop_events _ _ _ _ _ _).2, ?_⟩
    obtain ⟨t, ht⟩ := (ScheduleTimeSlots_loop_events _ _ _ _ _ _).1
    refine ⟨t, ?_⟩
    rw [← ht]
    simp [Simulator.Schedule, SatUtMac.txTime]

/-- Witness of `ScheduleTimeSlots_stale_check`: `exampleTbtp` has txTime 0; it is
stale for `lateSim` (time 1) and in time for a simulator at time 0. -/
theorem ScheduleTimeSlots_stale_check_witness :
    (exampleMac.txTime exampleTbtp < lateSim.Now
        ∧ (exampleMac.ScheduleTimeSlots lateSim exampleTbtp).fault
            = some (.fatalError .tbtpInThePast)
        ∧ (exampleMac.ScheduleTimeSlots lateSim exampleTbtp).sim = lateSim)
      ∧ ((Simulator.mk 0 []).Now ≤ exampleMac.txTime exampleTbtp
        ∧ (exampleMac.ScheduleTimeSlots (Simulator.mk 0 []) exampleTbtp).fault
            ≠ some (.fatalError .tbtpInThePast)
        ∧ ∃ rest, (exampleMac.ScheduleTimeSlots (Simulator.mk 0 []) exampleTbtp).sim.events
            = (Simulator.mk 0 []).events
              ++ (exampleMac.txTime exampleTbtp - (Simulator.mk 0 []).Now,
                  Event.SuperFrameStart exampleTbtp.GetSuperframeSeqId) :: rest) :=
  ⟨⟨by decide, (ScheduleTimeSlots_stale_check exampleMac lateSim exampleTbtp).1 (by decide)⟩,
    ⟨by decide,
      (ScheduleTimeSlots_stale_check exampleMac (Simulator.mk 0 []) exampleTbtp).2 (by decide)⟩⟩

/-- C10 (as stated, refuted): `exampleTbtp` is stale for `lateSim`, the call
fails, and the allocation cache, empty before the call, holds the message
afterwards. -/
theorem ScheduleTimeSlots_records_stale :
    exampleMac.txTime exampleTbtp < lateSim.Now
      ∧ (exampleMac.ScheduleTimeSlots lateSim exampleTbtp).fault
          = some (.fatalError .tbtpInThePast)
      ∧ exampleMac.m_tbtpContainer = { m_tbtps := [] }
      ∧ (exampleMac.ScheduleTimeSlots lateSim exampleTbtp).mac.m_tbtpContainer
          = { m_tbtps := [(0, exampleTbtp)] }
      ∧ (exampleMac.ScheduleTimeSlots lateSim exampleTbtp).mac.m_tbtpContainer
          ≠ exampleMac.m_tbtpContainer := by
  decide

/-- C10 (amended): recording precedes the stale-allocation check. For every
allocation message whose txTime is strictly less than the current time,
`SatUtMac::ScheduleTimeSlots` has added the message to the allocation cache
under the key txTime when it fails with the stale-allocation error; the cache
is the one before the call with that entry added, and nothing is scheduled. -/
theorem ScheduleTimeSlots_stale_recorded (mac : SatUtMac) (sim : Simulator)
    (tbtp : SatTbtpMessage) (h : mac.txTime tbtp < sim.Now) :
    (mac.ScheduleTimeSlots sim tbtp).mac.m_tbtpContainer
        = mac.m_tbtpContainer.Add (mac.txTime tbtp) tbtp
      ∧ (mac.ScheduleTimeSlots sim tbtp).fault = some (.fatalError .tbtpInThePast)
      ∧ (mac.ScheduleTimeSlots sim tbtp).sim = sim := by
  have h1 : mac.m_superframeSeq.GetSuperFrameTxTimeWithCount tbtp.GetSuperframeSeqId
      tbtp.GetSuperframeCounter (mac.m_timingAdvanceCb mac.timingAdvanceCalls) < sim.Now := h
  simp only [SatUtMac.ScheduleTimeSlots, h1, if_true, SatUtMac.txTime, and_self]

/-- Witness of `ScheduleTimeSlots_stale_recorded`: `exampleTbtp` at `lateSim`. -/
theorem ScheduleTimeSlots_stale_recorded_witness :
    exampleMac.txTime exampleTbtp < lateSim.Now
      ∧ (exampleMac.ScheduleTimeSlots lateSim exampleTbtp).mac.m_tbtpContainer
          = exampleMac.m_tbtpContainer.Add (exampleMac.txTime exampleTbtp) exampleTbtp
      ∧ (exampleMac.ScheduleTimeSlots lateSim exampleTbtp).fault
          = some (.fatalError .tbtpInThePast)
      ∧ (exampleMac.ScheduleTimeSlots lateSim exampleTbtp).sim = lateSim :=
  ⟨by decide, ScheduleTimeSlots_stale_recorded exampleMac lateSim exampleTbtp (by decide)⟩

/-! ## The linear scan of `GetCarrierFrequency_hz` and `GetCarrierBandwidth_hz` -/

theorem bandwidthBefore_zero (frames : List SatFrameConf) : bandwidthBefore frames 0 = 0 := by
  simp [bandwidthBefore]

theorem bandwidthBefore_succ (frames : List SatFrameConf) (k : Nat) (h : k < frames.length) :
    bandwidthBefore frames (k + 1)
      = bandwidthBefore frames k + (frames.get ⟨k, h⟩).GetBandwidth_hz := by
  unfold bandwidthBefore
  rw [List.take_succ, List.getElem?_eq_getElem h]
  simp only [Option.toList, List.map_append, List.map_cons, List.map_nil, List.sum_append,
    List.sum_cons, List.sum_nil, add_zero, List.get_eq_getElem]

theorem frameAt_of_lt (frames : List SatFrameConf) (i : Nat) (h : i < frames.length) :
    frameAt frames i = .ok (frames.get ⟨i, h⟩) := by
  simp [frameAt, List.getElem?_eq_getElem h]

theorem frameAt_of_le (frames : List SatFrameConf) (i : Nat) (h : frames.length ≤ i) :
    frameAt frames i = .error (.outOfBounds i) := by
  simp [frameAt, List.getElem?_eq_none h]

/-- The scan of `GetCarrierFrequency_hz` stops at the frame `k` that owns the
id, with the bandwidths of the frames before it summed up and the local id as
remainder, when the first frame has a carrier and the ids of the frames `0 .. k`
fit in 32 bits. -/
theorem frequency_scan_spec (frames : List SatFrameConf) (id k : Nat) (hk : k < frames.length)
    (hk32 : k < 4294967296) (h0 : 1 ≤ carriersBefore frames 1)
    (hfit : carriersBefore frames (k + 1) ≤ 4294967296)
    (hlo : carriersBefore frames k ≤ id) (hhi : id < carriersBefore frames (k + 1)) :
    ∀ (fuel j : Nat), j ≤ k → k - j < fuel →
      SatSuperframeConf.GetCarrierFrequency_hz.scan frames id fuel (bandwidthBefore frames j) j
          (carriersBefore frames (j + 1) - 1) (id - carriersBefore frames j)
        = some (.ok (bandwidthBefore frames k, k, id - carriersBefore frames k)) := by
  intro fuel
  induction fuel with
  | zero => intro j _ h; omega
  | succ n ih =>
    intro j hj hfuel
    unfold SatSuperframeConf.GetCarrierFrequency_hz.scan
    have h1j : carriersBefore frames 1 ≤ carriersBefore frames (j + 1) :=
      carriersBefore_mono frames (by omega)
    rcases Nat.lt_or_ge j k with hlt | hge
    · have hjl : j < frames.length := by omega
      have hj1l : j + 1 < frames.length := by omega
      have hm1 : carriersBefore frames (j + 1) ≤ carriersBefore frames k :=
        carriersBefore_mono frames hlt
      have hm2 : carriersBefore frames (j + 1 + 1) ≤ carriersBefore frames (k + 1) :=
        carriersBefore_mono frames (by omega)
      have hs1 := carriersBefore_succ frames j hjl
      have hs2 := carriersBefore_succ frames (j + 1) hj1l
      have hcond : id > carriersBefore frames (j + 1) - 1 := by omega
      have hwrap : (j + 1) % 4294967296 = j + 1 := Nat.mod_eq_of_lt (by omega)
      rw [if_pos hcond, frameAt_of_lt frames j hjl]
      simp only [hwrap]
      rw [frameAt_of_lt frames (j + 1) hj1l]
      simp only []
      have e1 : (id - carriersBefore frames j + 4294967296
          - (frames.get ⟨j, hjl⟩).GetCarrierCount) % 4294967296
            = id - carriersBefore frames (j + 1) := by omega
      have e2 : (carriersBefore frames (j + 1) - 1
          + (frames.get ⟨j + 1, hj1l⟩).GetCarrierCount) % 4294967296
            = carriersBefore frames (j + 1 + 1) - 1 := by omega
      rw [e1, e2, ← bandwidthBefore_succ frames j hjl]
      exact ih (j + 1) hlt (by omega)
    · have hjk : j = k := Nat.le_antisymm hj hge
      subst hjk
      have hcond : ¬ id > carriersBefore frames (j + 1) - 1 := by omega
      rw [if_neg hcond]

/-- The scan of `GetCarrierBandwidth_hz` stops at the frame `k` that owns the
id, under the conditions of `frequency_scan_spec`. -/
theorem bandwidth_scan_spec (frames : List SatFrameConf) (id k : Nat) (hk : k < frames.length)
    (hk32 : k < 4294967296) (h0 : 1 ≤ carriersBefore frames 1)
    (hfit : carriersBefore frames (k + 1) ≤ 4294967296)
    (hlo : carriersBefore frames k ≤ id) (hhi : id < carriersBefore frames (k + 1)) :
    ∀ (fuel j : Nat), j ≤ k → k - j < fuel →
      SatSuperframeConf.GetCarrierBandwidth_hz.scan frames id fuel j
          (carriersBefore frames (j + 1) - 1) (id - carriersBefore frames j)
        = some (.ok k) := by
  intro fuel
  induction fuel with
  | zero => intro j _ h; omega
  | succ n ih =>
    intro j hj hfuel
    unfold SatSuperframeConf.GetCarrierBandwidth_hz.scan
    have h1j : carriersBefore frames 1 ≤ carriersBefore frames (j + 1) :=
      carriersBefore_mono frames (by omega)
    rcases Nat.lt_or_ge j k with hlt | hge
    · have hjl : j < frames.length := by omega
      have hj1l : j + 1 < frames.length := by omega
      have hm1 : carriersBefore frames (j + 1) ≤ carriersBefore frames k :=
        carriersBefore_mono frames hlt
      have hm2 : carriersBefore frames (j + 1 + 1) ≤ carriersBefore frames (k + 1) :=
        carriersBefore_mono frames (by omega)
      have hs1 := carriersBefore_succ frames j hjl
      have hs2 := carriersBefore_succ frames (j + 1) hj1l
      have hcond : id > carriersBefore frames (j + 1) - 1 := by omega
      have hwrap : (j + 1) % 4294967296 = j + 1 := Nat.mod_eq_of_lt (by omega)
      rw [if_pos hcond, frameAt_of_lt frames j hjl]
      simp only [hwrap]
      rw [frameAt_of_lt frames (j + 1) hj1l]
      simp only []
      have e1 : (id - carriersBefore frames j + 4294967296
          - (frames.get ⟨j, hjl⟩).GetCarrierCount) % 4294967296
            = id - carriersBefore frames (j + 1) := by omega
      have e2 : (carriersBefore frames (j + 1) - 1
          + (frames.get ⟨j + 1, hj1l⟩).GetCarrierCount) % 4294967296
            = carriersBefore frames (j + 1 + 1) - 1 := by omega
      rw [e1, e2]
      exact ih (j + 1) hlt (by omega)
    · have hjk : j = k := Nat.le_antisymm hj hge
      subst hjk
      have hcond : ¬ id > carriersBefore frames (j + 1) - 1 := by omega
      rw [if_neg hcond]

theorem carriersBefore_one_of_first (sf : SatSuperframeConf) (h0 : sf.FirstFrameHasCarrier) :
    0 < sf.m_frames.length
      ∧ ∀ h : 0 < sf.m_frames.length,
          carriersBefore sf.m_frames 1 = (sf.m_frames.get ⟨0, h⟩).GetCarrierCount
            ∧ 1 ≤ (sf.m_frames.get ⟨0, h⟩).GetCarrierCount := by
  obtain ⟨f0, rest, hf, hc⟩ := h0
  rw [hf]
  refine ⟨by simp, fun h => ?_⟩
  simp [carriersBefore, hc]

/-- The frequency of an id that lies in frame `k`: the scan locates frame `k`
and the result is the sum of the bandwidths of the frames before `k` plus the
frame-local frequency of the remainder. -/
theorem GetCarrierFrequency_hz_located (sf : SatSuperframeConf) (h0 : sf.FirstFrameHasCarrier)
    (htotal : sf.totalCarriers < 4294967296) (id k : Nat) (hk : k < sf.m_frames.length)
    (hk32 : k < 4294967296) (hlo : carriersBefore sf.m_frames k ≤ id)
    (hhi : id < carriersBefore sf.m_frames (k + 1)) (fuel : Nat) (hfuel : k < fuel) :
    sf.GetCarrierFrequency_hz fuel (toUint32 id)
      = match (sf.m_frames.get ⟨k, hk⟩).GetCarrierFrequency_hz
          (toUint32 (id - carriersBefore sf.m_frames k)) with
        | .error e => some (.error e)
        | .ok fr => some (.ok (bandwidthBefore sf.m_frames k + fr)) := by
  obtain ⟨hpos, hfirst⟩ := carriersBefore_one_of_first sf h0
  obtain ⟨hc1, hc0⟩ := hfirst hpos
  have ht := carriersBefore_le_total sf (k + 1)
  have hid : (toUint32 id).val = id := Nat.mod_eq_of_lt (by omega)
  have hscan := frequency_scan_spec sf.m_frames id k hk hk32 (by omega) (by omega) hlo hhi
    fuel 0 (Nat.zero_le _) (by omega)
  rw [bandwidthBefore_zero, carriersBefore_zero, Nat.sub_zero, Nat.zero_add, hc1] at hscan
  have hlast : ((sf.m_frames.get ⟨0, hpos⟩).GetCarrierCount + 4294967296 - 1) % 4294967296
      = (sf.m_frames.get ⟨0, hpos⟩).GetCarrierCount - 1 := by
    have := (sf.m_frames.get ⟨0, hpos⟩).m_carrierCount.isLt
    have hdef : (sf.m_frames.get ⟨0, hpos⟩).GetCarrierCount
        = (sf.m_frames.get ⟨0, hpos⟩).m_carrierCount.val := rfl
    omega
  unfold SatSuperframeConf.GetCarrierFrequency_hz
  rw [frameAt_of_lt sf.m_frames 0 hpos]
  simp only [hlast, hid, hscan]
  rw [frameAt_of_lt sf.m_frames k hk]

/-- The bandwidth of an id that lies in frame `k`: the scan locates frame `k`. -/
theorem GetCarrierBandwidth_hz_located (sf : SatSuperframeConf) (h0 : sf.FirstFrameHasCarrier)
    (htotal : sf.totalCarriers < 4294967296) (id k : Nat) (hk : k < sf.m_frames.length)
    (hk32 : k < 4294967296) (hlo : carriersBefore sf.m_frames k ≤ id)
    (hhi : id < carriersBefore sf.m_frames (k + 1)) (fuel : Nat) (hfuel : k < fuel) :
    sf.GetCarrierBandwidth_hz fuel (toUint32 id)
      = some (.ok (sf.m_frames.get ⟨k, hk⟩).GetCarrierBandwidth_hz) := by
  obtain ⟨hpos, hfirst⟩ := carriersBefore_one_of_first sf h0
  obtain ⟨hc1, hc0⟩ := hfirst hpos
  have ht := carriersBefore_le_total sf (k + 1)
  have hid : (toUint32 id).val = id := Nat.mod_eq_of_lt (by omega)
  have hscan := bandwidth_scan_spec sf.m_frames id k hk hk32 (by omega) (by omega) hlo hhi
    fuel 0 (Nat.zero_le _) (by omega)
  rw [carriersBefore_zero, Nat.sub_zero, Nat.zero_add, hc1] at hscan
  have hlast : ((sf.m_frames.get ⟨0, hpos⟩).GetCarrierCount + 4294967296 - 1) % 4294967296
      = (sf.m_frames.get ⟨0, hpos⟩).GetCarrierCount - 1 := by
    have := (sf.m_frames.get ⟨0, hpos⟩).m_carrierCount.isLt
    have hdef : (sf.m_frames.get ⟨0, hpos⟩).GetCarrierCount
        = (sf.m_frames.get ⟨0, hpos⟩).m_carrierCount.val := rfl
    omega
  unfold SatSuperframeConf.GetCarrierBandwidth_hz
  rw [frameAt_of_lt sf.m_frames 0 hpos]
  simp only [hlast, hid, hscan]
  rw [frameAt_of_lt sf.m_frames k hk]

/-- C2 (as stated, refuted): in `twoFrameSuperframe` the valid pair (1, 0) has
global id 2; the frequency resolved through the global id is 5/2 Hz, the one
obtained from frame 1 directly is 1/2 Hz. -/
theorem GetCarrierFrequency_hz_differs :
    twoFrameSuperframe.ValidPair 1 0
      ∧ twoFrameSuperframe.GetCarrierId 1 0 = .ok 2
      ∧ twoFrameSuperframe.GetCarrierFrequency_hz 5 2 = some (.ok (5 / 2))
      ∧ (exampleFrame 2 1).GetCarrierFrequency_hz 0 = .ok (1 / 2)
      ∧ twoFrameSuperframe.m_frames[1]? = some (exampleFrame 2 1)
      ∧ (5 / 2 : ℚ) ≠ 1 / 2 := by
  refine ⟨⟨by decide, by decide⟩, by decide, ?_, ?_, rfl, by norm_num⟩
  · simp [SatSuperframeConf.GetCarrierFrequency_hz, SatSuperframeConf.GetCarrierFrequency_hz.scan,
      frameAt, twoFrameSuperframe, exampleFrame, exampleBtu, toUint32,
      SatFrameConf.GetCarrierCount, SatFrameConf.GetBandwidth_hz,
      SatFrameConf.GetCarrierFrequency_hz, SatBtuConf.GetBandwidth_hz]
    norm_num
  · simp [SatFrameConf.GetCarrierFrequency_hz, exampleFrame, exampleBtu, toUint32,
      SatBtuConf.GetBandwidth_hz]

/-- C2 (amended): for every superframe whose first frame has at least one
carrier and whose total carrier count is below `2^32`, and every valid pair
(k, L), the frequency resolved through the global id is the frequency obtained
from frame k directly plus the sum of the bandwidths of the frames before k; the
two frequencies are equal when k = 0. -/
theorem GetCarrierFrequency_hz_via_global_id (sf : SatSuperframeConf)
    (h0 : sf.FirstFrameHasCarrier) (htotal : sf.totalCarriers < 4294967296) (k : uint8_t)
    (L : uint16_t) (hv : sf.ValidPair k L) (fuel : Nat) (hfuel : k.val < fuel) :
    ∃ (id : Nat) (fr : ℚ) (hk : k.val < sf.m_frames.length),
      sf.GetCarrierId k L = .ok id
        ∧ (sf.m_frames.get ⟨k.val, hk⟩).GetCarrierFrequency_hz (toUint32 L.val) = .ok fr
        ∧ sf.GetCarrierFrequency_hz fuel (toUint32 id)
            = some (.ok (bandwidthBefore sf.m_frames k.val + fr))
        ∧ (k.val = 0 → sf.GetCarrierFrequency_hz fuel (toUint32 id) = some (.ok fr)) := by
  obtain ⟨hid, hlt, _⟩ := GetCarrierId_of_valid sf htotal k L hv
  obtain ⟨hk, hL⟩ := hv
  have hL32 : (toUint32 L.val).val = L.val :=
    Nat.mod_eq_of_lt (Nat.lt_trans L.isLt (by decide))
  have hloc : (sf.m_frames.get ⟨k.val, hk⟩).GetCarrierFrequency_hz (toUint32 L.val)
      = .ok ((sf.m_frames.get ⟨k.val, hk⟩).m_btu.GetBandwidth_hz * (L.val : ℚ)
          + (sf.m_frames.get ⟨k.val, hk⟩).m_btu.GetBandwidth_hz / 2) := by
    have hL1 : (toUint32 L.val).val < (sf.m_frames.get ⟨k.val, hk⟩).m_carrierCount.val := by
      rw [hL32]; exact hL
    unfold SatFrameConf.GetCarrierFrequency_hz
    rw [if_pos hL1, hL32]
  have hglob := GetCarrierFrequency_hz_located sf h0 htotal
    (carriersBefore sf.m_frames k.val + L.val) k.val hk (Nat.lt_trans k.isLt (by decide))
    (Nat.le_add_right _ _) hlt fuel hfuel
  rw [Nat.add_sub_cancel_left, hloc] at hglob
  dsimp only at hglob
  refine ⟨_, _, hk, hid, hloc, hglob, fun hk0 => ?_⟩
  have hb : bandwidthBefore sf.m_frames k.val = 0 := by
    rw [hk0]; exact bandwidthBefore_zero _
  rw [hglob, hb, zero_add]

/-- Witness of `GetCarrierFrequency_hz_via_global_id`: the pair (1, 0) of
`twoFrameSuperframe`, scanned with 5 loop tests. -/
theorem GetCarrierFrequency_hz_via_global_id_witness :
    twoFrameSuperframe.FirstFrameHasCarrier ∧ twoFrameSuperframe.totalCarriers < 4294967296
      ∧ twoFrameSuperframe.ValidPair 1 0 ∧ (1 : uint8_t).val < 5
      ∧ ∃ (id : Nat) (fr : ℚ) (hk : (1 : uint8_t).val < twoFrameSuperframe.m_frames.length),
          twoFrameSuperframe.GetCarrierId 1 0 = .ok id
            ∧ (twoFrameSuperframe.m_frames.get ⟨(1 : uint8_t).val, hk⟩).GetCarrierFrequency_hz
                (toUint32 (0 : uint16_t).val) = .ok fr
            ∧ twoFrameSuperframe.GetCarrierFrequency_hz 5 (toUint32 id)
                = some (.ok (bandwidthBefore twoFrameSuperframe.m_frames (1 : uint8_t).val + fr))
            ∧ ((1 : uint8_t).val = 0 →
                twoFrameSuperframe.GetCarrierFrequency_hz 5 (toUint32 id) = some (.ok fr)) :=
  ⟨⟨_, _, rfl, by decide⟩, by decide, ⟨by decide, by decide⟩, by decide,
    GetCarrierFrequency_hz_via_global_id twoFrameSuperframe ⟨_, _, rfl, by decide⟩ (by decide)
      1 0 ⟨by decide, by decide⟩ 5 (by decide)⟩

/-- C3 (as stated, refuted): in `emptyFirstSuperframe` the valid pair (1, 0) has
global id 0 and belongs to frame 1, whose carrier bandwidth is 2 Hz; the scan
stops at frame 0 and `GetCarrierBandwidth_hz (0)` returns 1 Hz. -/
theorem GetCarrierBandwidth_hz_wrong_frame :
    emptyFirstSuperframe.ValidPair 1 0
      ∧ emptyFirstSuperframe.GetCarrierId 1 0 = .ok 0
      ∧ emptyFirstSuperframe.GetCarrierBandwidth_hz 5 0 = some (.ok 1)
      ∧ emptyFirstSuperframe.m_frames[1]? = some (exampleFrame 1 2)
      ∧ (exampleFrame 1 2).GetCarrierBandwidth_hz = 2
      ∧ (1 : ℚ) ≠ 2 := by
  refine ⟨⟨by decide, by decide⟩, by decide, ?_, rfl, rfl, by norm_num⟩
  simp [SatSuperframeConf.GetCarrierBandwidth_hz, SatSuperframeConf.GetCarrierBandwidth_hz.scan,
    frameAt, emptyFirstSuperframe, exampleFrame, exampleBtu, toUint32,
    SatFrameConf.GetCarrierCount, SatFrameConf.GetCarrierBandwidth_hz,
    SatBtuConf.GetBandwidth_hz]

/-- C3 (amended): for every superframe whose first frame has at least one
carrier and whose total carrier count is below `2^32`, and every valid pair
(k, L), `GetCarrierBandwidth_hz (GetCarrierId (k, L))` returns the carrier
bandwidth of frame k: the scan stops at the frame that owns the id. -/
theorem GetCarrierBandwidth_hz_via_global_id (sf : SatSuperframeConf)
    (h0 : sf.FirstFrameHasCarrier) (htotal : sf.totalCarriers < 4294967296) (k : uint8_t)
    (L : uint16_t) (hv : sf.ValidPair k L) (fuel : Nat) (hfuel : k.val < fuel) :
    ∃ (id : Nat) (hk : k.val < sf.m_frames.length),
      sf.GetCarrierId k L = .ok id
        ∧ sf.GetCarrierBandwidth_hz fuel (toUint32 id)
            = some (.ok (sf.m_frames.get ⟨k.val, hk⟩).GetCarrierBandwidth_hz) := by
  obtain ⟨hid, hlt, _⟩ := GetCarrierId_of_valid sf htotal k L hv
  obtain ⟨hk, _⟩ := hv
  exact ⟨_, hk, hid, GetCarrierBandwidth_hz_located sf h0 htotal
    (carriersBefore sf.m_frames k.val + L.val) k.val hk (Nat.lt_trans k.isLt (by decide))
    (Nat.le_add_right _ _) hlt fuel hfuel⟩

/-- Witness of `GetCarrierBandwidth_hz_via_global_id`: the pair (1, 1) of
`twoFrameSuperframe`, scanned with 5 loop tests. -/
theorem GetCarrierBandwidth_hz_via_global_id_witness :
    twoFrameSuperframe.FirstFrameHasCarrier ∧ twoFrameSuperframe.totalCarriers < 4294967296
      ∧ twoFrameSuperframe.ValidPair 1 1 ∧ (1 : uint8_t).val < 5
      ∧ ∃ (id : Nat) (hk : (1 : uint8_t).val < twoFrameSuperframe.m_frames.length),
          twoFrameSuperframe.GetCarrierId 1 1 = .ok id
            ∧ twoFrameSuperframe.GetCarrierBandwidth_hz 5 (toUint32 id)
                = some (.ok (twoFrameSuperframe.m_frames.get
                    ⟨(1 : uint8_t).val, hk⟩).GetCarrierBandwidth_hz) :=
  ⟨⟨_, _, rfl, by decide⟩, by decide, ⟨by decide, by decide⟩, by decide,
    GetCarrierBandwidth_hz_via_global_id twoFrameSuperframe ⟨_, _, rfl, by decide⟩ (by decide)
      1 1 ⟨by decide, by decide⟩ 5 (by decide)⟩

/-- The scan of `GetCarrierFrequency_hz` for an id that is not below the total
carrier count: it passes every frame and reads `m_frames[n]`, `n` being the
number of frames. -/
theorem frequency_scan_overrun (frames : List SatFrameConf) (id : Nat)
    (h0 : 1 ≤ carriersBefore frames 1) (hlen : frames.length < 4294967296)
    (hid : carriersBefore frames frames.length ≤ id) (hid32 : id < 4294967296) :
    ∀ (fuel j : Nat) (start : ℚ), j < frames.length → frames.length - j ≤ fuel →
      SatSuperframeConf.GetCarrierFrequency_hz.scan frames id fuel start j
          (carriersBefore frames (j + 1) - 1) (id - carriersBefore frames j)
        = some (.error (.outOfBounds frames.length)) := by
  intro fuel
  induction fuel with
  | zero => intro j _ hj h; omega
  | succ n ih =>
    intro j start hj hfuel
    unfold SatSuperframeConf.GetCarrierFrequency_hz.scan
    have h1j : carriersBefore frames 1 ≤ carriersBefore frames (j + 1) :=
      carriersBefore_mono frames (by omega)
    have hm1 : carriersBefore frames (j + 1) ≤ carriersBefore frames frames.length :=
      carriersBefore_mono frames hj
    have hs1 := carriersBefore_succ frames j hj
    have hcond : id > carriersBefore frames (j + 1) - 1 := by omega
    have hwrap : (j + 1) % 4294967296 = j + 1 := Nat.mod_eq_of_lt (by omega)
    rw [if_pos hcond, frameAt_of_lt frames j hj]
    simp only [hwrap]
    rcases Nat.lt_or_ge (j + 1) frames.length with hj1l | hge
    · have hm2 : carriersBefore frames (j + 1 + 1) ≤ carriersBefore frames frames.length :=
        carriersBefore_mono frames hj1l
      have hs2 := carriersBefore_succ frames (j + 1) hj1l
      rw [frameAt_of_lt frames (j + 1) hj1l]
      simp only []
      have e1 : (id - carriersBefore frames j + 4294967296
          - (frames.get ⟨j, hj⟩).GetCarrierCount) % 4294967296
            = id - carriersBefore frames (j + 1) := by omega
      have e2 : (carriersBefore frames (j + 1) - 1
          + (frames.get ⟨j + 1, hj1l⟩).GetCarrierCount) % 4294967296
            = carriersBefore frames (j + 1 + 1) - 1 := by omega
      rw [e1, e2]
      exact ih (j + 1) _ hj1l (by omega)
    · have hjn : j + 1 = frames.length := by omega
      rw [frameAt_of_le frames (j + 1) hge, hjn]

/-- The scan of `GetCarrierBandwidth_hz` for an id that is not below the total
carrier count: it passes every frame and reads `m_frames[n]`, `n` being the
number of frames. -/
theorem bandwidth_scan_overrun (frames : List SatFrameConf) (id : Nat)
    (h0 : 1 ≤ carriersBefore frames 1) (hlen : frames.length < 4294967296)
    (hid : carriersBefore frames frames.length ≤ id) (hid32 : id < 4294967296) :
    ∀ (fuel j : Nat), j < frames.length → frames.length - j ≤ fuel →
      SatSuperframeConf.GetCarrierBandwidth_hz.scan frames id fuel j
          (carriersBefore frames (j + 1) - 1) (id - carriersBefore frames j)
        = some (.error (.outOfBounds frames.length)) := by
  intro fuel
  induction fuel with
  | zero => intro j hj h; omega
  | succ n ih =>
    intro j hj hfuel
    unfold SatSuperframeConf.GetCarrierBandwidth_hz.scan
    have h1j : carriersBefore frames 1 ≤ carriersBefore frames (j + 1) :=
      carriersBefore_mono frames (by omega)
    have hm1 : carriersBefore frames (j + 1) ≤ carriersBefore frames frames.length :=
      carriersBefore_mono frames hj
    have hs1 := carriersBefore_succ frames j hj
    have hcond : id > carriersBefore frames (j + 1) - 1 := by omega
    have hwrap : (j + 1) % 4294967296 = j + 1 := Nat.mod_eq_of_lt (by omega)
    rw [if_pos hcond, frameAt_of_lt frames j hj]
    simp only [hwrap]
    rcases Nat.lt_or_ge (j + 1) frames.length with hj1l | hge
    · have hm2 : carriersBefore frames (j + 1 + 1) ≤ carriersBefore frames frames.length :=
        carriersBefore_mono frames hj1l
      have hs2 := carriersBefore_succ frames (j + 1) hj1l
      rw [frameAt_of_lt frames (j + 1) hj1l]
      simp only []
      have e1 : (id - carriersBefore frames j + 4294967296
          - (frames.get ⟨j, hj⟩).GetCarrierCount) % 4294967296
            = id - carriersBefore frames (j + 1) := by omega
      have e2 : (carriersBefore frames (j + 1) - 1
          + (frames.get ⟨j + 1, hj1l⟩).GetCarrierCount) % 4294967296
            = carriersBefore frames (j + 1 + 1) - 1 := by omega
      rw [e1, e2]
      exact ih (j + 1) hj1l (by omega)
    · have hjn : j + 1 = frames.length := by omega
      rw [frameAt_of_le frames (j + 1) hge, hjn]

/-- No rejection before the scan: for every superframe whose first frame has
at least one carrier, with fewer than `2^32` frames, and every carrierId that is
not below the total carrier count, both functions run the scan off the frame
vector and read `m_frames[n]`, `n` being the number of frames. -/
theorem scan_overrun_of_total_le (sf : SatSuperframeConf) (h0 : sf.FirstFrameHasCarrier)
    (hlen : sf.m_frames.length < 4294967296) (carrierId : uint32_t)
    (hid : sf.totalCarriers ≤ carrierId.val) (fuel : Nat) (hfuel : sf.m_frames.length ≤ fuel) :
    sf.GetCarrierFrequency_hz fuel carrierId = some (.error (.outOfBounds sf.m_frames.length))
      ∧ sf.GetCarrierBandwidth_hz fuel carrierId
          = some (.error (.outOfBounds sf.m_frames.length)) := by
  obtain ⟨hpos, hfirst⟩ := carriersBefore_one_of_first sf h0
  obtain ⟨hc1, hc0⟩ := hfirst hpos
  have hid1 : carriersBefore sf.m_frames sf.m_frames.length ≤ carrierId.val := by
    rw [carriersBefore_length]; exact hid
  have hlast : ((sf.m_frames.get ⟨0, hpos⟩).GetCarrierCount + 4294967296 - 1) % 4294967296
      = (sf.m_frames.get ⟨0, hpos⟩).GetCarrierCount - 1 := by
    have := (sf.m_frames.get ⟨0, hpos⟩).m_carrierCount.isLt
    have hdef : (sf.m_frames.get ⟨0, hpos⟩).GetCarrierCount
        = (sf.m_frames.get ⟨0, hpos⟩).m_carrierCount.val := rfl
    omega
  have hf := frequency_scan_overrun sf.m_frames carrierId.val (by omega) hlen hid1
    carrierId.isLt fuel 0 0 hpos (by omega)
  have hb := bandwidth_scan_overrun sf.m_frames carrierId.val (by omega) hlen hid1
    carrierId.isLt fuel 0 hpos (by omega)
  rw [carriersBefore_zero, Nat.sub_zero, Nat.zero_add, hc1] at hf hb
  constructor
  · unfold SatSuperframeConf.GetCarrierFrequency_hz
    rw [frameAt_of_lt sf.m_frames 0 hpos]
    simp only [hlast, hf]
  · unfold SatSuperframeConf.GetCarrierBandwidth_hz
    rw [frameAt_of_lt sf.m_frames 0 hpos]
    simp only [hlast, hb]

/-- C7 (the code at the failing input): `twoFrameSuperframe` has 4 carriers;
for carrierId 4 neither function rejects the call before the scan: both scans
run past the last frame and read `m_frames[2]`, an index that is not below the
number of frames. -/
theorem scan_reads_past_last_frame :
    twoFrameSuperframe.m_frames.length = 2
      ∧ twoFrameSuperframe.GetCarrierCount 3 = some 4
      ∧ twoFrameSuperframe.GetCarrierFrequency_hz 5 4 = some (.error (.outOfBounds 2))
      ∧ twoFrameSuperframe.GetCarrierBandwidth_hz 5 4 = some (.error (.outOfBounds 2)) := by
  decide

/-! ## `SatUtMac::Transmit` -/

theorem toUint32_val_of_lt (n : Nat) (h : n < 4294967296) : (toUint32 n).val = n :=
  Nat.mod_eq_of_lt h

theorem collected_snoc_some (requests : List (uint32_t × Option Packet)) (b : uint32_t)
    (p : Packet) : collected (requests ++ [(b, some p)]) = collected requests ++ [p] := by
  simp [collected, List.filterMap_append]

theorem collected_snoc_none (requests : List (uint32_t × Option Packet)) (b : uint32_t) :
    collected (requests ++ [(b, none)]) = collected requests := by
  simp [collected, List.filterMap_append]

theorem totalSize_snoc (packets : List Packet) (p : Packet) :
    totalSize (packets ++ [p]) = totalSize packets + p.size.val := by
  simp [totalSize]

theorem BoundsExact_snoc (B : Nat) (requests : List (uint32_t × Option Packet))
    (e : uint32_t × Option Packet) (h : BoundsExact B requests)
    (he : e.1.val = B - totalSize (collected requests)) : BoundsExact B (requests ++ [e]) := by
  intro i hi
  rw [List.length_append, List.length_singleton] at hi
  rcases Nat.lt_or_ge i requests.length with hlt | hge
  · have h1 := h i hlt
    rw [List.get_eq_getElem, List.getElem_append_left hlt,
      List.take_append_of_le_length (Nat.le_of_lt hlt)]
    rw [List.get_eq_getElem] at h1
    exact h1
  · have hieq : i = requests.length := by omega
    subst hieq
    rw [List.get_eq_getElem, List.getElem_append_right (Nat.le_refl _)]
    simp only [Nat.sub_self, List.getElem_cons_zero, List.take_left']
    exact he

/-- The loop of `Transmit` keeps the record of requests exact: the collected
packets are the answers of the queue, every byte bound is the remaining
payload, a completed loop has collected at most `B` bytes, and an oversized
answer aborts the loop. -/
theorem Transmit_loop_inv {σ : Type} (cb : TxOpportunityCallback σ) (addr : Mac48Address)
    (B : Nat) :
    ∀ (fuel : Nat) (q : σ) (payloadLeft : Nat) (packets : List Packet)
      (requests : List (uint32_t × Option Packet)),
      payloadLeft < 4294967296 → packets = collected requests →
      payloadLeft + totalSize packets = B → BoundsExact B requests →
      (∀ r ∈ requests, ¬ Oversized r) →
      (SatUtMac.Transmit.loop cb addr fuel q payloadLeft packets requests).packets
          = collected (SatUtMac.Transmit.loop cb addr fuel q payloadLeft packets requests).requests
        ∧ BoundsExact B
            (SatUtMac.Transmit.loop cb addr fuel q payloadLeft packets requests).requests
        ∧ ((SatUtMac.Transmit.loop cb addr fuel q payloadLeft packets requests).status
              = .completed →
            (SatUtMac.Transmit.loop cb addr fuel q payloadLeft packets requests).payloadLeft
                + totalSize
                  (SatUtMac.Transmit.loop cb addr fuel q payloadLeft packets requests).packets
              = B)
        ∧ ((∃ r ∈ (SatUtMac.Transmit.loop cb addr fuel q payloadLeft packets requests).requests,
              Oversized r) →
            (SatUtMac.Transmit.loop cb addr fuel q payloadLeft packets requests).status
              = .aborted (.fatalError .ppduTooBig))
        ∧ (SatUtMac.Transmit.loop cb addr fuel q payloadLeft packets requests).sent = [] := by
  intro fuel
  induction fuel with
  | zero =>
    intro q payloadLeft packets requests _ hp _ hb ho
    unfold SatUtMac.Transmit.loop
    refine ⟨hp, hb, ?_, ?_, rfl⟩
    · intro h; cases h
    · rintro ⟨r, hr, hov⟩; exact absurd hov (ho r hr)
  | succ n ih =>
    intro q payloadLeft packets requests h32 hp hsum hb ho
    unfold SatUtMac.Transmit.loop
    by_cases hpos : payloadLeft > 0
    · rw [if_pos hpos]
      have hval := toUint32_val_of_lt payloadLeft h32
      have hbound : (toUint32 payloadLeft).val = B - totalSize (collected requests) := by
        rw [hval, ← hp]; omega
      rcases hcb : cb q (toUint32 payloadLeft) addr with ⟨_ | p, q1⟩
      · dsimp only
        refine ⟨?_, BoundsExact_snoc B requests _ hb hbound, ?_, ?_, rfl⟩
        · rw [collected_snoc_none]; exact hp
        · intro _; exact hsum
        · rintro ⟨r, hr, hov⟩
          rw [List.mem_append, List.mem_singleton] at hr
          rcases hr with hr | hr
          · exact absurd hov (ho r hr)
          · subst hr
            obtain ⟨p, hp1, _⟩ := hov
            cases hp1
      · dsimp only
        have hb1 := BoundsExact_snoc B requests (toUint32 payloadLeft, some p) hb hbound
        have hc1 : packets ++ [p] = collected (requests ++ [(toUint32 payloadLeft, some p)]) := by
          rw [collected_snoc_some, hp]
        by_cases hfit : payloadLeft ≥ p.GetSize.val
        · rw [if_pos hfit]
          have hsz : p.GetSize.val = p.size.val := rfl
          refine ih q1 (payloadLeft - p.GetSize.val) _ _ (by omega) hc1 ?_ hb1 ?_
          · rw [totalSize_snoc]; omega
          · intro r hr
            rw [List.mem_append, List.mem_singleton] at hr
            rcases hr with hr | hr
            · exact ho r hr
            · subst hr
              rintro ⟨p1, hp1, hlt⟩
              simp only [Option.some.injEq] at hp1
              subst hp1
              rw [hval] at hlt
              omega
        · rw [if_neg hfit]
          refine ⟨hc1, hb1, ?_, ?_, rfl⟩
          · intro h; cases h
          · intro _; rfl
    · rw [if_neg hpos]
      refine ⟨hp, hb, ?_, ?_, rfl⟩
      · intro _; exact hsum
      · rintro ⟨r, hr, hov⟩; exact absurd hov (ho r hr)

/-- The loop only appends to the record of requests. -/
theorem Transmit_loop_requests_prefix {σ : Type} (cb : TxOpportunityCallback σ)
    (addr : Mac48Address) :
    ∀ (fuel : Nat) (q : σ) (payloadLeft : Nat) (packets : List Packet)
      (requests : List (uint32_t × Option Packet)),
      requests <+: (SatUtMac.Transmit.loop cb addr fuel q payloadLeft packets requests).requests := by
  intro fuel
  induction fuel with
  | zero => intro q payloadLeft packets requests; exact List.prefix_refl _
  | succ n ih =>
    intro q payloadLeft packets requests
    unfold SatUtMac.Transmit.loop
    split
    · split
      · dsimp only
        split
        · exact List.IsPrefix.trans (List.prefix_append _ _) (ih _ _ _ _)
        · exact List.prefix_append _ _
      · exact List.prefix_append _ _
    · exact List.prefix_refl _

/-- The first loop test with a positive remaining payload calls the queue with
that payload as byte bound. -/
theorem Transmit_loop_first_request {σ : Type} (cb : TxOpportunityCallback σ)
    (addr : Mac48Address) (fuel : Nat) (q : σ) (payloadLeft : Nat) (hfuel : 0 < fuel)
    (hpos : 0 < payloadLeft) :
    (SatUtMac.Transmit.loop cb addr fuel q payloadLeft [] []).requests.head?
      = some (toUint32 payloadLeft, (cb q (toUint32 payloadLeft) addr).1) := by
  obtain ⟨n, rfl⟩ : ∃ n, fuel = n + 1 := ⟨fuel - 1, by omega⟩
  unfold SatUtMac.Transmit.loop
  rw [if_pos hpos]
  rcases hcb : cb q (toUint32 payloadLeft) addr with ⟨_ | p, q1⟩
  · rfl
  · dsimp only
    split
    · obtain ⟨t, ht⟩ := Transmit_loop_requests_prefix cb addr n q1
        (payloadLeft - p.GetSize.val) ([] ++ [p]) ([] ++ [(toUint32 payloadLeft, some p)])
      rw [← ht]
      rfl
    · rfl

/-- The run of `Transmit` in terms of the run of its loop, when the payload
exceeds the header size. -/
theorem Transmit_of_gt {σ : Type} (mac : SatUtMac) (cb : TxOpportunityCallback σ) (q : σ)
    (fuel : Nat) (durationInSecs : ℚ) (payloadBytes carrierId : uint32_t)
    (h : mac.m_framePduHeaderSizeInBytes.val < payloadBytes.val) :
    (mac.Transmit cb q fuel durationInSecs payloadBytes carrierId).requests
        = (SatUtMac.Transmit.loop cb mac.m_macAddress fuel q
            (payloadBytes.val - mac.m_framePduHeaderSizeInBytes.val) [] []).requests
      ∧ (mac.Transmit cb q fuel durationInSecs payloadBytes carrierId).packets
        = (SatUtMac.Transmit.loop cb mac.m_macAddress fuel q
            (payloadBytes.val - mac.m_framePduHeaderSizeInBytes.val) [] []).packets
      ∧ (mac.Transmit cb q fuel durationInSecs payloadBytes carrierId).status
        = (SatUtMac.Transmit.loop cb mac.m_macAddress fuel q
            (payloadBytes.val - mac.m_framePduHeaderSizeInBytes.val) [] []).status
      ∧ (mac.Transmit cb q fuel durationInSecs payloadBytes carrierId).payloadLeft
        = (SatUtMac.Transmit.loop cb mac.m_macAddress fuel q
            (payloadBytes.val - mac.m_framePduHeaderSizeInBytes.val) [] []).payloadLeft
      ∧ (mac.Transmit cb q fuel durationInSecs payloadBytes carrierId).sent
        = if (mac.Transmit cb q fuel durationInSecs payloadBytes carrierId).status = .completed
              ∧ (mac.Transmit cb q fuel durationInSecs payloadBytes carrierId).packets ≠ [] then
            [{ packets := (mac.Transmit cb q fuel durationInSecs payloadBytes carrierId).packets
               carrierId := carrierId
               duration := mac.Seconds durationInSecs - mac.m_guardTime }]
          else [] := by
  have hsent := (Transmit_loop_inv cb mac.m_macAddress
    (payloadBytes.val - mac.m_framePduHeaderSizeInBytes.val) fuel q
    (payloadBytes.val - mac.m_framePduHeaderSizeInBytes.val) [] []
    (by have := payloadBytes.isLt; omega) rfl (by simp [totalSize])
    (fun i hi => absurd hi (Nat.not_lt_zero i)) (fun r hr => by cases hr)).2.2.2.2
  unfold SatUtMac.Transmit
  rw [if_pos h]
  dsimp only
  generalize SatUtMac.Transmit.loop cb mac.m_macAddress fuel q
    (payloadBytes.val - mac.m_framePduHeaderSizeInBytes.val) [] [] = run at hsent ⊢
  obtain ⟨rq, rr, rl, rp, rs, rst⟩ := run
  simp only at hsent
  subst hsent
  cases rst with
  | completed =>
    by_cases hp : rp = []
    · simp [hp]
    · simp [hp, SatMac.SendPacket]
  | aborted f => simp
  | outOfFuel => simp

/-- C14: for every slot payload capacity P and configured frame PDU header size
H, `SatUtMac::Transmit` fails (the assertion aborts), without requesting anything
from the queue and without emitting a burst, when P <= H; when P > H the byte
bound of the first queue request is exactly P - H. -/
theorem Transmit_header_check {σ : Type} (mac : SatUtMac) (cb : TxOpportunityCallback σ)
    (q : σ) (fuel : Nat) (durationInSecs : ℚ) (payloadBytes carrierId : uint32_t) :
    (payloadBytes.val ≤ mac.m_framePduHeaderSizeInBytes.val →
        (mac.Transmit cb q fuel durationInSecs payloadBytes carrierId).status
            = .aborted .assertFailed
          ∧ (mac.Transmit cb q fuel durationInSecs payloadBytes carrierId).requests = []
          ∧ (mac.Transmit cb q fuel durationInSecs payloadBytes carrierId).sent = [])
      ∧ (mac.m_framePduHeaderSizeInBytes.val < payloadBytes.val → 0 < fuel →
        ∃ bound answer,
          (mac.Transmit cb q fuel durationInSecs payloadBytes carrierId).requests.head?
              = some (bound, answer)
            ∧ bound.val = payloadBytes.val - mac.m_framePduHeaderSizeInBytes.val
            ∧ answer = (cb q bound mac.m_macAddress).1) := by
  constructor
  · intro h
    have h1 : ¬ payloadBytes.val > mac.m_framePduHeaderSizeInBytes.val := Nat.not_lt.mpr h
    unfold SatUtMac.Transmit
    rw [if_neg h1]
    exact ⟨rfl, rfl, rfl⟩
  · intro h hfuel
    rw [(Transmit_of_gt mac cb q fuel durationInSecs payloadBytes carrierId h).1,
      Transmit_loop_first_request cb mac.m_macAddress fuel q _ hfuel (by omega)]
    exact ⟨_, _, rfl, toUint32_val_of_lt _ (by have := payloadBytes.isLt; omega), rfl⟩

/-- Witness of `Transmit_header_check`: header 5 bytes; payload 5 fails, payload
100 asks the queue for 95 bytes first. -/
theorem Transmit_header_check_witness :
    ((5 : uint32_t).val ≤ headerMac.m_framePduHeaderSizeInBytes.val
        ∧ (headerMac.Transmit contractQueue [examplePacket 0 40] 3 1 5 0).status
            = .aborted .assertFailed
        ∧ (headerMac.Transmit contractQueue [examplePacket 0 40] 3 1 5 0).requests = []
        ∧ (headerMac.Transmit contractQueue [examplePacket 0 40] 3 1 5 0).sent = [])
      ∧ (headerMac.m_framePduHeaderSizeInBytes.val < (100 : uint32_t).val ∧ 0 < 3
        ∧ ∃ bound answer,
          (headerMac.Transmit contractQueue [examplePacket 0 40] 3 1 100 0).requests.head?
              = some (bound, answer)
            ∧ bound.val = (100 : uint32_t).val - headerMac.m_framePduHeaderSizeInBytes.val
            ∧ answer = (contractQueue [examplePacket 0 40] bound headerMac.m_macAddress).1) :=
  ⟨⟨by decide, (Transmit_header_check headerMac contractQueue [examplePacket 0 40] 3 1 5 0).1
      (by decide)⟩,
    ⟨by decide, by decide,
      (Transmit_header_check headerMac contractQueue [examplePacket 0 40] 3 1 100 0).2
        (by decide) (by decide)⟩⟩

/-- C15: for every P > H and every queue behaviour, each queue request made by
`SatUtMac::Transmit` carries as its byte bound exactly P - H minus the total size
of the units collected so far, and whenever `Transmit` completes without a fatal
error the total size of the units in the emitted burst is at most P - H. -/
theorem Transmit_bounds {σ : Type} (mac : SatUtMac) (cb : TxOpportunityCallback σ) (q : σ)
    (fuel : Nat) (durationInSecs : ℚ) (payloadBytes carrierId : uint32_t)
    (h : mac.m_framePduHeaderSizeInBytes.val < payloadBytes.val) :
    BoundsExact (payloadBytes.val - mac.m_framePduHeaderSizeInBytes.val)
        (mac.Transmit cb q fuel durationInSecs payloadBytes carrierId).requests
      ∧ ((mac.Transmit cb q fuel durationInSecs payloadBytes carrierId).status = .completed →
        ∀ burst ∈ (mac.Transmit cb q fuel durationInSecs payloadBytes carrierId).sent,
          totalSize burst.packets ≤ payloadBytes.val - mac.m_framePduHeaderSizeInBytes.val) := by
  obtain ⟨hr, hp, hs, hl, hsent⟩ :=
    Transmit_of_gt mac cb q fuel durationInSecs payloadBytes carrierId h
  obtain ⟨_, hb, hc, _, _⟩ := Transmit_loop_inv cb mac.m_macAddress
    (payloadBytes.val - mac.m_framePduHeaderSizeInBytes.val) fuel q
    (payloadBytes.val - mac.m_framePduHeaderSizeInBytes.val) [] []
    (by have := payloadBytes.isLt; omega) rfl (by simp [totalSize])
    (fun i hi => absurd hi (Nat.not_lt_zero i)) (fun r hr => by cases hr)
  rw [← hr] at hb
  rw [← hs, ← hl, ← hp] at hc
  refine ⟨hb, fun hcompl burst hburst => ?_⟩
  rw [hsent] at hburst
  split at hburst
  · rw [List.mem_singleton] at hburst
    subst hburst
    have := hc hcompl
    show totalSize (mac.Transmit cb q fuel durationInSecs payloadBytes carrierId).packets ≤ _
    omega
  · cases hburst

/-- Witness of `Transmit_bounds`: header 5, payload 100, queue 40, 40, 30. -/
theorem Transmit_bounds_witness :
    headerMac.m_framePduHeaderSizeInBytes.val < (100 : uint32_t).val
      ∧ BoundsExact ((100 : uint32_t).val - headerMac.m_framePduHeaderSizeInBytes.val)
          (headerMac.Transmit contractQueue
            [examplePacket 0 40, examplePacket 1 40, examplePacket 2 30] 4 1 100 0).requests
      ∧ ((headerMac.Transmit contractQueue
            [examplePacket 0 40, examplePacket 1 40, examplePacket 2 30] 4 1 100 0).status
            = .completed →
          ∀ burst ∈ (headerMac.Transmit contractQueue
              [examplePacket 0 40, examplePacket 1 40, examplePacket 2 30] 4 1 100 0).sent,
            totalSize burst.packets
              ≤ (100 : uint32_t).val - headerMac.m_framePduHeaderSizeInBytes.val) :=
  ⟨by decide, Transmit_bounds headerMac contractQueue
    [examplePacket 0 40, examplePacket 1 40, examplePacket 2 30] 4 1 100 0 (by decide)⟩

/-- C16: for every P > H, if at any request the queue returns a unit whose size
is strictly greater than the byte bound of that request (the remaining available
payload), `SatUtMac::Transmit` fails with the fatal error "The PPDU was too big
for the time slot!" and no burst is sent to the physical layer. -/
theorem Transmit_oversized {σ : Type} (mac : SatUtMac) (cb : TxOpportunityCallback σ) (q : σ)
    (fuel : Nat) (durationInSecs : ℚ) (payloadBytes carrierId : uint32_t)
    (h : mac.m_framePduHeaderSizeInBytes.val < payloadBytes.val)
    (hover : ∃ r ∈ (mac.Transmit cb q fuel durationInSecs payloadBytes carrierId).requests,
      Oversized r) :
    (mac.Transmit cb q fuel durationInSecs payloadBytes carrierId).status
        = .aborted (.fatalError .ppduTooBig)
      ∧ (mac.Transmit cb q fuel durationInSecs payloadBytes carrierId).sent = [] := by
  obtain ⟨hr, hp, hs, hl, hsent⟩ :=
    Transmit_of_gt mac cb q fuel durationInSecs payloadBytes carrierId h
  obtain ⟨_, _, _, ho, _⟩ := Transmit_loop_inv cb mac.m_macAddress
    (payloadBytes.val - mac.m_framePduHeaderSizeInBytes.val) fuel q
    (payloadBytes.val - mac.m_framePduHeaderSizeInBytes.val) [] []
    (by have := payloadBytes.isLt; omega) rfl (by simp [totalSize])
    (fun i hi => absurd hi (Nat.not_lt_zero i)) (fun r hr => by cases hr)
  rw [← hr, ← hs] at ho
  have hst := ho hover
  refine ⟨hst, ?_⟩
  rw [hsent, hst]
  simp

/-- Witness of `Transmit_oversized`: header 5, payload 100, a queue that returns
40 bytes and then 60 bytes against a bound of 55. -/
theorem Transmit_oversized_witness :
    headerMac.m_framePduHeaderSizeInBytes.val < (100 : uint32_t).val
      ∧ (∃ r ∈ (headerMac.Transmit greedyQueue [examplePacket 0 40, examplePacket 1 60] 4 1
            100 0).requests, Oversized r)
      ∧ (headerMac.Transmit greedyQueue [examplePacket 0 40, examplePacket 1 60] 4 1
            100 0).status = .aborted (.fatalError .ppduTooBig)
      ∧ (headerMac.Transmit greedyQueue [examplePacket 0 40, examplePacket 1 60] 4 1
            100 0).sent = [] :=
  ⟨by decide,
    ⟨(toUint32 55, some (examplePacket 1 60)), by decide, examplePacket 1 60, rfl, by decide⟩,
    Transmit_oversized headerMac greedyQueue [examplePacket 0 40, examplePacket 1 60] 4 1 100 0
      (by decide)
      ⟨(toUint32 55, some (examplePacket 1 60)), by decide, examplePacket 1 60, rfl, by decide⟩⟩

/-- C17: for every non-failing run of `SatUtMac::Transmit (duration, P, carrierId)`:
the collected units are the units returned by the queue, in that order; if at
least one unit was collected, exactly one burst is sent, carrying the collected
units on the unchanged carrierId with duration equal to the scheduled duration
minus the guard time; if none was collected, and in particular if the queue
returns nothing on the first request, no burst is sent. -/
theorem Transmit_burst {σ : Type} (mac : SatUtMac) (cb : TxOpportunityCallback σ) (q : σ)
    (fuel : Nat) (durationInSecs : ℚ) (payloadBytes carrierId : uint32_t)
    (hc : (mac.Transmit cb q fuel durationInSecs payloadBytes carrierId).status = .completed) :
    (mac.Transmit cb q fuel durationInSecs payloadBytes carrierId).packets
        = collected (mac.Transmit cb q fuel durationInSecs payloadBytes carrierId).requests
      ∧ ((mac.Transmit cb q fuel durationInSecs payloadBytes carrierId).packets ≠ [] →
        (mac.Transmit cb q fuel durationInSecs payloadBytes carrierId).sent
          = [{ packets := (mac.Transmit cb q fuel durationInSecs payloadBytes carrierId).packets
               carrierId := carrierId
               duration := mac.Seconds durationInSecs - mac.m_guardTime }])
      ∧ ((mac.Transmit cb q fuel durationInSecs payloadBytes carrierId).packets = [] →
        (mac.Transmit cb q fuel durationInSecs payloadBytes carrierId).sent = [])
      ∧ ((cb q (toUint32 (payloadBytes.val - mac.m_framePduHeaderSizeInBytes.val))
            mac.m_macAddress).1 = none →
        (mac.Transmit cb q fuel durationInSecs payloadBytes carrierId).packets = []
          ∧ (mac.Transmit cb q fuel durationInSecs payloadBytes carrierId).sent = []) := by
  have h : mac.m_framePduHeaderSizeInBytes.val < payloadBytes.val := by
    by_contra hn
    have h1 : ¬ payloadBytes.val > mac.m_framePduHeaderSizeInBytes.val := hn
    unfold SatUtMac.Transmit at hc
    rw [if_neg h1] at hc
    cases hc
  obtain ⟨hr, hp, hs, hl, hsent⟩ :=
    Transmit_of_gt mac cb q fuel durationInSecs payloadBytes carrierId h
  obtain ⟨hcol, _, _, _, _⟩ := Transmit_loop_inv cb mac.m_macAddress
    (payloadBytes.val - mac.m_framePduHeaderSizeInBytes.val) fuel q
    (payloadBytes.val - mac.m_framePduHeaderSizeInBytes.val) [] []
    (by have := payloadBytes.isLt; omega) rfl (by simp [totalSize])
    (fun i hi => absurd hi (Nat.not_lt_zero i)) (fun r hr => by cases hr)
  rw [← hr, ← hp] at hcol
  have hne : (mac.Transmit cb q fuel durationInSecs payloadBytes carrierId).packets ≠ [] →
      (mac.Transmit cb q fuel durationInSecs payloadBytes carrierId).sent
        = [{ packets := (mac.Transmit cb q fuel durationInSecs payloadBytes carrierId).packets
             carrierId := carrierId
             duration := mac.Seconds durationInSecs - mac.m_guardTime }] := by
    intro hne
    rw [hsent, if_pos ⟨hc, hne⟩]
  have hnil : (mac.Transmit cb q fuel durationInSecs payloadBytes carrierId).packets = [] →
      (mac.Transmit cb q fuel durationInSecs payloadBytes carrierId).sent = [] := by
    intro hnil
    rw [hsent, if_neg (fun hh => hh.2 hnil)]
  refine ⟨hcol, hne, hnil, fun hnone => ?_⟩
  have hpk : (mac.Transmit cb q fuel durationInSecs payloadBytes carrierId).packets = [] := by
    rw [hp]
    rw [hs] at hc
    cases fuel with
    | zero => simp [SatUtMac.Transmit.loop] at hc
    | succ n =>
      unfold SatUtMac.Transmit.loop
      rw [if_pos (by omega)]
      rcases hcb : cb q (toUint32 (payloadBytes.val - mac.m_framePduHeaderSizeInBytes.val))
        mac.m_macAddress with ⟨_ | p, q1⟩
      · rfl
      · rw [hcb] at hnone
        cases hnone
  exact ⟨hpk, hnil hpk⟩

/-- Witness of `Transmit_burst`: header 5, payload 100, queue 40, 40, 30. -/
theorem Transmit_burst_witness :
    (headerMac.Transmit contractQueue
        [examplePacket 0 40, examplePacket 1 40, examplePacket 2 30] 4 1 100 7).status
        = .completed
      ∧ (headerMac.Transmit contractQueue
          [examplePacket 0 40, examplePacket 1 40, examplePacket 2 30] 4 1 100 7).packets
        = [examplePacket 0 40, examplePacket 1 40]
      ∧ (headerMac.Transmit contractQueue
          [examplePacket 0 40, examplePacket 1 40, examplePacket 2 30] 4 1 100 7).sent
        = [{ packets := (headerMac.Transmit contractQueue
              [examplePacket 0 40, examplePacket 1 40, examplePacket 2 30] 4 1 100 7).packets
             carrierId := 7
             duration := headerMac.Seconds 1 - headerMac.m_guardTime }] :=
  ⟨by decide, by decide,
    (Transmit_burst headerMac contractQueue
      [examplePacket 0 40, examplePacket 1 40, examplePacket 2 30] 4 1 100 7 (by decide)).2.1
      (by decide)⟩

theorem fittingPrefix_cons (bound : Nat) (p : Packet) (rest : List Packet) :
    fittingPrefix bound (p :: rest)
      = if p.size.val ≤ bound then p :: fittingPrefix (bound - p.size.val) rest else [] := by
  rw [fittingPrefix]

theorem fittingPrefix_prefix : ∀ (q : List Packet) (bound : Nat), fittingPrefix bound q <+: q := by
  intro q
  induction q with
  | nil => intro bound; exact List.prefix_refl _
  | cons p rest ih =>
    intro bound
    unfold fittingPrefix
    split
    · exact (List.prefix_cons_inj p).mpr (ih _)
    · exact List.nil_prefix

theorem fittingPrefix_totalSize :
    ∀ (q : List Packet) (bound : Nat), totalSize (fittingPrefix bound q) ≤ bound := by
  intro q
  induction q with
  | nil => intro bound; simp [fittingPrefix, totalSize]
  | cons p rest ih =>
    intro bound
    unfold fittingPrefix
    split
    · rename_i hfit
      have := ih (bound - p.size.val)
      simp only [totalSize, List.map_cons, List.sum_cons] at this ⊢
      omega
    · simp [totalSize]

theorem fittingPrefix_longest :
    ∀ (q : List Packet) (bound : Nat) (pre : List Packet), pre <+: q → totalSize pre ≤ bound →
      pre.length ≤ (fittingPrefix bound q).length := by
  intro q
  induction q with
  | nil =>
    intro bound pre hpre _
    rw [List.prefix_nil] at hpre
    simp [hpre]
  | cons p rest ih =>
    intro bound pre hpre hsize
    cases pre with
    | nil => simp
    | cons a pre1 =>
      rw [List.cons_prefix_cons] at hpre
      obtain ⟨ha, hpre1⟩ := hpre
      subst ha
      simp only [totalSize, List.map_cons, List.sum_cons] at hsize
      have hfit : a.size.val ≤ bound := by omega
      unfold fittingPrefix
      rw [if_pos hfit]
      have := ih (bound - a.size.val) pre1 hpre1 (by simp only [totalSize]; omega)
      simp only [List.length_cons]
      omega

/-- Against a queue that honours its contract and holds units of positive
sizes the loop completes and collects the greedy prefix. -/
theorem contractQueue_loop (addr : Mac48Address) :
    ∀ (q : List Packet) (fuel payloadLeft : Nat) (packets : List Packet)
      (requests : List (uint32_t × Option Packet)),
      q.length < fuel → (∀ p ∈ q, 0 < p.size.val) → payloadLeft < 4294967296 →
      (SatUtMac.Transmit.loop contractQueue addr fuel q payloadLeft packets requests).status
          = .completed
        ∧ (SatUtMac.Transmit.loop contractQueue addr fuel q payloadLeft packets requests).packets
          = packets ++ fittingPrefix payloadLeft q := by
  intro q
  induction q with
  | nil =>
    intro fuel payloadLeft packets requests hfuel _ _
    obtain ⟨n, rfl⟩ : ∃ n, fuel = n + 1 := ⟨fuel - 1, by simp at hfuel; omega⟩
    unfold SatUtMac.Transmit.loop
    split <;> simp [contractQueue, fittingPrefix]
  | cons p rest ih =>
    intro fuel payloadLeft packets requests hfuel hpos h32
    obtain ⟨n, rfl⟩ : ∃ n, fuel = n + 1 := ⟨fuel - 1, by simp at hfuel; omega⟩
    have hp0 : 0 < p.size.val := hpos p (List.mem_cons_self _ _)
    unfold SatUtMac.Transmit.loop
    by_cases hpl : payloadLeft > 0
    · rw [if_pos hpl]
      have hval := toUint32_val_of_lt payloadLeft h32
      by_cases hfit : p.size.val ≤ payloadLeft
      · have hcb : contractQueue (p :: rest) (toUint32 payloadLeft) addr = (some p, rest) := by
          simp [contractQueue, hval, hfit]
        rw [hcb]
        dsimp only
        have hfit1 : payloadLeft ≥ p.GetSize.val := hfit
        rw [if_pos hfit1]
        obtain ⟨h1, h2⟩ := ih n (payloadLeft - p.GetSize.val) (packets ++ [p])
          (requests ++ [(toUint32 payloadLeft, some p)])
          (by simp only [List.length_cons] at hfuel; omega)
          (fun x hx => hpos x (List.mem_cons_of_mem _ hx)) (by omega)
        refine ⟨h1, ?_⟩
        rw [h2]
        rw [fittingPrefix_cons]
        rw [if_pos hfit]
        simp [Packet.GetSize]
      · have hcb : contractQueue (p :: rest) (toUint32 payloadLeft) addr
            = (none, p :: rest) := by
          simp [contractQueue, hval, hfit]
        rw [hcb]
        rw [fittingPrefix_cons]
        rw [if_neg hfit]
        simp
    · rw [if_neg hpl]
      have hfit : ¬ p.size.val ≤ payloadLeft := by omega
      rw [fittingPrefix_cons]
      rw [if_neg hfit]
      simp

/-- One loop test against the contract queue whose head unit fits. -/
theorem contractQueue_take (addr : Mac48Address) (n : Nat) (p : Packet) (rest : List Packet)
    (payloadLeft : Nat) (packets : List Packet) (requests : List (uint32_t × Option Packet))
    (hpos : 0 < payloadLeft) (h32 : payloadLeft < 4294967296) (hfit : p.size.val ≤ payloadLeft) :
    SatUtMac.Transmit.loop contractQueue addr (n + 1) (p :: rest) payloadLeft packets requests
      = SatUtMac.Transmit.loop contractQueue addr n rest (payloadLeft - p.size.val)
          (packets ++ [p]) (requests ++ [(toUint32 payloadLeft, some p)]) := by
  have hval := toUint32_val_of_lt payloadLeft h32
  have hcb : contractQueue (p :: rest) (toUint32 payloadLeft) addr = (some p, rest) := by
    simp [contractQueue, hval, hfit]
  have hfit1 : payloadLeft ≥ p.GetSize.val := hfit
  rw [SatUtMac.Transmit.loop, if_pos hpos, hcb]
  dsimp only
  rw [if_pos hfit1]
  rfl

/-- One loop test against the contract queue whose head unit does not fit. -/
theorem contractQueue_stop (addr : Mac48Address) (n : Nat) (p : Packet) (rest : List Packet)
    (payloadLeft : Nat) (packets : List Packet) (requests : List (uint32_t × Option Packet))
    (hpos : 0 < payloadLeft) (h32 : payloadLeft < 4294967296)
    (hfit : ¬ p.size.val ≤ payloadLeft) :
    SatUtMac.Transmit.loop contractQueue addr (n + 1) (p :: rest) payloadLeft packets requests
      = { queue := p :: rest, requests := requests ++ [(toUint32 payloadLeft, none)],
          payloadLeft := payloadLeft, packets := packets, sent := [], status := .completed } := by
  have hval := toUint32_val_of_lt payloadLeft h32
  have hcb : contractQueue (p :: rest) (toUint32 payloadLeft) addr = (none, p :: rest) := by
    simp [contractQueue, hval, hfit]
  rw [SatUtMac.Transmit.loop, if_pos hpos, hcb]

/-- C18: for every P > H and every queue that honours its contract and holds
units of positive sizes s1, s2, ..., `SatUtMac::Transmit` completes and emits a
burst carrying exactly the longest prefix s1..sj whose total size is <= P - H,
and emits no burst when j = 0; with P = 100, H = 5 and sizes 40, 40, 30 followed
by anything, the burst carries exactly the first two units. -/
theorem Transmit_contractQueue :
    (∀ (mac : SatUtMac) (q : List Packet) (fuel : Nat) (durationInSecs : ℚ)
        (payloadBytes carrierId : uint32_t),
        mac.m_framePduHeaderSizeInBytes.val < payloadBytes.val →
        (∀ p ∈ q, 0 < p.size.val) → q.length < fuel →
        ∃ pre : List Packet,
          pre <+: q
            ∧ totalSize pre ≤ payloadBytes.val - mac.m_framePduHeaderSizeInBytes.val
            ∧ (∀ other : List Packet, other <+: q →
                totalSize other ≤ payloadBytes.val - mac.m_framePduHeaderSizeInBytes.val →
                other.length ≤ pre.length)
            ∧ (mac.Transmit contractQueue q fuel durationInSecs payloadBytes carrierId).status
                = .completed
            ∧ (pre ≠ [] →
                (mac.Transmit contractQueue q fuel durationInSecs payloadBytes carrierId).sent
                  = [{ packets := pre, carrierId := carrierId,
                       duration := mac.Seconds durationInSecs - mac.m_guardTime }])
            ∧ (pre = [] →
                (mac.Transmit contractQueue q fuel durationInSecs payloadBytes carrierId).sent
                  = []))
      ∧ (∀ (mac : SatUtMac) (u1 u2 u3 : Nat) (rest : List Packet) (fuel : Nat)
          (durationInSecs : ℚ) (carrierId : uint32_t),
          mac.m_framePduHeaderSizeInBytes = 5 → 3 ≤ fuel →
          (mac.Transmit contractQueue
              (examplePacket u1 40 :: examplePacket u2 40 :: examplePacket u3 30 :: rest)
              fuel durationInSecs 100 carrierId).sent
            = [{ packets := [examplePacket u1 40, examplePacket u2 40], carrierId := carrierId,
                 duration := mac.Seconds durationInSecs - mac.m_guardTime }]) := by
  constructor
  · intro mac q fuel durationInSecs payloadBytes carrierId h hpos hfuel
    obtain ⟨hr, hp, hs, hl, hsent⟩ :=
      Transmit_of_gt mac contractQueue q fuel durationInSecs payloadBytes carrierId h
    obtain ⟨h1, h2⟩ := contractQueue_loop mac.m_macAddress q fuel
      (payloadBytes.val - mac.m_framePduHeaderSizeInBytes.val) [] [] hfuel hpos
      (by have := payloadBytes.isLt; omega)
    rw [← hs] at h1
    rw [← hp, List.nil_append] at h2
    refine ⟨fittingPrefix (payloadBytes.val - mac.m_framePduHeaderSizeInBytes.val) q,
      fittingPrefix_prefix _ _, fittingPrefix_totalSize _ _,
      fun other ho hsz => fittingPrefix_longest _ _ other ho hsz, h1, ?_, ?_⟩
    · intro hne
      rw [hsent, h2, if_pos ⟨h1, hne⟩]
    · intro hnil
      rw [hsent, h2, if_neg (fun hh => hh.2 hnil)]
  · intro mac u1 u2 u3 rest fuel durationInSecs carrierId hH hfuel
    obtain ⟨n, rfl⟩ : ∃ n, fuel = n + 1 + 1 + 1 := ⟨fuel - 3, by omega⟩
    have hP : (100 : uint32_t).val - mac.m_framePduHeaderSizeInBytes.val = 95 := by
      rw [hH]; rfl
    have hgt : mac.m_framePduHeaderSizeInBytes.val < (100 : uint32_t).val := by
      rw [hH]; decide
    have hloop : SatUtMac.Transmit.loop contractQueue mac.m_macAddress (n + 1 + 1 + 1)
        (examplePacket u1 40 :: examplePacket u2 40 :: examplePacket u3 30 :: rest) 95 [] []
          = { queue := examplePacket u3 30 :: rest
              requests := [(toUint32 95, some (examplePacket u1 40)),
                (toUint32 55, some (examplePacket u2 40)), (toUint32 15, none)]
              payloadLeft := 15
              packets := [examplePacket u1 40, examplePacket u2 40]
              sent := []
              status := .completed } := by
      have h1 : (examplePacket u1 40).size.val = 40 := rfl
      have h2 : (examplePacket u2 40).size.val = 40 := rfl
      have h3 : (examplePacket u3 30).size.val = 30 := rfl
      rw [contractQueue_take _ _ _ _ 95 _ _ (by omega) (by omega) (by omega),
        contractQueue_take _ _ _ _ _ _ _ (by omega) (by omega) (by omega),
        contractQueue_stop _ _ _ _ _ _ _ (by omega) (by omega) (by omega)]
      rw [h1, h2]
      rfl
    obtain ⟨_, hp, hs, _, hsent⟩ := Transmit_of_gt mac contractQueue
      (examplePacket u1 40 :: examplePacket u2 40 :: examplePacket u3 30 :: rest)
      (n + 1 + 1 + 1) durationInSecs 100 carrierId hgt
    rw [hP, hloop] at hp hs
    rw [hsent, hp, hs]
    simp

/-- Witness of `Transmit_contractQueue`: header 5, payload 100, queue 40, 40, 30. -/
theorem Transmit_contractQueue_witness :
    (headerMac.m_framePduHeaderSizeInBytes.val < (100 : uint32_t).val
        ∧ (∀ p ∈ [examplePacket 0 40, examplePacket 1 40, examplePacket 2 30], 0 < p.size.val)
        ∧ [examplePacket 0 40, examplePacket 1 40, examplePacket 2 30].length < 4
        ∧ ∃ pre : List Packet,
          pre <+: [examplePacket 0 40, examplePacket 1 40, examplePacket 2 30]
            ∧ totalSize pre ≤ (100 : uint32_t).val - headerMac.m_framePduHeaderSizeInBytes.val
            ∧ (∀ other : List Packet,
                other <+: [examplePacket 0 40, examplePacket 1 40, examplePacket 2 30] →
                totalSize other
                  ≤ (100 : uint32_t).val - headerMac.m_framePduHeaderSizeInBytes.val →
                other.length ≤ pre.length)
            ∧ (headerMac.Transmit contractQueue
                [examplePacket 0 40, examplePacket 1 40, examplePacket 2 30] 4 1 100 7).status
                = .completed
            ∧ (pre ≠ [] →
                (headerMac.Transmit contractQueue
                  [examplePacket 0 40, examplePacket 1 40, examplePacket 2 30] 4 1 100 7).sent
                  = [{ packets := pre, carrierId := 7,
                       duration := headerMac.Seconds 1 - headerMac.m_guardTime }])
            ∧ (pre = [] →
                (headerMac.Transmit contractQueue
                  [examplePacket 0 40, examplePacket 1 40, examplePacket 2 30] 4 1 100 7).sent
                  = []))
      ∧ (headerMac.m_framePduHeaderSizeInBytes = 5 ∧ 3 ≤ 4
        ∧ (headerMac.Transmit contractQueue
              (examplePacket 0 40 :: examplePacket 1 40 :: examplePacket 2 30 :: []) 4 1 100 7).sent
            = [{ packets := [examplePacket 0 40, examplePacket 1 40], carrierId := 7,
                 duration := headerMac.Seconds 1 - headerMac.m_guardTime }]) :=
  ⟨⟨by decide, by decide, by decide,
      Transmit_contractQueue.1 headerMac
        [examplePacket 0 40, examplePacket 1 40, examplePacket 2 30] 4 1 100 7
        (by decide) (by decide) (by decide)⟩,
    ⟨rfl, by decide, Transmit_contractQueue.2 headerMac 0 1 2 [] 4 1 7 rfl (by decide)⟩⟩

/-! ## The contention slot registry -/

theorem lookup_append_of_none {α β : Type} [BEq α] (k : α) (l1 l2 : List (α × β))
    (h : l1.lookup k = none) : (l1 ++ l2).lookup k = l2.lookup k := by
  induction l1 with
  | nil => rfl
  | cons e rest ih =>
    obtain ⟨a, b⟩ := e
    simp only [List.cons_append, List.lookup_cons] at h ⊢
    split at h
    · cases h
    · exact ih h

theorem lookup_setSlots (key : uint32_t × uint32_t) (slots : Finset uint32_t) :
    ∀ (reg : List ((uint32_t × uint32_t) × Finset uint32_t)) (old : Finset uint32_t),
      reg.lookup key = some old → (setSlots key slots reg).lookup key = some slots := by
  intro reg
  induction reg with
  | nil => intro old h; cases h
  | cons e rest ih =>
    intro old h
    obtain ⟨k, v⟩ := e
    unfold setSlots
    by_cases hk : k = key
    · subst hk
      simp
    · have hk1 : (key == k) = false := by
        rw [beq_eq_false_iff_ne]; exact fun hh => hk hh.symm
      simp only [hk, if_false, List.lookup_cons, hk1] at h ⊢
      exact ih old h

theorem filter_setSlots (key : uint32_t × uint32_t) (slots : Finset uint32_t)
    (currentFrameId : uint32_t) (hkey : ¬ key.1 < currentFrameId) :
    ∀ (reg : List ((uint32_t × uint32_t) × Finset uint32_t)),
      (∀ e ∈ reg, ¬ e.1.1 < currentFrameId) →
      ∀ e ∈ setSlots key slots reg, ¬ e.1.1 < currentFrameId := by
  intro reg
  induction reg with
  | nil => intro _ e he; cases he
  | cons a rest ih =>
    intro hall e he
    unfold setSlots at he
    split at he
    · rw [List.mem_cons] at he
      rcases he with he | he
      · subst he; exact hkey
      · exact hall e (List.mem_cons_of_mem _ he)
    · rw [List.mem_cons] at he
      rcases he with he | he
      · subst he; exact hall _ (List.mem_cons_self _ _)
      · exact ih (fun x hx => hall x (List.mem_cons_of_mem _ hx)) e he

/-- Pruning a registry whose entries are all current changes nothing. -/
theorem RemovePast_of_current (mac : SatUtMac) (currentFrameId : uint32_t)
    (h : ∀ e ∈ mac.m_usedRandomAccessSlots, ¬ e.1.1 < currentFrameId) :
    (mac.RemovePastRandomAccessSlots currentFrameId).m_usedRandomAccessSlots
      = mac.m_usedRandomAccessSlots := by
  unfold SatUtMac.RemovePastRandomAccessSlots
  simp only
  rw [List.filter_eq_self]
  intro e he
  simpa using h e he

/-- After pruning, every entry of the registry is current. -/
theorem RemovePast_current (mac : SatUtMac) (currentFrameId : uint32_t) :
    ∀ e ∈ (mac.RemovePastRandomAccessSlots currentFrameId).m_usedRandomAccessSlots,
      ¬ e.1.1 < currentFrameId := by
  intro e he
  unfold SatUtMac.RemovePastRandomAccessSlots at he
  simp only [List.mem_filter] at he
  simpa using he.2

/-- Recording a slot id that the pruned registry already holds for the key
fails. -/
theorem UpdateUsedRandomAccessSlots_of_mem (mac : SatUtMac) (c s : uint32_t)
    (slots : Finset uint32_t)
    (hl : (mac.RemovePastRandomAccessSlots 5).m_usedRandomAccessSlots.lookup (5, c) = some slots)
    (hs : s ∈ slots) :
    (mac.UpdateUsedRandomAccessSlots c s).2 = some (.fatalError .raInsertFailed) := by
  unfold SatUtMac.UpdateUsedRandomAccessSlots
  dsimp only
  rw [hl]
  dsimp only
  rw [if_pos hs]

/-- Recording the slot id that a successful update has just recorded for the
channel fails. -/
theorem UpdateUsedRandomAccessSlots_again (mac : SatUtMac) (c s : uint32_t)
    (h : (mac.UpdateUsedRandomAccessSlots c s).2 = none) :
    ((mac.UpdateUsedRandomAccessSlots c s).1.UpdateUsedRandomAccessSlots c s).2
      = some (.fatalError .raInsertFailed) := by
  have hcur := RemovePast_current mac 5
  have hkey : ¬ ((5 : uint32_t), c).1 < (5 : uint32_t) := by
    show ¬ (5 : uint32_t) < 5
    decide
  unfold SatUtMac.UpdateUsedRandomAccessSlots at h
  dsimp only at h
  rcases hl : (mac.RemovePastRandomAccessSlots 5).m_usedRandomAccessSlots.lookup (5, c)
    with _ | slots
  · have hfirst : (mac.UpdateUsedRandomAccessSlots c s).1.m_usedRandomAccessSlots
        = (mac.RemovePastRandomAccessSlots 5).m_usedRandomAccessSlots ++ [((5, c), {s})] := by
      unfold SatUtMac.UpdateUsedRandomAccessSlots
      dsimp only
      rw [hl]
    have hall : ∀ e ∈ (mac.UpdateUsedRandomAccessSlots c s).1.m_usedRandomAccessSlots,
        ¬ e.1.1 < (5 : uint32_t) := by
      intro e he
      rw [hfirst, List.mem_append, List.mem_singleton] at he
      rcases he with he | he
      · exact hcur e he
      · subst he; exact hkey
    have hprune := RemovePast_of_current (mac.UpdateUsedRandomAccessSlots c s).1 5 hall
    have hlook : ((mac.UpdateUsedRandomAccessSlots c s).1.RemovePastRandomAccessSlots
        5).m_usedRandomAccessSlots.lookup (5, c) = some {s} := by
      rw [hprune, hfirst, lookup_append_of_none _ _ _ hl]
      simp [List.lookup]
    exact UpdateUsedRandomAccessSlots_of_mem _ c s _ hlook (Finset.mem_singleton_self s)
  · rw [hl] at h
    dsimp only at h
    by_cases hmem : s ∈ slots
    · rw [if_pos hmem] at h
      cases h
    · have hfirst : (mac.UpdateUsedRandomAccessSlots c s).1.m_usedRandomAccessSlots
          = setSlots (5, c) (insert s slots)
              (mac.RemovePastRandomAccessSlots 5).m_usedRandomAccessSlots := by
        unfold SatUtMac.UpdateUsedRandomAccessSlots
        dsimp only
        rw [hl]
        dsimp only
        rw [if_neg hmem]
      have hall : ∀ e ∈ (mac.UpdateUsedRandomAccessSlots c s).1.m_usedRandomAccessSlots,
          ¬ e.1.1 < (5 : uint32_t) := by
        rw [hfirst]
        exact filter_setSlots _ _ _ hkey _ hcur
      have hprune := RemovePast_of_current (mac.UpdateUsedRandomAccessSlots c s).1 5 hall
      have hlook : ((mac.UpdateUsedRandomAccessSlots c s).1.RemovePastRandomAccessSlots
          5).m_usedRandomAccessSlots.lookup (5, c) = some (insert s slots) := by
        rw [hprune, hfirst]
        exact lookup_setSlots _ _ _ _ hl
      exact UpdateUsedRandomAccessSlots_of_mem _ c s _ hlook (Finset.mem_insert_self s slots)

/-- C20: for every registry state, every channel c and every slot id s, after a
successful `SatUtMac::UpdateUsedRandomAccessSlots (c, s)` a second
`UpdateUsedRandomAccessSlots (c, s)` fails with the fatal error "Insert failed"
(a double allocation). -/
theorem UpdateUsedRandomAccessSlots_twice (mac : SatUtMac) (c s : uint32_t)
    (h : (mac.UpdateUsedRandomAccessSlots c s).2 = none) :
    ((mac.UpdateUsedRandomAccessSlots c s).1.UpdateUsedRandomAccessSlots c s).2
      = some (.fatalError .raInsertFailed) :=
  UpdateUsedRandomAccessSlots_again mac c s h

/-- Witness of `UpdateUsedRandomAccessSlots_twice`: slot id 7 recorded twice for
channel 1 on an empty registry. -/
theorem UpdateUsedRandomAccessSlots_twice_witness :
    (exampleMac.UpdateUsedRandomAccessSlots 1 7).2 = none
      ∧ ((exampleMac.UpdateUsedRandomAccessSlots 1 7).1.UpdateUsedRandomAccessSlots 1 7).2
          = some (.fatalError .raInsertFailed) :=
  ⟨by decide, UpdateUsedRandomAccessSlots_twice exampleMac 1 7 (by decide)⟩

/-! ## `SatUtMac::ScheduleTimeSlots`: the slot loop -/

theorem GetSuperframeConf_ok_iff (seq : SatSuperframeSeq) (seqId : uint8_t)
    (sf : SatSuperframeConf) :
    seq.GetSuperframeConf seqId = .ok sf ↔ seq.m_superframe[seqId.val]? = some sf := by
  unfold SatSuperframeSeq.GetSuperframeConf
  split
  · rename_i x h; rw [h]; simp
  · rename_i h; rw [h]; simp

theorem GetFrameConf_ok_iff (sf : SatSuperframeConf) (index : uint8_t) (f : SatFrameConf) :
    sf.GetFrameConf index = .ok f ↔ sf.m_frames[index.val]? = some f := by
  unfold SatSuperframeConf.GetFrameConf
  split
  · rename_i x h; rw [h]; simp
  · rename_i h; rw [h]; simp

theorem GetTimeSlotConf_ok_iff (f : SatFrameConf) (index : uint16_t) (ts : SatTimeSlotConf) :
    f.GetTimeSlotConf index = .ok ts ↔ f.m_timeSlots[index.val]? = some ts := by
  unfold SatFrameConf.GetTimeSlotConf
  by_cases h : index.val < f.m_timeSlots.length
  · rw [dif_pos h, List.getElem?_eq_getElem h]
    simp
  · rw [dif_neg h, List.getElem?_eq_none (Nat.le_of_not_lt h)]
    simp

/-- The body of the slot loop succeeds exactly when the slot resolves, and then
it appends the transmission event of the slot to the schedule. -/
theorem slot_ok_iff (mac : SatUtMac) (startDelay : Time) (frameId : uint8_t)
    (slotIndex : uint16_t) (sim sim1 : Simulator) :
    SatUtMac.ScheduleTimeSlots.slot mac startDelay frameId slotIndex sim = .ok sim1
      ↔ ∃ ev, mac.IsSlotEvent startDelay frameId slotIndex ev ∧ sim1 = sim.Schedule ev.1 ev.2 := by
  constructor
  · intro h
    unfold SatUtMac.ScheduleTimeSlots.slot at h
    split at h
    · cases h
    · rename_i sfc h1
      split at h
      · cases h
      · rename_i fc h2
        split at h
        · cases h
        · rename_i ts h3
          split at h
          · cases h
          · rename_i wf h4
            split at h
            · cases h
            · rename_i cid h5
              injection h with h
              refine ⟨_, ⟨sfc, fc, ts, wf, cid, (GetSuperframeConf_ok_iff _ _ _).mp h1,
                (GetFrameConf_ok_iff _ _ _).mp h2, (GetTimeSlotConf_ok_iff _ _ _).mp h3, h4, ?_,
                rfl⟩, ?_⟩
              · unfold SatSuperframeSeq.GetCarrierId at h5
                rw [h1] at h5
                exact h5
              · rw [← h]; rfl
  · rintro ⟨ev, ⟨sfc, fc, ts, wf, cid, h1, h2, h3, h4, h5, hev⟩, hsim⟩
    have g1 := (GetSuperframeConf_ok_iff mac.m_superframeSeq 0 sfc).mpr h1
    have g2 := (GetFrameConf_ok_iff sfc frameId fc).mpr h2
    have g3 := (GetTimeSlotConf_ok_iff fc slotIndex ts).mpr h3
    have g5 : mac.m_superframeSeq.GetCarrierId 0 frameId (toUint16 ts.GetCarrierId.val)
        = .ok cid := by
      unfold SatSuperframeSeq.GetCarrierId
      rw [g1]
      exact h5
    unfold SatUtMac.ScheduleTimeSlots.slot
    rw [g1]
    dsimp only
    rw [g2]
    dsimp only
    rw [g3]
    dsimp only
    rw [h4]
    dsimp only
    rw [g5, hsim, hev]
    rfl

/-- A slot of an existing frame whose index is in range and whose waveform is
known resolves. -/
theorem IsSlotEvent_of_valid (mac : SatUtMac) (startDelay : Time) (frameId : uint8_t)
    (slotIndex : uint16_t) (sfc : SatSuperframeConf) (fc : SatFrameConf)
    (hsf : mac.m_superframeSeq.m_superframe[0]? = some sfc)
    (hf : sfc.m_frames[frameId.val]? = some fc)
    (hidx : slotIndex.val < fc.m_timeSlots.length)
    (hwf : ∀ ts ∈ fc.m_timeSlots, (mac.m_superframeSeq.GetWaveform ts.GetWaveFormId).isSome) :
    ∃ ev, mac.IsSlotEvent startDelay frameId slotIndex ev := by
  have hts : fc.m_timeSlots[slotIndex.val]? = some (fc.m_timeSlots.get ⟨slotIndex.val, hidx⟩) :=
    List.getElem?_eq_getElem hidx
  obtain ⟨wf, hw⟩ := Option.isSome_iff_exists.mp
    (hwf (fc.m_timeSlots.get ⟨slotIndex.val, hidx⟩) (List.get_mem _ _ _))
  have hlen : frameId.val < sfc.m_frames.length := by
    by_contra hn
    rw [List.getElem?_eq_none (Nat.le_of_not_lt hn)] at hf
    cases hf
  exact ⟨_, sfc, fc, _, wf, _, hsf, hf, hts, hw, GetCarrierId_mod sfc frameId _ hlen, rfl⟩

/-- The slot loop on entries that all name frame `f` and resolve: it ends
without fault and has appended one transmission event per entry, in order. -/
theorem ScheduleTimeSlots_loop_valid (mac : SatUtMac) (startDelay : Time) (f : uint8_t) :
    ∀ (slots : List (uint8_t × uint16_t)) (atBegin : Bool) (frameId : uint8_t) (sim : Simulator),
      (atBegin = false → frameId = f) →
      (∀ it ∈ slots, it.1 = f ∧ ∃ ev, mac.IsSlotEvent startDelay f it.2 ev) →
      ∃ txEvents : List (Time × Event),
        SatUtMac.ScheduleTimeSlots.loop mac startDelay atBegin frameId slots sim
            = ({ sim with events := sim.events ++ txEvents }, none)
          ∧ List.Forall₂ (fun it ev => mac.IsSlotEvent startDelay f it.2 ev) slots txEvents := by
  intro slots
  induction slots with
  | nil =>
    intro atBegin frameId sim _ _
    exact ⟨[], by simp [SatUtMac.ScheduleTimeSlots.loop], List.Forall₂.nil⟩
  | cons it rest ih =>
    intro atBegin frameId sim hfid hall
    obtain ⟨hitf, ev, hev⟩ := hall it (List.mem_cons_self _ _)
    have hcond : ¬ (atBegin = false ∧ frameId ≠ it.1) := by
      rintro ⟨hb, hne⟩
      exact hne ((hfid hb).trans hitf.symm)
    have hnew : (if atBegin = true then it.1 else frameId) = f := by
      cases atBegin with
      | true => simpa using hitf
      | false => simpa using hfid rfl
    have hslot := (slot_ok_iff mac startDelay f it.2 sim (sim.Schedule ev.1 ev.2)).mpr
      ⟨ev, hev, rfl⟩
    obtain ⟨txEvents, hloop, hforall⟩ := ih false f (sim.Schedule ev.1 ev.2) (fun _ => rfl)
      (fun x hx => hall x (List.mem_cons_of_mem _ hx))
    refine ⟨ev :: txEvents, ?_, List.Forall₂.cons hev hforall⟩
    unfold SatUtMac.ScheduleTimeSlots.loop
    rw [if_neg hcond]
    dsimp only
    rw [hnew, hslot]
    dsimp only
    rw [hloop]
    simp [Simulator.Schedule]

/-- The slot loop on entries of frame `f` that resolve, followed by an entry of
another frame: it ends with the fatal error about mixed frames, after it has
appended one transmission event per entry before that one. -/
theorem ScheduleTimeSlots_loop_mixed (mac : SatUtMac) (startDelay : Time) (f : uint8_t)
    (bad : uint8_t × uint16_t) (post : List (uint8_t × uint16_t)) (hbad : bad.1 ≠ f) :
    ∀ (good : List (uint8_t × uint16_t)) (atBegin : Bool) (frameId : uint8_t) (sim : Simulator),
      (atBegin = false → frameId = f) → (atBegin = true → good ≠ []) →
      (∀ it ∈ good, it.1 = f ∧ ∃ ev, mac.IsSlotEvent startDelay f it.2 ev) →
      ∃ txEvents : List (Time × Event),
        SatUtMac.ScheduleTimeSlots.loop mac startDelay atBegin frameId (good ++ bad :: post) sim
            = ({ sim with events := sim.events ++ txEvents },
                some (.fatalError .slotsFromDifferentFrames))
          ∧ List.Forall₂ (fun it ev => mac.IsSlotEvent startDelay f it.2 ev) good txEvents := by
  intro good
  induction good with
  | nil =>
    intro atBegin frameId sim hfid hne _
    have hb : atBegin = false := by
      cases atBegin with
      | true => exact absurd rfl (hne rfl)
      | false => rfl
    have hcond : atBegin = false ∧ frameId ≠ bad.1 :=
      ⟨hb, fun h => hbad (h.symm.trans (hfid hb))⟩
    refine ⟨[], ?_, List.Forall₂.nil⟩
    rw [List.nil_append]
    unfold SatUtMac.ScheduleTimeSlots.loop
    rw [if_pos hcond]
    simp
  | cons it rest ih =>
    intro atBegin frameId sim hfid _ hall
    obtain ⟨hitf, ev, hev⟩ := hall it (List.mem_cons_self _ _)
    have hcond : ¬ (atBegin = false ∧ frameId ≠ it.1) := by
      rintro ⟨hb, hne⟩
      exact hne ((hfid hb).trans hitf.symm)
    have hnew : (if atBegin = true then it.1 else frameId) = f := by
      cases atBegin with
      | true => simpa using hitf
      | false => simpa using hfid rfl
    have hslot := (slot_ok_iff mac startDelay f it.2 sim (sim.Schedule ev.1 ev.2)).mpr
      ⟨ev, hev, rfl⟩
    obtain ⟨txEvents, hloop, hforall⟩ := ih false f (sim.Schedule ev.1 ev.2) (fun _ => rfl)
      (fun h => by cases h) (fun x hx => hall x (List.mem_cons_of_mem _ hx))
    refine ⟨ev :: txEvents, ?_, List.Forall₂.cons hev hforall⟩
    rw [List.cons_append]
    unfold SatUtMac.ScheduleTimeSlots.loop
    rw [if_neg hcond]
    dsimp only
    rw [hnew, hslot]
    dsimp only
    rw [hloop]
    simp [Simulator.Schedule]

/-- Whatever the entries, every event that the slot loop appends is the
transmission event of a slot that resolves. -/
theorem ScheduleTimeSlots_loop_shape (mac : SatUtMac) (startDelay : Time) :
    ∀ (slots : List (uint8_t × uint16_t)) (atBegin : Bool) (frameId : uint8_t) (sim : Simulator),
      ∃ txEvents : List (Time × Event),
        (SatUtMac.ScheduleTimeSlots.loop mac startDelay atBegin frameId slots sim).1
            = { sim with events := sim.events ++ txEvents }
          ∧ ∀ ev ∈ txEvents, ∃ fid idx, mac.IsSlotEvent startDelay fid idx ev := by
  intro slots
  induction slots with
  | nil =>
    intro atBegin frameId sim
    exact ⟨[], by simp [SatUtMac.ScheduleTimeSlots.loop], fun ev h => by cases h⟩
  | cons it rest ih =>
    intro atBegin frameId sim
    unfold SatUtMac.ScheduleTimeSlots.loop
    split
    · exact ⟨[], by simp, fun ev h => by cases h⟩
    · dsimp only
      generalize (if atBegin = true then it.1 else frameId) = fid
      split
      · exact ⟨[], by simp, fun ev h => by cases h⟩
      · rename_i sim1 hs
        obtain ⟨ev, hev, hsim1⟩ := (slot_ok_iff mac startDelay fid it.2 sim sim1).mp hs
        obtain ⟨txEvents, hloop, hall⟩ := ih false fid sim1
        refine ⟨ev :: txEvents, ?_, ?_⟩
        · rw [hloop, hsim1]
          simp [Simulator.Schedule]
        · intro e he
          rw [List.mem_cons] at he
          rcases he with he | he
          · subst he; exact ⟨fid, it.2, hev⟩
          · exact hall e he

/-- The terminal after `ScheduleTimeSlots`, stale message or not: one more call
of the timing-advance callback and the message recorded under txTime. -/
theorem ScheduleTimeSlots_mac (mac : SatUtMac) (sim : Simulator) (tbtp : SatTbtpMessage) :
    (mac.ScheduleTimeSlots sim tbtp).mac
      = { mac with
          timingAdvanceCalls := mac.timingAdvanceCalls + 1
          m_tbtpContainer := mac.m_tbtpContainer.Add (mac.txTime tbtp) tbtp } := by
  unfold SatUtMac.ScheduleTimeSlots
  dsimp only
  split <;> rfl

/-- The run of `ScheduleTimeSlots` on a message that is not stale, in terms of
the slot loop. -/
theorem ScheduleTimeSlots_of_not_stale (mac : SatUtMac) (sim : Simulator) (tbtp : SatTbtpMessage)
    (hnow : sim.Now ≤ mac.txTime tbtp) :
    (mac.ScheduleTimeSlots sim tbtp).sim
        = (SatUtMac.ScheduleTimeSlots.loop (mac.ScheduleTimeSlots sim tbtp).mac
            (mac.txTime tbtp - sim.Now) true 0 (tbtp.GetDaTimeslots mac.m_macAddress)
            (sim.Schedule (mac.txTime tbtp - sim.Now)
              (.SuperFrameStart tbtp.GetSuperframeSeqId))).1
      ∧ (mac.ScheduleTimeSlots sim tbtp).fault
        = (SatUtMac.ScheduleTimeSlots.loop (mac.ScheduleTimeSlots sim tbtp).mac
            (mac.txTime tbtp - sim.Now) true 0 (tbtp.GetDaTimeslots mac.m_macAddress)
            (sim.Schedule (mac.txTime tbtp - sim.Now)
              (.SuperFrameStart tbtp.GetSuperframeSeqId))).2 := by
  have h1 : ¬ mac.m_superframeSeq.GetSuperFrameTxTimeWithCount tbtp.GetSuperframeSeqId
      tbtp.GetSuperframeCounter (mac.m_timingAdvanceCb mac.timingAdvanceCalls) < sim.Now :=
    Int.not_lt.mpr hnow
  rw [ScheduleTimeSlots_mac]
  constructor <;> (simp only [SatUtMac.ScheduleTimeSlots, h1, if_false]; rfl)

/-- The transmission events do not depend on the allocation cache nor on the
count of timing-advance calls. -/
theorem IsSlotEvent_congr (mac mac1 : SatUtMac) (hseq : mac1.m_superframeSeq = mac.m_superframeSeq)
    (hsec : mac1.Seconds = mac.Seconds) (startDelay : Time) (frameId : uint8_t)
    (slotIndex : uint16_t) (ev : Time × Event) :
    mac1.IsSlotEvent startDelay frameId slotIndex ev
      ↔ mac.IsSlotEvent startDelay frameId slotIndex ev := by
  unfold SatUtMac.IsSlotEvent
  rw [hseq, hsec]

/-- The entries of a message that name frame `f` with slot indices in range
resolve, when frame `f` exists and its slots have known waveforms. -/
theorem entries_resolve (mac : SatUtMac) (sim : Simulator) (tbtp : SatTbtpMessage)
    (startDelay : Time) (sfc : SatSuperframeConf) (fc : SatFrameConf) (f : uint8_t)
    (hsf : mac.m_superframeSeq.m_superframe[0]? = some sfc)
    (hf : sfc.m_frames[f.val]? = some fc)
    (hwf : ∀ ts ∈ fc.m_timeSlots, (mac.m_superframeSeq.GetWaveform ts.GetWaveFormId).isSome)
    (entries : List (uint8_t × uint16_t))
    (hentries : ∀ it ∈ entries, it.1 = f ∧ it.2.val < fc.m_timeSlots.length) :
    ∀ it ∈ entries, it.1 = f
      ∧ ∃ ev, (mac.ScheduleTimeSlots sim tbtp).mac.IsSlotEvent startDelay f it.2 ev := by
  intro it hit
  obtain ⟨h1, h2⟩ := hentries it hit
  obtain ⟨ev, hev⟩ := IsSlotEvent_of_valid mac startDelay f it.2 sfc fc hsf hf h2 hwf
  refine ⟨h1, ev, ?_⟩
  rw [ScheduleTimeSlots_mac]
  exact (IsSlotEvent_congr mac _ rfl rfl startDelay f it.2 ev).mpr hev

theorem Forall₂_IsSlotEvent_congr (mac : SatUtMac) (sim : Simulator) (tbtp : SatTbtpMessage)
    (startDelay : Time) (f : uint8_t) (entries : List (uint8_t × uint16_t))
    (txEvents : List (Time × Event))
    (h : List.Forall₂
      (fun it ev => (mac.ScheduleTimeSlots sim tbtp).mac.IsSlotEvent startDelay f it.2 ev)
      entries txEvents) :
    List.Forall₂ (fun (it : uint8_t × uint16_t) ev => mac.IsSlotEvent startDelay f it.2 ev)
      entries txEvents := by
  refine List.Forall₂.imp ?_ h
  intro it ev hev
  rw [ScheduleTimeSlots_mac] at hev
  exact (IsSlotEvent_congr mac _ rfl rfl startDelay f it.2 ev).mp hev

/-- C11 (as stated, refuted): two messages with txTime = now = 0 whose second
entry names another frame than the first. In the first message the slot index of
the first entry is out of range: the call is aborted by the assertion of
`GetTimeSlotConf`. In the second the frame of the first entry does not exist: the
call reads `m_frames[7]` past the end. Neither ends in the error about mixed
frames. -/
theorem ScheduleTimeSlots_mixed_other_fault :
    startSim.Now ≤ exampleMac.txTime (tbtpFor [(0, 0), (1, 0)])
      ∧ (tbtpFor [(0, 0), (1, 0)]).GetDaTimeslots exampleMac.m_macAddress = [(0, 0), (1, 0)]
      ∧ (exampleMac.ScheduleTimeSlots startSim (tbtpFor [(0, 0), (1, 0)])).fault
          = some .assertFailed
      ∧ startSim.Now ≤ exampleMac.txTime (tbtpFor [(7, 0), (8, 0)])
      ∧ (tbtpFor [(7, 0), (8, 0)]).GetDaTimeslots exampleMac.m_macAddress = [(7, 0), (8, 0)]
      ∧ (exampleMac.ScheduleTimeSlots startSim (tbtpFor [(7, 0), (8, 0)])).fault
          = some (.outOfBounds 7) := by
  decide

/-- C11 (amended): for every allocation message with txTime >= now whose slot
list for this terminal contains an entry `bad` whose frame id differs from the
frame id f of the first entry, and in which the entries before `bad` all name
frame f and resolve (frame f exists in superframe 0, their slot indices are in
range and the slots of frame f have known waveforms),
`SatUtMac::ScheduleTimeSlots` fails with the fatal error about slots allocated
from different frames; the transmissions of the entries before `bad` have been
scheduled by then. -/
theorem ScheduleTimeSlots_mixed (mac : SatUtMac) (sim : Simulator) (tbtp : SatTbtpMessage)
    (sfc : SatSuperframeConf) (fc : SatFrameConf) (f : uint8_t)
    (good : List (uint8_t × uint16_t)) (bad : uint8_t × uint16_t)
    (post : List (uint8_t × uint16_t))
    (hnow : sim.Now ≤ mac.txTime tbtp)
    (hsplit : tbtp.GetDaTimeslots mac.m_macAddress = good ++ bad :: post)
    (hne : good ≠ [])
    (hgood : ∀ it ∈ good, it.1 = f ∧ it.2.val < fc.m_timeSlots.length)
    (hbad : bad.1 ≠ f)
    (hsf : mac.m_superframeSeq.m_superframe[0]? = some sfc)
    (hf : sfc.m_frames[f.val]? = some fc)
    (hwf : ∀ ts ∈ fc.m_timeSlots, (mac.m_superframeSeq.GetWaveform ts.GetWaveFormId).isSome) :
    (mac.ScheduleTimeSlots sim tbtp).fault = some (.fatalError .slotsFromDifferentFrames)
      ∧ ∃ txEvents : List (Time × Event),
          (mac.ScheduleTimeSlots sim tbtp).sim.events
              = sim.events
                ++ (mac.txTime tbtp - sim.Now, Event.SuperFrameStart tbtp.GetSuperframeSeqId)
                  :: txEvents
            ∧ List.Forall₂
                (fun (it : uint8_t × uint16_t) ev =>
                  mac.IsSlotEvent (mac.txTime tbtp - sim.Now) f it.2 ev)
                good txEvents := by
  obtain ⟨hs, hfault⟩ := ScheduleTimeSlots_of_not_stale mac sim tbtp hnow
  obtain ⟨txEvents, hloop, hall⟩ := ScheduleTimeSlots_loop_mixed
    (mac.ScheduleTimeSlots sim tbtp).mac (mac.txTime tbtp - sim.Now) f bad post hbad good true 0
    (sim.Schedule (mac.txTime tbtp - sim.Now) (.SuperFrameStart tbtp.GetSuperframeSeqId))
    (fun h => by cases h) (fun _ => hne)
    (entries_resolve mac sim tbtp _ sfc fc f hsf hf hwf good hgood)
  rw [hsplit] at hs hfault
  rw [hloop] at hs hfault
  refine ⟨hfault, txEvents, ?_, Forall₂_IsSlotEvent_congr mac sim tbtp _ f good txEvents hall⟩
  rw [hs]
  simp [Simulator.Schedule]

theorem slottedEntry_valid :
    ∀ it ∈ [((0 : uint8_t), (0 : uint16_t))],
      it.1 = 0 ∧ it.2.val < slottedFrame.m_timeSlots.length := by
  intro it hit
  rw [List.mem_singleton] at hit
  subst hit
  exact ⟨rfl, by decide⟩

theorem slottedEntries_valid :
    ∀ it ∈ (tbtpFor [(0, 0), (0, 0)]).GetDaTimeslots slottedMac.m_macAddress,
      it.1 = 0 ∧ it.2.val < slottedFrame.m_timeSlots.length := by
  intro it hit
  have h : (tbtpFor [(0, 0), (0, 0)]).GetDaTimeslots slottedMac.m_macAddress
      = [(0, 0), (0, 0)] := by decide
  rw [h] at hit
  simp only [List.mem_cons, List.mem_singleton, List.not_mem_nil, or_false, or_self] at hit
  subst hit
  exact ⟨rfl, by decide⟩

/-- Witness of `ScheduleTimeSlots_mixed`: on `slottedMac` the message assigns
slot 0 of frame 0 and then a slot of frame 1. -/
theorem ScheduleTimeSlots_mixed_witness :
    startSim.Now ≤ slottedMac.txTime (tbtpFor [(0, 0), (1, 0)])
      ∧ (tbtpFor [(0, 0), (1, 0)]).GetDaTimeslots slottedMac.m_macAddress
          = [(0, 0)] ++ (1, 0) :: []
      ∧ (slottedMac.ScheduleTimeSlots startSim (tbtpFor [(0, 0), (1, 0)])).fault
          = some (.fatalError .slotsFromDifferentFrames)
      ∧ ∃ txEvents : List (Time × Event),
          (slottedMac.ScheduleTimeSlots startSim (tbtpFor [(0, 0), (1, 0)])).sim.events
              = startSim.events
                ++ (slottedMac.txTime (tbtpFor [(0, 0), (1, 0)]) - startSim.Now,
                    Event.SuperFrameStart (tbtpFor [(0, 0), (1, 0)]).GetSuperframeSeqId)
                  :: txEvents
            ∧ List.Forall₂
                (fun (it : uint8_t × uint16_t) ev =>
                  slottedMac.IsSlotEvent
                    (slottedMac.txTime (tbtpFor [(0, 0), (1, 0)]) - startSim.Now) 0 it.2 ev)
                [(0, 0)] txEvents :=
  ⟨by decide, by decide,
    ScheduleTimeSlots_mixed slottedMac startSim (tbtpFor [(0, 0), (1, 0)])
      { m_bandwidth_hz := 2, m_duration_s := 1, m_frames := [slottedFrame] } slottedFrame 0
      [(0, 0)] (1, 0) [] (by decide) (by decide) (by decide) slottedEntry_valid (by decide)
      rfl rfl (by intro ts _; rfl)⟩

/-- C12: for every allocation message with txTime >= now whose n slots for this
terminal all name the same valid frame f and valid slot indices (frame f exists
in superframe 0, the indices are in range and the slots of frame f have known
waveforms), `SatUtMac::ScheduleTimeSlots` ends without fault and schedules, after
the superframe-start marker, exactly n transmission events, in message order,
the i-th at delay (txTime - now) + startOffset (slot_i), carrying the burst
duration of the waveform of slot_i at the symbol rate of frame f, the payload
bytes of that waveform and `GetCarrierId (f, carrier-local id of slot_i)`. -/
theorem ScheduleTimeSlots_valid (mac : SatUtMac) (sim : Simulator) (tbtp : SatTbtpMessage)
    (sfc : SatSuperframeConf) (fc : SatFrameConf) (f : uint8_t)
    (hnow : sim.Now ≤ mac.txTime tbtp)
    (hslots : ∀ it ∈ tbtp.GetDaTimeslots mac.m_macAddress,
      it.1 = f ∧ it.2.val < fc.m_timeSlots.length)
    (hsf : mac.m_superframeSeq.m_superframe[0]? = some sfc)
    (hf : sfc.m_frames[f.val]? = some fc)
    (hwf : ∀ ts ∈ fc.m_timeSlots, (mac.m_superframeSeq.GetWaveform ts.GetWaveFormId).isSome) :
    (mac.ScheduleTimeSlots sim tbtp).fault = none
      ∧ ∃ txEvents : List (Time × Event),
          (mac.ScheduleTimeSlots sim tbtp).sim.events
              = sim.events
                ++ (mac.txTime tbtp - sim.Now, Event.SuperFrameStart tbtp.GetSuperframeSeqId)
                  :: txEvents
            ∧ List.Forall₂
                (fun (it : uint8_t × uint16_t) ev =>
                  mac.IsSlotEvent (mac.txTime tbtp - sim.Now) f it.2 ev)
                (tbtp.GetDaTimeslots mac.m_macAddress) txEvents := by
  obtain ⟨hs, hfault⟩ := ScheduleTimeSlots_of_not_stale mac sim tbtp hnow
  obtain ⟨txEvents, hloop, hall⟩ := ScheduleTimeSlots_loop_valid
    (mac.ScheduleTimeSlots sim tbtp).mac (mac.txTime tbtp - sim.Now) f
    (tbtp.GetDaTimeslots mac.m_macAddress) true 0
    (sim.Schedule (mac.txTime tbtp - sim.Now) (.SuperFrameStart tbtp.GetSuperframeSeqId))
    (fun h => by cases h)
    (entries_resolve mac sim tbtp _ sfc fc f hsf hf hwf _ hslots)
  rw [hloop] at hs hfault
  refine ⟨hfault, txEvents, ?_, Forall₂_IsSlotEvent_congr mac sim tbtp _ f _ txEvents hall⟩
  rw [hs]
  simp [Simulator.Schedule]

/-- Witness of `ScheduleTimeSlots_valid`: on `slottedMac` the message assigns
slot 0 of frame 0 twice. -/
theorem ScheduleTimeSlots_valid_witness :
    startSim.Now ≤ slottedMac.txTime (tbtpFor [(0, 0), (0, 0)])
      ∧ (∀ it ∈ (tbtpFor [(0, 0), (0, 0)]).GetDaTimeslots slottedMac.m_macAddress,
          it.1 = 0 ∧ it.2.val < slottedFrame.m_timeSlots.length)
      ∧ (slottedMac.ScheduleTimeSlots startSim (tbtpFor [(0, 0), (0, 0)])).fault = none
      ∧ ∃ txEvents : List (Time × Event),
          (slottedMac.ScheduleTimeSlots startSim (tbtpFor [(0, 0), (0, 0)])).sim.events
              = startSim.events
                ++ (slottedMac.txTime (tbtpFor [(0, 0), (0, 0)]) - startSim.Now,
                    Event.SuperFrameStart (tbtpFor [(0, 0), (0, 0)]).GetSuperframeSeqId)
                  :: txEvents
            ∧ List.Forall₂
                (fun (it : uint8_t × uint16_t) ev =>
                  slottedMac.IsSlotEvent
                    (slottedMac.txTime (tbtpFor [(0, 0), (0, 0)]) - startSim.Now) 0 it.2 ev)
                ((tbtpFor [(0, 0), (0, 0)]).GetDaTimeslots slottedMac.m_macAddress) txEvents :=
  ⟨by decide, slottedEntries_valid,
    ScheduleTimeSlots_valid slottedMac startSim (tbtpFor [(0, 0), (0, 0)])
      { m_bandwidth_hz := 2, m_duration_s := 1, m_frames := [slottedFrame] } slottedFrame 0
      (by decide) slottedEntries_valid rfl rfl (by intro ts _; rfl)⟩

/-- The slot loop in general: the entries it processes before it ends or aborts
are a prefix of the slot list, each processed entry gets one transmission
event, in order, resolved in the frame that the entry names, and a loop that
ends without fault has processed every entry. -/
theorem ScheduleTimeSlots_loop_prefix (mac : SatUtMac) (startDelay : Time) :
    ∀ (slots : List (uint8_t × uint16_t)) (atBegin : Bool) (frameId : uint8_t) (sim : Simulator),
      ∃ (processed : List (uint8_t × uint16_t)) (txEvents : List (Time × Event)),
        processed <+: slots
          ∧ (SatUtMac.ScheduleTimeSlots.loop mac startDelay atBegin frameId slots sim).1
              = { sim with events := sim.events ++ txEvents }
          ∧ List.Forall₂ (fun it ev => mac.IsSlotEvent startDelay it.1 it.2 ev) processed txEvents
          ∧ ((SatUtMac.ScheduleTimeSlots.loop mac startDelay atBegin frameId slots sim).2 = none →
              processed = slots) := by
  intro slots
  induction slots with
  | nil =>
    intro atBegin frameId sim
    exact ⟨[], [], List.prefix_refl _, by simp [SatUtMac.ScheduleTimeSlots.loop],
      List.Forall₂.nil, fun _ => rfl⟩
  | cons it rest ih =>
    intro atBegin frameId sim
    unfold SatUtMac.ScheduleTimeSlots.loop
    by_cases hmixed : atBegin = false ∧ frameId ≠ it.1
    · rw [if_pos hmixed]
      exact ⟨[], [], List.nil_prefix, by simp, List.Forall₂.nil, fun h => by cases h⟩
    · rw [if_neg hmixed]
      dsimp only
      have hfid : (if atBegin = true then it.1 else frameId) = it.1 := by
        by_cases hb : atBegin = true
        · rw [if_pos hb]
        · rw [if_neg hb]
          by_contra hne
          exact hmixed ⟨by simpa using hb, hne⟩
      rw [hfid]
      rcases hs : SatUtMac.ScheduleTimeSlots.slot mac startDelay it.1 it.2 sim with e | sim1
      · dsimp only
        exact ⟨[], [], List.nil_prefix, by simp, List.Forall₂.nil, fun h => by cases h⟩
      · dsimp only
        obtain ⟨ev, hev, hsim1⟩ := (slot_ok_iff mac startDelay it.1 it.2 sim sim1).mp hs
        obtain ⟨processed, txEvents, hpre, hloop, hall, hdone⟩ := ih false it.1 sim1
        refine ⟨it :: processed, ev :: txEvents, ?_, ?_, List.Forall₂.cons hev hall, ?_⟩
        · exact (List.prefix_cons_inj it).mpr hpre
        · rw [hloop, hsim1]
          simp [Simulator.Schedule]
        · intro hnone
          rw [hdone hnone]

/-- A run of `ScheduleTimeSlots` on a message that is not stale: the marker at
the start delay, then one transmission event for each entry of the prefix of
the slot list that the loop has processed, which is the whole list when the run
ends without fault. -/
theorem ScheduleTimeSlots_run_prefix (mac : SatUtMac) (sim : Simulator) (tbtp : SatTbtpMessage)
    (hnow : sim.Now ≤ mac.txTime tbtp) :
    ∃ (processed : List (uint8_t × uint16_t)) (txEvents : List (Time × Event)),
      processed <+: tbtp.GetDaTimeslots mac.m_macAddress
        ∧ ((mac.ScheduleTimeSlots sim tbtp).fault = none →
            processed = tbtp.GetDaTimeslots mac.m_macAddress)
        ∧ (mac.ScheduleTimeSlots sim tbtp).sim.events
            = sim.events
              ++ (mac.txTime tbtp - sim.Now, Event.SuperFrameStart tbtp.GetSuperframeSeqId)
                :: txEvents
        ∧ List.Forall₂ (fun it ev => mac.IsSlotEvent (mac.txTime tbtp - sim.Now) it.1 it.2 ev)
            processed txEvents := by
  obtain ⟨hs, hf⟩ := ScheduleTimeSlots_of_not_stale mac sim tbtp hnow
  obtain ⟨processed, txEvents, hpre, hloop, hall, hdone⟩ := ScheduleTimeSlots_loop_prefix
    (mac.ScheduleTimeSlots sim tbtp).mac (mac.txTime tbtp - sim.Now)
    (tbtp.GetDaTimeslots mac.m_macAddress) true 0
    (sim.Schedule (mac.txTime tbtp - sim.Now) (.SuperFrameStart tbtp.GetSuperframeSeqId))
  rw [hloop] at hs
  refine ⟨processed, txEvents, hpre, fun hnone => hdone (by rw [← hf]; exact hnone),
    by rw [hs]; simp [Simulator.Schedule], ?_⟩
  refine List.Forall₂.imp (fun it ev h => ?_) hall
  rw [ScheduleTimeSlots_mac] at h
  exact (IsSlotEvent_congr mac _ rfl rfl _ it.1 it.2 ev).mp h

/-- The slot that an entry of the message names, when it resolves, is the slot
of a transmission event scheduled for the entry: the delay of the event minus
the start offset of that slot is the start delay. -/
theorem IsSlotEvent_delay (mac : SatUtMac) (startDelay : Time) (frameId : uint8_t)
    (slotIndex : uint16_t) (ev : Time × Event)
    (h : mac.IsSlotEvent startDelay frameId slotIndex ev)
    (superframeConf : SatSuperframeConf) (frameConf : SatFrameConf)
    (timeSlotConf : SatTimeSlotConf)
    (hsf : mac.m_superframeSeq.m_superframe[0]? = some superframeConf)
    (hf : superframeConf.m_frames[frameId.val]? = some frameConf)
    (hts : frameConf.m_timeSlots[slotIndex.val]? = some timeSlotConf) :
    ev.1 - mac.Seconds timeSlotConf.GetStartTimeInSeconds = startDelay := by
  obtain ⟨sfc, fc, ts, wf, cid, h1, h2, h3, _, _, hev⟩ := h
  rw [hsf] at h1
  cases h1
  rw [hf] at h2
  cases h2
  rw [hts] at h3
  cases h3
  rw [hev]
  simp

/-- C13: processing one allocation message in `SatUtMac::ScheduleTimeSlots`
calls the timing-advance callback exactly once. With v the value of that call,
txTime the start time computed from v and startDelay = txTime - now: when the
message is not stale, the marker is scheduled at startDelay, and the slots of
the message for this terminal get one transmission event each, in message
order (all of them when the run ends without fault, those before the abort
otherwise); for every such slot i, resolved in superframe 0 as the slot that the
entry names, slotDelay_i - startOffset (slot_i) = startDelay, so that this
difference is the same for all slots i, j of the message. -/
theorem ScheduleTimeSlots_timing_advance (mac : SatUtMac) (sim : Simulator)
    (tbtp : SatTbtpMessage) :
    (mac.ScheduleTimeSlots sim tbtp).mac.timingAdvanceCalls = mac.timingAdvanceCalls + 1
      ∧ (sim.Now ≤ mac.m_superframeSeq.GetSuperFrameTxTimeWithCount tbtp.GetSuperframeSeqId
            tbtp.GetSuperframeCounter (mac.m_timingAdvanceCb mac.timingAdvanceCalls) →
          ∃ (processed : List (uint8_t × uint16_t)) (txEvents : List (Time × Event)),
            processed <+: tbtp.GetDaTimeslots mac.m_macAddress
              ∧ ((mac.ScheduleTimeSlots sim tbtp).fault = none →
                  processed = tbtp.GetDaTimeslots mac.m_macAddress)
              ∧ (mac.ScheduleTimeSlots sim tbtp).sim.events
                  = sim.events
                    ++ (mac.m_superframeSeq.GetSuperFrameTxTimeWithCount tbtp.GetSuperframeSeqId
                          tbtp.GetSuperframeCounter (mac.m_timingAdvanceCb mac.timingAdvanceCalls)
                        - sim.Now,
                        Event.SuperFrameStart tbtp.GetSuperframeSeqId)
                      :: txEvents
              ∧ List.Forall₂
                  (fun it ev =>
                    ∃ (superframeConf : SatSuperframeConf) (frameConf : SatFrameConf)
                      (timeSlotConf : SatTimeSlotConf),
                      mac.m_superframeSeq.m_superframe[0]? = some superframeConf
                        ∧ superframeConf.m_frames[it.1.val]? = some frameConf
                        ∧ frameConf.m_timeSlots[it.2.val]? = some timeSlotConf
                        ∧ ev.1 - mac.Seconds timeSlotConf.GetStartTimeInSeconds
                            = mac.m_superframeSeq.GetSuperFrameTxTimeWithCount
                                tbtp.GetSuperframeSeqId tbtp.GetSuperframeCounter
                                (mac.m_timingAdvanceCb mac.timingAdvanceCalls)
                              - sim.Now)
                  processed txEvents) := by
  refine ⟨by rw [ScheduleTimeSlots_mac], fun hnow => ?_⟩
  obtain ⟨processed, txEvents, hpre, hdone, hev, hall⟩ :=
    ScheduleTimeSlots_run_prefix mac sim tbtp hnow
  refine ⟨processed, txEvents, hpre, hdone, hev, List.Forall₂.imp (fun it ev h => ?_) hall⟩
  have h1 := h
  obtain ⟨sfc, fc, ts, _, _, hsf, hf, hts, _, _, _⟩ := h1
  exact ⟨sfc, fc, ts, hsf, hf, hts,
    IsSlotEvent_delay mac _ it.1 it.2 ev h sfc fc ts hsf hf hts⟩


/-- Witness of `ScheduleTimeSlots_timing_advance`: `slottedMac` and a message
that assigns slot 0 of frame 0 twice; the run ends without fault. -/
theorem ScheduleTimeSlots_timing_advance_witness :
    startSim.Now ≤ slottedMac.m_superframeSeq.GetSuperFrameTxTimeWithCount
          (tbtpFor [(0, 0), (0, 0)]).GetSuperframeSeqId
          (tbtpFor [(0, 0), (0, 0)]).GetSuperframeCounter
          (slottedMac.m_timingAdvanceCb slottedMac.timingAdvanceCalls)
      ∧ (slottedMac.ScheduleTimeSlots startSim (tbtpFor [(0, 0), (0, 0)])).fault = none
      ∧ (tbtpFor [(0, 0), (0, 0)]).GetDaTimeslots slottedMac.m_macAddress = [(0, 0), (0, 0)]
      ∧ (slottedMac.ScheduleTimeSlots startSim (tbtpFor [(0, 0), (0, 0)])).mac.timingAdvanceCalls
          = slottedMac.timingAdvanceCalls + 1
      ∧ ∃ (processed : List (uint8_t × uint16_t)) (txEvents : List (Time × Event)),
          processed <+: (tbtpFor [(0, 0), (0, 0)]).GetDaTimeslots slottedMac.m_macAddress
            ∧ ((slottedMac.ScheduleTimeSlots startSim (tbtpFor [(0, 0), (0, 0)])).fault = none →
                processed = (tbtpFor [(0, 0), (0, 0)]).GetDaTimeslots slottedMac.m_macAddress)
            ∧ (slottedMac.ScheduleTimeSlots startSim (tbtpFor [(0, 0), (0, 0)])).sim.events
                = startSim.events
                  ++ (slottedMac.m_superframeSeq.GetSuperFrameTxTimeWithCount
                        (tbtpFor [(0, 0), (0, 0)]).GetSuperframeSeqId
                        (tbtpFor [(0, 0), (0, 0)]).GetSuperframeCounter
                        (slottedMac.m_timingAdvanceCb slottedMac.timingAdvanceCalls)
                      - startSim.Now,
                      Event.SuperFrameStart (tbtpFor [(0, 0), (0, 0)]).GetSuperframeSeqId)
                    :: txEvents
            ∧ List.Forall₂
                (fun it ev =>
                  ∃ (superframeConf : SatSuperframeConf) (frameConf : SatFrameConf)
                    (timeSlotConf : SatTimeSlotConf),
                    slottedMac.m_superframeSeq.m_superframe[0]? = some superframeConf
                      ∧ superframeConf.m_frames[it.1.val]? = some frameConf
                      ∧ frameConf.m_timeSlots[it.2.val]? = some timeSlotConf
                      ∧ ev.1 - slottedMac.Seconds timeSlotConf.GetStartTimeInSeconds
                          = slottedMac.m_superframeSeq.GetSuperFrameTxTimeWithCount
                              (tbtpFor [(0, 0), (0, 0)]).GetSuperframeSeqId
                              (tbtpFor [(0, 0), (0, 0)]).GetSuperframeCounter
                              (slottedMac.m_timingAdvanceCb slottedMac.timingAdvanceCalls)
                            - startSim.Now)
                processed txEvents :=
  ⟨by decide, rfl, rfl,
    (ScheduleTimeSlots_timing_advance slottedMac startSim (tbtpFor [(0, 0), (0, 0)])).1,
    (ScheduleTimeSlots_timing_advance slottedMac startSim (tbtpFor [(0, 0), (0, 0)])).2
      (by decide)⟩

/-- Every burst that `Transmit` hands to the physical layer has the duration
`Seconds (durationInSecs)` minus the guard time and the carrier id of the call. -/
theorem Transmit_sent_duration {σ : Type} (mac : SatUtMac) (cb : TxOpportunityCallback σ)
    (q : σ) (fuel : Nat) (durationInSecs : ℚ) (payloadBytes carrierId : uint32_t) :
    ∀ burst ∈ (mac.Transmit cb q fuel durationInSecs payloadBytes carrierId).sent,
      burst.duration = mac.Seconds durationInSecs - mac.m_guardTime
        ∧ burst.carrierId = carrierId := by
  intro burst hburst
  by_cases h : mac.m_framePduHeaderSizeInBytes.val < payloadBytes.val
  · rw [(Transmit_of_gt mac cb q fuel durationInSecs payloadBytes carrierId h).2.2.2.2] at hburst
    split at hburst
    · rw [List.mem_singleton] at hburst
      subst hburst
      exact ⟨rfl, rfl⟩
    · cases hburst
  · have h1 : ¬ payloadBytes.val > mac.m_framePduHeaderSizeInBytes.val := h
    unfold SatUtMac.Transmit at hburst
    rw [if_neg h1] at hburst
    cases hburst

/-- C19 (as stated, refuted): on `slottedMac` the message assigns slot 0 of
frame 0, whose configured duration is 1 second and whose waveform has a burst
duration of 3 seconds. The transmission is scheduled with 3 seconds, and the
burst handed to the physical layer lasts `Seconds (3)` minus the guard time
(2999999000 ticks), not `Seconds (1)` minus the guard time (999999000 ticks). -/
theorem burst_duration_not_slot_duration :
    slottedFrame.m_timeSlots = [exampleSlot 0] ∧ (exampleSlot 0).m_duration_s = 1
      ∧ ((slottedMac.ScheduleTimeSlots startSim (tbtpFor [(0, 0)])).sim.events.map
          fun ev => ev.2) = [Event.SuperFrameStart 0, Event.Transmit 3 100 0]
      ∧ ((slottedMac.ScheduleTimeSlots startSim (tbtpFor [(0, 0)])).mac.Transmit contractQueue
          [examplePacket 0 40] 3 3 100 0).sent
          = [{ packets := [examplePacket 0 40], carrierId := 0,
               duration := slottedMac.Seconds 3 - slottedMac.m_guardTime }]
      ∧ slottedMac.Seconds 3 - slottedMac.m_guardTime = 2999999000
      ∧ slottedMac.Seconds (exampleSlot 0).m_duration_s - slottedMac.m_guardTime = 999999000 := by
  refine ⟨rfl, rfl, rfl, rfl, ?_, ?_⟩
  · norm_num [slottedMac, exampleMac]
  · norm_num [slottedMac, exampleMac, exampleSlot]

/-- C19 (amended): for every allocated time slot that results in a
transmission, the burst handed to the physical layer has duration equal to the
burst duration of the waveform of the slot at the symbol rate of its frame,
converted to simulation time, minus the guard time. For a message that is not
stale, the slots of the message for this terminal get one transmission event
each, in message order (all of them when the run ends without fault, those
before the abort otherwise); with the entry resolved in superframe 0 to its
frame, its slot and the waveform of that slot, the event carries the burst
duration of that waveform at the symbol rate of that frame, and every burst that
`Transmit` hands to the physical layer when the event fires lasts this duration,
converted to simulation time, minus the guard time. -/
theorem ScheduleTimeSlots_burst_duration (mac : SatUtMac) (sim : Simulator)
    (tbtp : SatTbtpMessage) (hnow : sim.Now ≤ mac.txTime tbtp) :
    ∃ (processed : List (uint8_t × uint16_t)) (txEvents : List (Time × Event)),
      processed <+: tbtp.GetDaTimeslots mac.m_macAddress
        ∧ ((mac.ScheduleTimeSlots sim tbtp).fault = none →
            processed = tbtp.GetDaTimeslots mac.m_macAddress)
        ∧ (mac.ScheduleTimeSlots sim tbtp).sim.events
            = sim.events
              ++ (mac.txTime tbtp - sim.Now, Event.SuperFrameStart tbtp.GetSuperframeSeqId)
                :: txEvents
        ∧ List.Forall₂
            (fun it ev =>
              ∃ (superframeConf : SatSuperframeConf) (frameConf : SatFrameConf)
                (timeSlotConf : SatTimeSlotConf) (wf : SatWaveform)
                (payloadBytes carrierId : uint32_t),
                mac.m_superframeSeq.m_superframe[0]? = some superframeConf
                  ∧ superframeConf.m_frames[it.1.val]? = some frameConf
                  ∧ frameConf.m_timeSlots[it.2.val]? = some timeSlotConf
                  ∧ mac.m_superframeSeq.GetWaveform timeSlotConf.GetWaveFormId = some wf
                  ∧ ev.2 = Event.Transmit
                      (wf.GetBurstDurationInSeconds frameConf.GetBtuConf.GetSymbolRateInBauds)
                      payloadBytes carrierId
                  ∧ ∀ (σ : Type) (cb : TxOpportunityCallback σ) (q : σ) (fuel : Nat),
                      ∀ burst ∈ ((mac.ScheduleTimeSlots sim tbtp).mac.Transmit cb q fuel
                          (wf.GetBurstDurationInSeconds
                            frameConf.GetBtuConf.GetSymbolRateInBauds)
                          payloadBytes carrierId).sent,
                        burst.duration
                          = mac.Seconds
                              (wf.GetBurstDurationInSeconds
                                frameConf.GetBtuConf.GetSymbolRateInBauds)
                            - mac.m_guardTime)
            processed txEvents := by
  obtain ⟨processed, txEvents, hpre, hdone, hev, hall⟩ :=
    ScheduleTimeSlots_run_prefix mac sim tbtp hnow
  refine ⟨processed, txEvents, hpre, hdone, hev, List.Forall₂.imp (fun it ev h => ?_) hall⟩
  obtain ⟨sfc, fc, ts, wf, cid, hsf, hf, hts, hwf, _, hev1⟩ := h
  refine ⟨sfc, fc, ts, wf, wf.GetPayloadInBytes, toUint32 cid, hsf, hf, hts, hwf,
    by rw [hev1], fun σ cb q fuel burst hburst => ?_⟩
  have := (Transmit_sent_duration _ cb q fuel _ _ _ burst hburst).1
  rw [this, ScheduleTimeSlots_mac]

/-- Witness of `ScheduleTimeSlots_burst_duration`: `slottedMac` and a message
that assigns slot 0 of frame 0; the run ends without fault. -/
theorem ScheduleTimeSlots_burst_duration_witness :
    startSim.Now ≤ slottedMac.txTime (tbtpFor [(0, 0)])
      ∧ (slottedMac.ScheduleTimeSlots startSim (tbtpFor [(0, 0)])).fault = none
      ∧ (tbtpFor [(0, 0)]).GetDaTimeslots slottedMac.m_macAddress = [(0, 0)]
      ∧ ∃ (processed : List (uint8_t × uint16_t)) (txEvents : List (Time × Event)),
        processed <+: (tbtpFor [(0, 0)]).GetDaTimeslots slottedMac.m_macAddress
          ∧ ((slottedMac.ScheduleTimeSlots startSim (tbtpFor [(0, 0)])).fault = none →
              processed = (tbtpFor [(0, 0)]).GetDaTimeslots slottedMac.m_macAddress)
          ∧ (slottedMac.ScheduleTimeSlots startSim (tbtpFor [(0, 0)])).sim.events
              = startSim.events
                ++ (slottedMac.txTime (tbtpFor [(0, 0)]) - startSim.Now,
                    Event.SuperFrameStart (tbtpFor [(0, 0)]).GetSuperframeSeqId)
                  :: txEvents
          ∧ List.Forall₂
              (fun it ev =>
                ∃ (superframeConf : SatSuperframeConf) (frameConf : SatFrameConf)
                  (timeSlotConf : SatTimeSlotConf) (wf : SatWaveform)
                  (payloadBytes carrierId : uint32_t),
                  slottedMac.m_superframeSeq.m_superframe[0]? = some superframeConf
                    ∧ superframeConf.m_frames[it.1.val]? = some frameConf
                    ∧ frameConf.m_timeSlots[it.2.val]? = some timeSlotConf
                    ∧ slottedMac.m_superframeSeq.GetWaveform timeSlotConf.GetWaveFormId = some wf
                    ∧ ev.2 = Event.Transmit
                        (wf.GetBurstDurationInSeconds
                          frameConf.GetBtuConf.GetSymbolRateInBauds)
                        payloadBytes carrierId
                    ∧ ∀ (σ : Type) (cb : TxOpportunityCallback σ) (q : σ) (fuel : Nat),
                        ∀ burst ∈ ((slottedMac.ScheduleTimeSlots startSim
                            (tbtpFor [(0, 0)])).mac.Transmit cb q fuel
                            (wf.GetBurstDurationInSeconds
                              frameConf.GetBtuConf.GetSymbolRateInBauds)
                            payloadBytes carrierId).sent,
                          burst.duration
                            = slottedMac.Seconds
                                (wf.GetBurstDurationInSeconds
                                  frameConf.GetBtuConf.GetSymbolRateInBauds)
                              - slottedMac.m_guardTime)
              processed txEvents :=
  ⟨by decide, rfl, rfl,
    ScheduleTimeSlots_burst_duration slottedMac startSim (tbtpFor [(0, 0)]) (by decide)⟩

/-! ## The contention slot registry: pruning and the multi-slot update -/

/-- Looking a key up in the pruned entries. -/
theorem lookup_filter_current (currentFrameId : uint32_t) (key : uint32_t × uint32_t) :
    ∀ (reg : List ((uint32_t × uint32_t) × Finset uint32_t)),
      (reg.filter fun entry => ¬ (entry.1.1 < currentFrameId)).lookup key
        = if key.1 < currentFrameId then none else reg.lookup key := by
  intro reg
  induction reg with
  | nil => simp
  | cons e rest ih =>
    obtain ⟨k, v⟩ := e
    by_cases hk : k.1 < currentFrameId
    · have hf : decide (¬ (k.1 < currentFrameId)) = false := by simpa using hk
      rw [List.filter_cons_of_neg (by simpa using hk), ih]
      by_cases hkey : key.1 < currentFrameId
      · rw [if_pos hkey, if_pos hkey]
      · rw [if_neg hkey, if_neg hkey]
        have hne : (key == k) = false := by
          rw [beq_eq_false_iff_ne]
          intro hh
          rw [hh] at hkey
          exact hkey hk
        simp only [List.lookup_cons, hne]
    · rw [List.filter_cons_of_pos (by simpa using hk)]
      simp only [List.lookup_cons]
      by_cases hkk : (key == k) = true
      · have : key = k := by simpa using hkk
        subst this
        simp only [beq_self_eq_true, if_neg hk]
      · have hkk1 : (key == k) = false := by simpa using hkk
        simp only [hkk1]
        exact ih

/-- C21: for every registry M and every frame number F,
`SatUtMac::RemovePastRandomAccessSlots (F)` leaves exactly the restriction of M
to the keys whose frame number is >= F: an entry is in the registry afterwards
exactly when it was in M and its frame number is >= F, the entries kept are in
their order, every key with frame number < F is absent afterwards, and every
key with frame number >= F maps to the slot set it had in M. -/
theorem RemovePastRandomAccessSlots_restricts (mac : SatUtMac) (F : uint32_t) :
    (∀ entry, entry ∈ (mac.RemovePastRandomAccessSlots F).m_usedRandomAccessSlots
        ↔ entry ∈ mac.m_usedRandomAccessSlots ∧ F ≤ entry.1.1)
      ∧ List.Sublist (mac.RemovePastRandomAccessSlots F).m_usedRandomAccessSlots
          mac.m_usedRandomAccessSlots
      ∧ (∀ key : uint32_t × uint32_t, key.1 < F →
          (mac.RemovePastRandomAccessSlots F).m_usedRandomAccessSlots.lookup key = none)
      ∧ (∀ key : uint32_t × uint32_t, F ≤ key.1 →
          (mac.RemovePastRandomAccessSlots F).m_usedRandomAccessSlots.lookup key
            = mac.m_usedRandomAccessSlots.lookup key) := by
  refine ⟨fun entry => ?_, ?_, fun key hkey => ?_, fun key hkey => ?_⟩
  · unfold SatUtMac.RemovePastRandomAccessSlots
    simp only [List.mem_filter, decide_eq_true_eq, not_lt]
  · unfold SatUtMac.RemovePastRandomAccessSlots
    exact List.filter_sublist _
  · unfold SatUtMac.RemovePastRandomAccessSlots
    simp only
    rw [lookup_filter_current, if_pos hkey]
  · unfold SatUtMac.RemovePastRandomAccessSlots
    simp only
    rw [lookup_filter_current, if_neg (not_lt.mpr hkey)]

/-- Witness of `RemovePastRandomAccessSlots_restricts`: pruning `usedMac` at
frame 5 removes the key (4, 0) and keeps the key (5, 1) with its slot set. -/
theorem RemovePastRandomAccessSlots_restricts_witness :
    ((4 : uint32_t), (0 : uint32_t)).1 < 5
      ∧ (usedMac.RemovePastRandomAccessSlots 5).m_usedRandomAccessSlots.lookup (4, 0) = none
      ∧ (5 : uint32_t) ≤ ((5 : uint32_t), (1 : uint32_t)).1
      ∧ (usedMac.RemovePastRandomAccessSlots 5).m_usedRandomAccessSlots.lookup (5, 1)
          = usedMac.m_usedRandomAccessSlots.lookup (5, 1) :=
  ⟨by decide, (RemovePastRandomAccessSlots_restricts usedMac 5).2.2.1 (4, 0) (by decide),
    by decide, (RemovePastRandomAccessSlots_restricts usedMac 5).2.2.2 (5, 1) (by decide)⟩

/-- The registry after pruning at frame 5, looked up at a key. -/
theorem RemovePast_lookup (mac : SatUtMac) (F : uint32_t) (key : uint32_t × uint32_t) :
    (mac.RemovePastRandomAccessSlots F).m_usedRandomAccessSlots.lookup key
      = if key.1 < F then none else mac.m_usedRandomAccessSlots.lookup key := by
  unfold SatUtMac.RemovePastRandomAccessSlots
  simp only
  rw [lookup_filter_current]

/-- The fault and the registry of the single-slot update depend on the registry
only. -/
theorem UpdateUsedRandomAccessSlots_congr (mac1 mac2 : SatUtMac) (c s : uint32_t)
    (h : mac1.m_usedRandomAccessSlots = mac2.m_usedRandomAccessSlots) :
    (mac1.UpdateUsedRandomAccessSlots c s).2 = (mac2.UpdateUsedRandomAccessSlots c s).2
      ∧ (mac1.UpdateUsedRandomAccessSlots c s).1.m_usedRandomAccessSlots
          = (mac2.UpdateUsedRandomAccessSlots c s).1.m_usedRandomAccessSlots := by
  unfold SatUtMac.UpdateUsedRandomAccessSlots SatUtMac.RemovePastRandomAccessSlots
  dsimp only
  rw [h]
  rcases List.lookup ((5 : uint32_t), c)
      (List.filter (fun entry => decide (¬ entry.1.1 < (5 : uint32_t)))
        mac2.m_usedRandomAccessSlots) with _ | slots
  · exact ⟨rfl, rfl⟩
  · dsimp only
    by_cases hs : s ∈ slots
    · rw [if_pos hs, if_pos hs]
      exact ⟨rfl, rfl⟩
    · rw [if_neg hs, if_neg hs]
      exact ⟨rfl, rfl⟩

/-- The slot search records slot id 10 whatever the registry holds: after a
successful search for a channel, a second search for the same channel fails with
the fatal error "Insert failed". -/
theorem FindNextAvailableRandomAccessSlot_again (mac : SatUtMac) (c : uint32_t)
    (h : (mac.FindNextAvailableRandomAccessSlot c).2 = none) :
    ((mac.FindNextAvailableRandomAccessSlot c).1.FindNextAvailableRandomAccessSlot c).2
      = some (.fatalError .raInsertFailed) := by
  have h2 := UpdateUsedRandomAccessSlots_again
    { mac with timingAdvanceCalls := mac.timingAdvanceCalls + 1 } c 10 h
  rw [← h2]
  exact (UpdateUsedRandomAccessSlots_congr
    { (mac.FindNextAvailableRandomAccessSlot c).1 with
      timingAdvanceCalls := (mac.FindNextAvailableRandomAccessSlot c).1.timingAdvanceCalls + 1 }
    (mac.FindNextAvailableRandomAccessSlot c).1 c 10 rfl).1

/-- The slot search fails when slot id 10 is already recorded for the channel in
the current frame. -/
theorem FindNextAvailableRandomAccessSlot_of_used (mac : SatUtMac) (c : uint32_t)
    (slots : Finset uint32_t)
    (hl : mac.m_usedRandomAccessSlots.lookup (5, c) = some slots) (hs : (10 : uint32_t) ∈ slots) :
    (mac.FindNextAvailableRandomAccessSlot c).2 = some (.fatalError .raInsertFailed) := by
  refine UpdateUsedRandomAccessSlots_of_mem
    { mac with timingAdvanceCalls := mac.timingAdvanceCalls + 1 } c 10 slots ?_ hs
  rw [RemovePast_lookup]
  exact (if_neg (by show ¬ (5 : uint32_t) < 5; decide)).trans hl

/-- C23 (the code at the failing input): on the empty registry of `exampleMac`
the first `SatUtMac::FindNextAvailableRandomAccessSlot (1)` succeeds and records
slot id 10 for the key (5, 1); the second search for channel 1 in the same frame
selects slot id 10 again and ends in the fatal error "Insert failed"; and on a
registry that holds slot id 10 for (5, 1) already, the first search fails in the
same way. -/
theorem FindNextAvailableRandomAccessSlot_double_allocation :
    (exampleMac.FindNextAvailableRandomAccessSlot 1).2 = none
      ∧ (exampleMac.FindNextAvailableRandomAccessSlot 1).1.m_usedRandomAccessSlots
          = [((5, 1), {10})]
      ∧ ((exampleMac.FindNextAvailableRandomAccessSlot 1).1.FindNextAvailableRandomAccessSlot
          1).2 = some (.fatalError .raInsertFailed)
      ∧ (SatUtMac.FindNextAvailableRandomAccessSlot
          { exampleMac with m_usedRandomAccessSlots := [((5, 1), {10})] } 1).2
          = some (.fatalError .raInsertFailed) := by
  refine ⟨by decide, by decide, ?_, ?_⟩
  · exact FindNextAvailableRandomAccessSlot_again exampleMac 1 (by decide)
  · exact FindNextAvailableRandomAccessSlot_of_used _ 1 {10} (by decide) (by decide)

/-! ## `SatUtMac::GetNextRandomAccessAllocationChannel` -/

/-- With a generator that honours its contract, the channel selected is at most
the configured channel count. -/
theorem GetNextRandomAccessAllocationChannel_le (ctx : RandomAccessContext)
    (h : ctx.DrawsInClosedInterval) :
    SatUtMac.GetNextRandomAccessAllocationChannel ctx ≤ ctx.GetRaServiceCount :=
  (h 0 ctx.GetRaServiceCount (Fin.zero_le _)).2

/-- The generator of `exampleContext` honours the contract of `GetInteger`. -/
theorem exampleContext_draws (n : uint32_t) (opportunity : RandomAccessTxOpportunities_s) :
    (exampleContext n opportunity).DrawsInClosedInterval := by
  intro min max hle
  exact ⟨hle, le_refl _⟩

/-- C24 (the code at the failing input): with n = 1 configured contention
channel and a generator that draws the upper end 1 of the closed interval
[0, 1], `SatUtMac::GetNextRandomAccessAllocationChannel` returns 1, which is not
among {0, ..., n - 1} = {0}; for every n, the draw n of
`GetInteger (0, n)` is within the contract of the generator and is returned, and
it is not below n. -/
theorem GetNextRandomAccessAllocationChannel_out_of_range :
    (exampleContext 1 (crdsaOpportunity 0 ∅)).DrawsInClosedInterval
      ∧ (exampleContext 1 (crdsaOpportunity 0 ∅)).GetRaServiceCount = 1
      ∧ SatUtMac.GetNextRandomAccessAllocationChannel (exampleContext 1 (crdsaOpportunity 0 ∅))
          = 1
      ∧ (∀ n : uint32_t,
          (exampleContext n (crdsaOpportunity 0 ∅)).DrawsInClosedInterval
            ∧ SatUtMac.GetNextRandomAccessAllocationChannel
                (exampleContext n (crdsaOpportunity 0 ∅)) = n
            ∧ ¬ (SatUtMac.GetNextRandomAccessAllocationChannel
                (exampleContext n (crdsaOpportunity 0 ∅))).val
                  < (exampleContext n (crdsaOpportunity 0 ∅)).GetRaServiceCount.val) :=
  ⟨exampleContext_draws _ _, rfl, rfl,
    fun _ => ⟨exampleContext_draws _ _, rfl, Nat.lt_irrefl _⟩⟩

/-! ## `SatUtMac::ReceiveSignalingPacket` -/

/-- C25: for every received control packet, `SatUtMac::ReceiveSignalingPacket`
invokes `ScheduleTimeSlots` with a message if and only if the control type is
TBTP and the lookup in the control-message store by the message id of the tag
returns that message, and the call then leaves what `ScheduleTimeSlots` leaves;
a TBTP lookup miss is the fatal error "TBTP not found ...", and every other
control type is the fatal error "SatUtMac received a non-supported control
packet!"; in both cases nothing is scheduled. -/
theorem ReceiveSignalingPacket_dispatch (mac : SatUtMac) (sim : Simulator)
    (m_readCtrlCallback : uint32_t → Option SatTbtpMessage) (ctrlTag : SatControlMsgTag) :
    (∀ tbtp : SatTbtpMessage,
        (mac.ReceiveSignalingPacket sim m_readCtrlCallback ctrlTag).scheduled = some tbtp
          ↔ ctrlTag.GetMsgType = .SAT_TBTP_CTRL_MSG
              ∧ m_readCtrlCallback ctrlTag.GetMsgId = some tbtp)
      ∧ (∀ tbtp : SatTbtpMessage,
          (mac.ReceiveSignalingPacket sim m_readCtrlCallback ctrlTag).scheduled = some tbtp →
          (mac.ReceiveSignalingPacket sim m_readCtrlCallback ctrlTag).run
            = mac.ScheduleTimeSlots sim tbtp)
      ∧ (ctrlTag.GetMsgType = .SAT_TBTP_CTRL_MSG → m_readCtrlCallback ctrlTag.GetMsgId = none →
          (mac.ReceiveSignalingPacket sim m_readCtrlCallback ctrlTag).run.fault
              = some (.fatalError .tbtpNotFound)
            ∧ (mac.ReceiveSignalingPacket sim m_readCtrlCallback ctrlTag).run.sim = sim)
      ∧ (ctrlTag.GetMsgType ≠ .SAT_TBTP_CTRL_MSG →
          (mac.ReceiveSignalingPacket sim m_readCtrlCallback ctrlTag).run.fault
              = some (.fatalError .nonSupportedControlPacket)
            ∧ (mac.ReceiveSignalingPacket sim m_readCtrlCallback ctrlTag).run.sim = sim) := by
  obtain ⟨ty, id⟩ := ctrlTag
  unfold SatUtMac.ReceiveSignalingPacket SatControlMsgTag.GetMsgType SatControlMsgTag.GetMsgId
  cases ty with
  | SAT_TBTP_CTRL_MSG =>
    dsimp only
    rcases hr : m_readCtrlCallback id with _ | msg
    · dsimp only
      refine ⟨fun tbtp => ?_, fun tbtp h => (by cases h), fun _ _ => ⟨rfl, rfl⟩,
        fun h => absurd rfl h⟩
      constructor
      · intro h; cases h
      · rintro ⟨_, h⟩; cases h
    · dsimp only
      refine ⟨fun tbtp => ?_, fun tbtp h => ?_, fun _ h => (by cases h), fun h => absurd rfl h⟩
      · constructor
        · intro h; exact ⟨rfl, h⟩
        · rintro ⟨_, h⟩; exact h
      · cases h; rfl
  | SAT_NON_CTRL_MSG =>
    dsimp only
    refine ⟨fun tbtp => ?_, fun tbtp h => (by cases h), fun h => (by cases h),
      fun _ => ⟨rfl, rfl⟩⟩
    constructor
    · intro h; cases h
    · rintro ⟨h, _⟩; cases h
  | SAT_CR_CTRL_MSG =>
    dsimp only
    refine ⟨fun tbtp => ?_, fun tbtp h => (by cases h), fun h => (by cases h),
      fun _ => ⟨rfl, rfl⟩⟩
    constructor
    · intro h; cases h
    · rintro ⟨h, _⟩; cases h
  | SAT_RA_CTRL_MSG =>
    dsimp only
    refine ⟨fun tbtp => ?_, fun tbtp h => (by cases h), fun h => (by cases h),
      fun _ => ⟨rfl, rfl⟩⟩
    constructor
    · intro h; cases h
    · rintro ⟨h, _⟩; cases h
  | other value =>
    dsimp only
    refine ⟨fun tbtp => ?_, fun tbtp h => (by cases h), fun h => (by cases h),
      fun _ => ⟨rfl, rfl⟩⟩
    constructor
    · intro h; cases h
    · rintro ⟨h, _⟩; cases h

/-- Witness of `ReceiveSignalingPacket_dispatch`: with `exampleStore`, a TBTP tag
with message id 3 invokes `ScheduleTimeSlots` with `exampleTbtp`, a TBTP tag with
message id 4 is a lookup miss, and a CR tag is not supported. -/
theorem ReceiveSignalingPacket_dispatch_witness :
    ((exampleMac.ReceiveSignalingPacket startSim exampleStore
          { m_msgType := .SAT_TBTP_CTRL_MSG, m_msgId := 3 }).scheduled = some exampleTbtp
        ∧ (exampleMac.ReceiveSignalingPacket startSim exampleStore
            { m_msgType := .SAT_TBTP_CTRL_MSG, m_msgId := 3 }).run
          = exampleMac.ScheduleTimeSlots startSim exampleTbtp)
      ∧ (SatControlMsgTag.GetMsgType { m_msgType := .SAT_TBTP_CTRL_MSG, m_msgId := 4 }
            = .SAT_TBTP_CTRL_MSG
        ∧ exampleStore (SatControlMsgTag.GetMsgId { m_msgType := .SAT_TBTP_CTRL_MSG, m_msgId := 4 })
            = none
        ∧ (exampleMac.ReceiveSignalingPacket startSim exampleStore
            { m_msgType := .SAT_TBTP_CTRL_MSG, m_msgId := 4 }).run.fault
              = some (.fatalError .tbtpNotFound)
        ∧ (exampleMac.ReceiveSignalingPacket startSim exampleStore
            { m_msgType := .SAT_TBTP_CTRL_MSG, m_msgId := 4 }).run.sim = startSim)
      ∧ (SatControlMsgTag.GetMsgType { m_msgType := .SAT_CR_CTRL_MSG, m_msgId := 3 }
            ≠ .SAT_TBTP_CTRL_MSG
        ∧ (exampleMac.ReceiveSignalingPacket startSim exampleStore
            { m_msgType := .SAT_CR_CTRL_MSG, m_msgId := 3 }).run.fault
              = some (.fatalError .nonSupportedControlPacket)
        ∧ (exampleMac.ReceiveSignalingPacket startSim exampleStore
            { m_msgType := .SAT_CR_CTRL_MSG, m_msgId := 3 }).run.sim = startSim) :=
  ⟨⟨rfl,
      (ReceiveSignalingPacket_dispatch exampleMac startSim exampleStore
        { m_msgType := .SAT_TBTP_CTRL_MSG, m_msgId := 3 }).2.1 exampleTbtp rfl⟩,
    ⟨rfl, rfl,
      (ReceiveSignalingPacket_dispatch exampleMac startSim exampleStore
        { m_msgType := .SAT_TBTP_CTRL_MSG, m_msgId := 4 }).2.2.1 rfl rfl⟩,
    ⟨by decide,
      (ReceiveSignalingPacket_dispatch exampleMac startSim exampleStore
        { m_msgType := .SAT_CR_CTRL_MSG, m_msgId := 3 }).2.2.2 (by decide)⟩⟩

/-! ## Construction of the geometry objects -/

/-- The carrier count of 0 Hz over units of a bandwidth other than zero is 0. -/
theorem conversion_zero (b : ℚ) (hb : b ≠ 0) : doubleToUint32 (doubleDiv 0 b) = .ok 0 := by
  rw [doubleDiv_zero b hb]
  have h := doubleToUint32_natCast 0 (by norm_num)
  rw [Nat.cast_zero] at h
  exact h

/-- C26 (as stated, refuted): the constructors accept a non-positive bandwidth
and a non-positive duration. `SatBtuConf (-1, -1, 1)`, `SatFrameConf (0, 0, btu,
NULL)`, `SatFrameConf (2, 0, btu, NULL)` and `SatSuperframeConf (-4, -1, frames)`
return objects that hold these values; the frame built with duration 0 and the
superframe built with bandwidth -4 and duration -1 answer their accessors like
any other. -/
theorem ctor_accepts_non_positive :
    SatBtuConf.ctor (-1) (-1) 1
        = { m_bandwidth_hz := -1, m_length_s := -1, m_symbolRate_baud := 1 }
      ∧ SatFrameConf.ctor 0 0 (exampleBtu 1) none
        = .ok { m_bandwidth_hz := 0, m_duration_s := 0, m_btu := exampleBtu 1,
                m_carrierCount := 0, m_timeSlots := [] }
      ∧ SatFrameConf.ctor 2 0 (exampleBtu 1) none = .ok (builtFrame 0 [])
      ∧ (builtFrame 0 []).m_duration_s = 0
      ∧ (builtFrame 0 []).GetCarrierCount = 2
      ∧ (builtFrame 0 []).GetCarrierFrequency_hz 1 = .ok (3 / 2)
      ∧ SatSuperframeConf.ctor (-4) (-1) (some [exampleFrame 2 1, exampleFrame 2 1])
        = { m_bandwidth_hz := -4, m_duration_s := -1,
            m_frames := [exampleFrame 2 1, exampleFrame 2 1] }
      ∧ (SatSuperframeConf.ctor (-4) (-1) (some [exampleFrame 2 1, exampleFrame 2 1])).GetCarrierId
          1 1 = .ok 3 := by
  refine ⟨rfl, ?_, ?_, rfl, rfl, ?_, rfl, by decide⟩
  · exact ctor_of_conversion 0 0 (exampleBtu 1) none 0 (conversion_zero _ (by
      show (1 : ℚ) ≠ 0
      norm_num))
  · exact ctor_of_conversion 2 0 (exampleBtu 1) none 2 conversion_two
  · simp [SatFrameConf.GetCarrierFrequency_hz, builtFrame, SatBtuConf.GetBandwidth_hz, exampleBtu]
    norm_num

/-- C26 (amended): construction with a non-positive bandwidth or a non-positive
duration is not rejected. For every argument list the constructors of
`SatBtuConf` and `SatSuperframeConf` return the object that holds the arguments
as given. The constructor of `SatFrameConf` returns a frame that holds its
bandwidth, duration, elementary unit and slots as given whenever the conversion
of the quotient of the bandwidth by the bandwidth of the unit to `uint32_t` is
defined, whatever the duration and the sign of the bandwidth; the conversion is
defined for bandwidth 0 over a unit of non-zero bandwidth. -/
theorem ctor_stores_arguments (bandwidth_hz duration_s symbolRate_baud : ℚ) (btu : SatBtuConf)
    (timeSlots : Option (List SatTimeSlotConf)) (frames : Option (List SatFrameConf)) :
    SatBtuConf.ctor bandwidth_hz duration_s symbolRate_baud
        = { m_bandwidth_hz := bandwidth_hz, m_length_s := duration_s,
            m_symbolRate_baud := symbolRate_baud }
      ∧ SatSuperframeConf.ctor bandwidth_hz duration_s frames
        = { m_bandwidth_hz := bandwidth_hz, m_duration_s := duration_s,
            m_frames := frames.getD [] }
      ∧ (∀ c : uint32_t,
          doubleToUint32 (doubleDiv bandwidth_hz btu.GetBandwidth_hz) = .ok c →
          ∃ f : SatFrameConf,
            SatFrameConf.ctor bandwidth_hz duration_s btu timeSlots = .ok f
              ∧ f.m_bandwidth_hz = bandwidth_hz ∧ f.m_duration_s = duration_s
              ∧ f.m_btu = btu ∧ f.m_timeSlots = slotList timeSlots [])
      ∧ (btu.GetBandwidth_hz ≠ 0 →
          ∃ f : SatFrameConf,
            SatFrameConf.ctor 0 duration_s btu timeSlots = .ok f
              ∧ f.m_bandwidth_hz = 0 ∧ f.m_duration_s = duration_s
              ∧ f.m_btu = btu ∧ f.m_timeSlots = slotList timeSlots []) := by
  refine ⟨rfl, ?_, fun c hc => ?_, fun hb => ?_⟩
  · cases frames <;> rfl
  · exact ⟨_, ctor_of_conversion _ _ _ _ c hc, rfl, rfl, rfl, rfl⟩
  · exact ⟨_, ctor_of_conversion _ _ _ _ 0 (conversion_zero _ hb), rfl, rfl, rfl, rfl⟩

/-- Witness of `ctor_stores_arguments`: a frame of 2 Hz over units of 1 Hz with
duration 0, and a frame of 0 Hz over units of 1 Hz with duration -1. -/
theorem ctor_stores_arguments_witness :
    (doubleToUint32 (doubleDiv 2 (exampleBtu 1).GetBandwidth_hz) = .ok 2
        ∧ ∃ f : SatFrameConf,
            SatFrameConf.ctor 2 0 (exampleBtu 1) none = .ok f
              ∧ f.m_bandwidth_hz = 2 ∧ f.m_duration_s = 0
              ∧ f.m_btu = exampleBtu 1 ∧ f.m_timeSlots = slotList none [])
      ∧ ((exampleBtu 1).GetBandwidth_hz ≠ 0
        ∧ ∃ f : SatFrameConf,
            SatFrameConf.ctor 0 (-1) (exampleBtu 1) none = .ok f
              ∧ f.m_bandwidth_hz = 0 ∧ f.m_duration_s = -1
              ∧ f.m_btu = exampleBtu 1 ∧ f.m_timeSlots = slotList none []) :=
  ⟨⟨conversion_two,
      (ctor_stores_arguments 2 0 1 (exampleBtu 1) none none).2.2.1 2 conversion_two⟩,
    ⟨by show (1 : ℚ) ≠ 0; norm_num,
      (ctor_stores_arguments 0 (-1) 1 (exampleBtu 1) none none).2.2.2
        (by show (1 : ℚ) ≠ 0; norm_num)⟩⟩

/-- With a negative whole quotient the conversion to the carrier count is
undefined: `SatFrameConf (-4, 1, btu, NULL)` over units of 1 Hz. -/
theorem ctor_negative_quotient :
    SatFrameConf.ctor (-4) 1 (exampleBtu 1) none = .error .undefinedConversion := by
  refine ctor_of_undefined _ _ _ _ _ ?_
  have h1 : (exampleBtu 1).GetBandwidth_hz = 1 := rfl
  rw [h1, doubleDiv_rounds _ _ one_ne_zero, div_one]
  have h := roundToDouble_intCast (-4) (by norm_num)
  norm_num at h
  rw [h]
  exact doubleToUint32_of_le_neg_one _ (by norm_num)

/-- With a unit of bandwidth zero the quotient is not finite and the conversion
to the carrier count is undefined. -/
theorem ctor_zero_divisor (bandwidth_hz duration_s length_s symbolRate_baud : ℚ)
    (timeSlots : Option (List SatTimeSlotConf)) :
    SatFrameConf.ctor bandwidth_hz duration_s (SatBtuConf.ctor 0 length_s symbolRate_baud)
      timeSlots = .error .undefinedConversion := by
  refine ctor_of_undefined _ _ _ _ _ ?_
  have h1 : (SatBtuConf.ctor 0 length_s symbolRate_baud).GetBandwidth_hz = 0 := rfl
  rw [h1]
  unfold doubleDiv
  rw [if_pos rfl]
  rfl

/-- C27 (as stated, refuted): the frame built with bandwidth 2 Hz over units of
1 Hz has 2 carriers; a time slot on local carrier 5, passed to the constructor or
to `AddTimeSlotConf`, is stored as it is; in the superframe made of this frame
the carrier id derived from the stored slot is 5, while `GetCarrierCount ()` is
2. -/
theorem build_stores_stray_carrier :
    SatFrameConf.build 2 1 (exampleBtu 1) none [strayCarrierSlot]
        = .ok (builtFrame 1 [strayCarrierSlot])
      ∧ SatFrameConf.build 2 1 (exampleBtu 1) (some [strayCarrierSlot]) []
        = .ok (builtFrame 1 [strayCarrierSlot])
      ∧ (builtFrame 1 [strayCarrierSlot]).m_timeSlots = [strayCarrierSlot]
      ∧ (builtFrame 1 [strayCarrierSlot]).GetCarrierCount = 2
      ∧ strayCarrierSlot.GetCarrierId.val = 5
      ∧ (SatSuperframeConf.ctor 2 1 (some [builtFrame 1 [strayCarrierSlot]])).GetCarrierId 0
            (toUint16 strayCarrierSlot.GetCarrierId.val) = .ok 5
      ∧ (SatSuperframeConf.ctor 2 1 (some [builtFrame 1 [strayCarrierSlot]])).GetCarrierCount
            2 = some 2 :=
  ⟨build_builtFrame 1 none [strayCarrierSlot], build_builtFrame 1 (some [strayCarrierSlot]) [],
    rfl, rfl, rfl, rfl, by decide⟩

/-- C27 (amended): `SatFrameConf::SatFrameConf` and `SatFrameConf::AddTimeSlotConf`
store the time slots passed to them without looking at their carrier-local ids:
the stored slots are the constructor slots followed by the added ones, and the
carrier count is the one computed by the constructor. Hence, for every frame
built from slots whose carrier-local ids are all strictly less than that carrier
count, every stored time slot has a carrier-local id strictly less than the
frame's carrier count; and in every superframe whose total carrier count is
below `2^32` and which has this frame at index k, the carrier id that
`ScheduleTimeSlots` derives from a stored slot is below the total carrier count,
which is what `GetCarrierCount ()` returns when the superframe has at most 255
frames. -/
theorem build_carrier_ids (bandwidth_hz duration_s : ℚ) (btu : SatBtuConf)
    (timeSlots : Option (List SatTimeSlotConf)) (added : List SatTimeSlotConf)
    (c : uint32_t)
    (hc : doubleToUint32 (doubleDiv bandwidth_hz btu.GetBandwidth_hz) = .ok c)
    (h : ∀ s ∈ slotList timeSlots added, s.GetCarrierId.val < c.val) :
    ∃ f : SatFrameConf,
      SatFrameConf.build bandwidth_hz duration_s btu timeSlots added = .ok f
        ∧ f.m_timeSlots = slotList timeSlots added
        ∧ f.GetCarrierCount = c.val
        ∧ (∀ s ∈ f.m_timeSlots, s.GetCarrierId.val < f.GetCarrierCount)
        ∧ (∀ (sf : SatSuperframeConf) (k : uint8_t) (hk : k.val < sf.m_frames.length),
            sf.m_frames.get ⟨k.val, hk⟩ = f →
            sf.totalCarriers < 4294967296 →
            ∀ s ∈ f.m_timeSlots,
              ∃ id, sf.GetCarrierId k (toUint16 s.GetCarrierId.val) = .ok id
                ∧ id < sf.totalCarriers
                ∧ (sf.m_frames.length ≤ 255 → ∀ fuel, sf.m_frames.length < fuel →
                    sf.GetCarrierCount fuel = some sf.totalCarriers)) := by
  refine ⟨_, build_of_conversion _ duration_s _ timeSlots added c hc, rfl, rfl, h, ?_⟩
  intro sf k hk hframe htotal s hs
  have hv : sf.ValidPair k (toUint16 s.GetCarrierId.val) := by
    refine ⟨hk, ?_⟩
    rw [hframe]
    exact Nat.lt_of_le_of_lt (Nat.mod_le _ _) (h s hs)
  obtain ⟨hid, hlt, hle⟩ := GetCarrierId_of_valid sf htotal k _ hv
  exact ⟨_, hid, Nat.lt_of_lt_of_le hlt hle,
    fun hlen fuel hfuel => GetCarrierCount_of_fit sf hlen htotal fuel hfuel⟩

/-- Witness of `build_carrier_ids`: the frame of 2 carriers built with one added
slot on local carrier 0. -/
theorem build_carrier_ids_witness :
    doubleToUint32 (doubleDiv 2 (exampleBtu 1).GetBandwidth_hz) = .ok 2
      ∧ (∀ s ∈ slotList none [exampleSlot 0], s.GetCarrierId.val < (2 : uint32_t).val)
      ∧ ∃ f : SatFrameConf,
          SatFrameConf.build 2 1 (exampleBtu 1) none [exampleSlot 0] = .ok f
            ∧ f.m_timeSlots = slotList none [exampleSlot 0]
            ∧ f.GetCarrierCount = (2 : uint32_t).val
            ∧ (∀ s ∈ f.m_timeSlots, s.GetCarrierId.val < f.GetCarrierCount)
            ∧ (∀ (sf : SatSuperframeConf) (k : uint8_t) (hk : k.val < sf.m_frames.length),
                sf.m_frames.get ⟨k.val, hk⟩ = f →
                sf.totalCarriers < 4294967296 →
                ∀ s ∈ f.m_timeSlots,
                  ∃ id, sf.GetCarrierId k (toUint16 s.GetCarrierId.val) = .ok id
                    ∧ id < sf.totalCarriers
                    ∧ (sf.m_frames.length ≤ 255 → ∀ fuel, sf.m_frames.length < fuel →
                        sf.GetCarrierCount fuel = some sf.totalCarriers)) :=
  have h : ∀ s ∈ slotList none [exampleSlot 0], s.GetCarrierId.val < (2 : uint32_t).val := by
    intro s hs
    simp only [slotList, List.nil_append, List.mem_singleton] at hs
    subst hs
    decide
  ⟨conversion_two, h,
    build_carrier_ids 2 1 (exampleBtu 1) none [exampleSlot 0] 2 conversion_two h⟩

/-! ## `SatUtMac::DoRandomAccess` -/

/-- The loop of `Transmit` against a queue whose units have a size of at least 1
and at most the byte bound: with more loop tests than remaining payload bytes it
returns, each request adds at most one to the record while the remaining
payload has a byte left, and the byte bounds of the record decrease strictly. -/
theorem Transmit_loop_terminates {σ : Type} (cb : TxOpportunityCallback σ) (addr : Mac48Address)
    (hcb : ∀ (q : σ) (bound : uint32_t) (p : Packet) (q1 : σ),
      cb q bound addr = (some p, q1) → 1 ≤ p.size.val ∧ p.size.val ≤ bound.val) :
    ∀ (fuel : Nat) (q : σ) (payloadLeft : Nat) (packets : List Packet)
      (requests : List (uint32_t × Option Packet)),
      payloadLeft < fuel → payloadLeft < 4294967296 →
      (∀ r ∈ requests, payloadLeft < r.1.val) →
      requests.Pairwise (fun a b => b.1.val < a.1.val) →
      (SatUtMac.Transmit.loop cb addr fuel q payloadLeft packets requests).status = .completed
        ∧ (SatUtMac.Transmit.loop cb addr fuel q payloadLeft packets requests).requests.length
            ≤ requests.length + payloadLeft
        ∧ (SatUtMac.Transmit.loop cb addr fuel q payloadLeft packets requests).requests.Pairwise
            (fun a b => b.1.val < a.1.val) := by
  intro fuel
  induction fuel with
  | zero => intro q payloadLeft packets requests hfuel; omega
  | succ n ih =>
    intro q payloadLeft packets requests hfuel h32 hbound hpair
    have hval := toUint32_val_of_lt payloadLeft h32
    have hsnoc : ∀ answer : Option Packet,
        (requests ++ [(toUint32 payloadLeft, answer)]).Pairwise
          (fun a b => b.1.val < a.1.val) := by
      intro answer
      rw [List.pairwise_append]
      refine ⟨hpair, List.pairwise_singleton _ _, fun a ha b hb => ?_⟩
      rw [List.mem_singleton] at hb
      subst hb
      show (toUint32 payloadLeft).val < a.1.val
      rw [hval]
      exact hbound a ha
    unfold SatUtMac.Transmit.loop
    by_cases hpl : payloadLeft > 0
    · rw [if_pos hpl]
      rcases hc : cb q (toUint32 payloadLeft) addr with ⟨_ | p, q1⟩
      · dsimp only
        refine ⟨rfl, ?_, hsnoc none⟩
        rw [List.length_append, List.length_singleton]
        omega
      · dsimp only
        obtain ⟨h1, h2⟩ := hcb q (toUint32 payloadLeft) p q1 hc
        rw [hval] at h2
        have hfit : payloadLeft ≥ p.GetSize.val := h2
        rw [if_pos hfit]
        have hsz : p.GetSize.val = p.size.val := rfl
        obtain ⟨hs, hl, hp⟩ := ih q1 (payloadLeft - p.GetSize.val) (packets ++ [p])
          (requests ++ [(toUint32 payloadLeft, some p)]) (by omega) (by omega)
          (fun r hr => by
            rw [List.mem_append, List.mem_singleton] at hr
            rcases hr with hr | hr
            · have := hbound r hr; omega
            · subst hr
              show payloadLeft - p.GetSize.val < (toUint32 payloadLeft).val
              rw [hval]; omega)
          (hsnoc (some p))
        refine ⟨hs, ?_, hp⟩
        rw [List.length_append, List.length_singleton] at hl
        omega
    · rw [if_neg hpl]
      exact ⟨rfl, Nat.le_add_right _ _, hpair⟩

/-- The queue `byteQueue` returns units of 1 byte, and only when the byte bound
is positive. -/
theorem byteQueue_contract (q : Unit) (bound : uint32_t) (addr : Mac48Address) (p : Packet)
    (q1 : Unit) (h : byteQueue q bound addr = (some p, q1)) :
    1 ≤ p.size.val ∧ p.size.val ≤ bound.val := by
  unfold byteQueue at h
  by_cases hb : bound.val = 0
  · rw [if_pos hb] at h
    cases h
  · rw [if_neg hb] at h
    cases h
    exact ⟨Nat.le_refl _, Nat.pos_of_ne_zero hb⟩

/-- C29: the transmit loop terminates. For every slot payload capacity P and
frame PDU header size H with P > H and every queue behaviour in which each
returned unit has a size of at least 1 and at most the requested byte bound,
`SatUtMac::Transmit`, given more than P - H loop tests, returns; it makes at most
P - H queue requests, and the byte bounds of its successive requests (the
remaining payload) decrease strictly. -/
theorem Transmit_terminates {σ : Type} (mac : SatUtMac) (cb : TxOpportunityCallback σ) (q : σ)
    (fuel : Nat) (durationInSecs : ℚ) (payloadBytes carrierId : uint32_t)
    (hPH : mac.m_framePduHeaderSizeInBytes.val < payloadBytes.val)
    (hcb : ∀ (q0 : σ) (bound : uint32_t) (addr : Mac48Address) (p : Packet) (q1 : σ),
      cb q0 bound addr = (some p, q1) → 1 ≤ p.size.val ∧ p.size.val ≤ bound.val)
    (hfuel : payloadBytes.val - mac.m_framePduHeaderSizeInBytes.val < fuel) :
    (mac.Transmit cb q fuel durationInSecs payloadBytes carrierId).status = .completed
      ∧ (mac.Transmit cb q fuel durationInSecs payloadBytes carrierId).requests.length
          ≤ payloadBytes.val - mac.m_framePduHeaderSizeInBytes.val
      ∧ (mac.Transmit cb q fuel durationInSecs payloadBytes carrierId).requests.Pairwise
          (fun a b => b.1.val < a.1.val) := by
  obtain ⟨hr, _, hs, _, _⟩ :=
    Transmit_of_gt mac cb q fuel durationInSecs payloadBytes carrierId hPH
  obtain ⟨h1, h2, h3⟩ := Transmit_loop_terminates cb mac.m_macAddress
    (fun q0 bound p q1 h => hcb q0 bound mac.m_macAddress p q1 h) fuel q
    (payloadBytes.val - mac.m_framePduHeaderSizeInBytes.val) [] [] hfuel
    (by have := payloadBytes.isLt; omega) (fun r hr => by cases hr) List.Pairwise.nil
  rw [hr, hs]
  refine ⟨h1, ?_, h3⟩
  simpa using h2

/-- Witness of `Transmit_terminates`: header 5, payload 8, a queue of units of
1 byte, 4 loop tests. -/
theorem Transmit_terminates_witness :
    headerMac.m_framePduHeaderSizeInBytes.val < (8 : uint32_t).val
      ∧ (∀ (q0 : Unit) (bound : uint32_t) (addr : Mac48Address) (p : Packet) (q1 : Unit),
          byteQueue q0 bound addr = (some p, q1) → 1 ≤ p.size.val ∧ p.size.val ≤ bound.val)
      ∧ (8 : uint32_t).val - headerMac.m_framePduHeaderSizeInBytes.val < 4
      ∧ (headerMac.Transmit byteQueue () 4 1 8 7).status = .completed
      ∧ (headerMac.Transmit byteQueue () 4 1 8 7).requests.length
          ≤ (8 : uint32_t).val - headerMac.m_framePduHeaderSizeInBytes.val
      ∧ (headerMac.Transmit byteQueue () 4 1 8 7).requests.Pairwise
          (fun a b => b.1.val < a.1.val) :=
  ⟨by decide, byteQueue_contract, by decide,
    Transmit_terminates headerMac byteQueue () 4 1 8 7 (by decide) byteQueue_contract
      (by decide)⟩

/-! ## The frequency of a carrier as an offset of its frame-local frequency -/

/-- C30 (as stated, refuted): in `wideSuperframe` the first frame has `2^32 - 1`
carriers and the pair (1, 1) is valid; `GetCarrierId (1, 1)` wraps to 0, and
`GetCarrierFrequency_hz (0)` is 1/2 Hz, the frequency of carrier 0 of frame 0,
whereas the bandwidth of frame 0 plus the frame-local frequency of carrier 1 of
frame 1 is 4294967295 + 3/2 Hz. -/
theorem GetCarrierFrequency_hz_wraps :
    wideSuperframe.FirstFrameHasCarrier
      ∧ wideSuperframe.ValidPair 1 1
      ∧ wideSuperframe.GetCarrierId 1 1 = .ok 0
      ∧ wideSuperframe.GetCarrierFrequency_hz 5 (toUint32 0) = some (.ok (1 / 2))
      ∧ bandwidthBefore wideSuperframe.m_frames 1 = 4294967295
      ∧ wideSuperframe.m_frames[1]? = some (exampleFrame 2 1)
      ∧ (exampleFrame 2 1).GetCarrierFrequency_hz 1 = .ok (3 / 2)
      ∧ (1 / 2 : ℚ) ≠ 4294967295 + 3 / 2 := by
  refine ⟨⟨_, _, rfl, by decide⟩, ⟨by decide, by decide⟩, by decide, ?_, ?_, rfl, ?_,
    by norm_num⟩
  · simp [SatSuperframeConf.GetCarrierFrequency_hz, SatSuperframeConf.GetCarrierFrequency_hz.scan,
      frameAt, wideSuperframe, exampleFrame, exampleBtu, toUint32,
      SatFrameConf.GetCarrierCount, SatFrameConf.GetBandwidth_hz,
      SatFrameConf.GetCarrierFrequency_hz, SatBtuConf.GetBandwidth_hz]
    rw [if_pos (by decide)]
  · simp [bandwidthBefore, wideSuperframe, exampleFrame, SatFrameConf.GetBandwidth_hz]
  · simp [SatFrameConf.GetCarrierFrequency_hz, exampleFrame, exampleBtu, toUint32,
      SatBtuConf.GetBandwidth_hz]
    norm_num

/-- C30 (amended): for every superframe whose first frame has at least one
carrier and whose total carrier count is below `2^32`, and every valid pair
(k, L), `GetCarrierId (k, L)` returns an id, `frame_k.GetCarrierFrequency_hz (L)`
returns the frame-local centre frequency B_k * L + B_k / 2, and
`SatSuperframeConf::GetCarrierFrequency_hz` of that id, given more than k loop
tests, returns the sum of the bandwidths of frames 0..k-1 plus that frame-local
frequency. -/
theorem GetCarrierFrequency_hz_offset (sf : SatSuperframeConf)
    (h0 : sf.FirstFrameHasCarrier) (htotal : sf.totalCarriers < 4294967296) (k : uint8_t)
    (L : uint16_t) (hv : sf.ValidPair k L) (fuel : Nat) (hfuel : k.val < fuel) :
    ∃ (id : Nat) (hk : k.val < sf.m_frames.length),
      sf.GetCarrierId k L = .ok id
        ∧ (sf.m_frames.get ⟨k.val, hk⟩).GetCarrierFrequency_hz (toUint32 L.val)
            = .ok ((sf.m_frames.get ⟨k.val, hk⟩).GetCarrierBandwidth_hz * (L.val : ℚ)
                + (sf.m_frames.get ⟨k.val, hk⟩).GetCarrierBandwidth_hz / 2)
        ∧ sf.GetCarrierFrequency_hz fuel (toUint32 id)
            = some (.ok (((sf.m_frames.take k.val).map SatFrameConf.GetBandwidth_hz).sum
                + ((sf.m_frames.get ⟨k.val, hk⟩).GetCarrierBandwidth_hz * (L.val : ℚ)
                  + (sf.m_frames.get ⟨k.val, hk⟩).GetCarrierBandwidth_hz / 2))) := by
  obtain ⟨hid, hlt, _⟩ := GetCarrierId_of_valid sf htotal k L hv
  obtain ⟨hk, hL⟩ := hv
  have hL32 : (toUint32 L.val).val = L.val :=
    Nat.mod_eq_of_lt (Nat.lt_trans L.isLt (by decide))
  have hloc : (sf.m_frames.get ⟨k.val, hk⟩).GetCarrierFrequency_hz (toUint32 L.val)
      = .ok ((sf.m_frames.get ⟨k.val, hk⟩).GetCarrierBandwidth_hz * (L.val : ℚ)
          + (sf.m_frames.get ⟨k.val, hk⟩).GetCarrierBandwidth_hz / 2) := by
    have hL1 : (toUint32 L.val).val < (sf.m_frames.get ⟨k.val, hk⟩).m_carrierCount.val := by
      rw [hL32]; exact hL
    unfold SatFrameConf.GetCarrierFrequency_hz SatFrameConf.GetCarrierBandwidth_hz
    rw [if_pos hL1, hL32]
  have hglob := GetCarrierFrequency_hz_located sf h0 htotal
    (carriersBefore sf.m_frames k.val + L.val) k.val hk (Nat.lt_trans k.isLt (by decide))
    (Nat.le_add_right _ _) hlt fuel hfuel
  rw [Nat.add_sub_cancel_left, hloc] at hglob
  dsimp only at hglob
  exact ⟨_, hk, hid, hloc, hglob⟩

/-- Witness of `GetCarrierFrequency_hz_offset`: the pair (1, 1) of
`twoFrameSuperframe`, scanned with 5 loop tests. -/
theorem GetCarrierFrequency_hz_offset_witness :
    twoFrameSuperframe.FirstFrameHasCarrier ∧ twoFrameSuperframe.totalCarriers < 4294967296
      ∧ twoFrameSuperframe.ValidPair 1 1 ∧ (1 : uint8_t).val < 5
      ∧ ∃ (id : Nat) (hk : (1 : uint8_t).val < twoFrameSuperframe.m_frames.length),
          twoFrameSuperframe.GetCarrierId 1 1 = .ok id
            ∧ (twoFrameSuperframe.m_frames.get ⟨(1 : uint8_t).val, hk⟩).GetCarrierFrequency_hz
                (toUint32 (1 : uint16_t).val)
              = .ok ((twoFrameSuperframe.m_frames.get
                      ⟨(1 : uint8_t).val, hk⟩).GetCarrierBandwidth_hz * ((1 : uint16_t).val : ℚ)
                  + (twoFrameSuperframe.m_frames.get
                      ⟨(1 : uint8_t).val, hk⟩).GetCarrierBandwidth_hz / 2)
            ∧ twoFrameSuperframe.GetCarrierFrequency_hz 5 (toUint32 id)
              = some (.ok (((twoFrameSuperframe.m_frames.take (1 : uint8_t).val).map
                      SatFrameConf.GetBandwidth_hz).sum
                  + ((twoFrameSuperframe.m_frames.get
                        ⟨(1 : uint8_t).val, hk⟩).GetCarrierBandwidth_hz
                      * ((1 : uint16_t).val : ℚ)
                    + (twoFrameSuperframe.m_frames.get
                        ⟨(1 : uint8_t).val, hk⟩).GetCarrierBandwidth_hz / 2))) :=
  ⟨⟨_, _, rfl, by decide⟩, by decide, ⟨by decide, by decide⟩, by decide,
    GetCarrierFrequency_hz_offset twoFrameSuperframe ⟨_, _, rfl, by decide⟩ (by decide)
      1 1 ⟨by decide, by decide⟩ 5 (by decide)⟩

end ns3
